import Mathlib

/-!
The metadata cache of glyr (`lib/cache.c`).

A shallow embedding of the cache engine of glyr and proofs about it, with the
validator of the lyrics getter (`lib/intern/lyrics.c`).

* C strings are `String`, a `NULL` pointer is `none`.
* Blobs (`data`, `md5sum`) are lists of byte values.
* `gint`/`int` values are `Int`; the columns read back by the callbacks were
  written with `sqlite3_bind_int`, so they are in `int` range and the
  `strtol` of their decimal rendering is the stored value.  The counters
  count rows of a select that is cut by `LIMIT query->number`; the select of
  the export has no limit, and the statement about it is for at most
  `G_MAXINT` rows, the range of its counter.
* Statement text is modelled where strings are written into it: the
  predicates of `ADD_CONSTRAINT`, the statements of `INSERT_STRING` and
  `insert_cache_data` and the provider list.  The provider list is pasted into
  the selects as it is: the test `provider_name IN(...)` is decided on the
  text, read as a list of string literals (`read_in_list`); what the engine
  does with any other text is `Env.sql_in_list`.
* The in-memory result chain (`GlyrMemCache` linked through `next`/`prev`) is
  the list of its entries in forward (`next`) order; the section on the list
  in memory has the same function on linked nodes and relates the two.
* The database connection is a value of type `GlyrDatabase`: the dimension tables,
  the `metadata` table and whether a transaction is open.
* What `cache.c` takes from other translation units (requirement table, type
  macros, provider registry, GLib and SQLite string functions) is collected
  in the structure `Env`, together with what the engine leaves open: the
  order in which a select visits the rows and whether it sees rows removed
  while it runs.
-/

namespace Glyr

/-! ## Data model -/

/-- Raw bytes of a blob. -/
abbrev Bytes := List Nat

/-- Clock reading of `get_current_time` / the `timestamp` column. -/
abbrev Timestamp := Nat

/-- The fields of `GlyrMemCache` used by `cache.c`.  The links `next` and
`prev` are represented by the position of the entry in its list. -/
structure GlyrMemCache where
  data : Option Bytes
  size : Int
  dsrc : Option String
  prov : Option String
  type : Int
  duration : Int
  rating : Int
  is_image : Int
  img_format : Option String
  md5sum : Bytes
  cached : Bool
  timestamp : Timestamp
deriving DecidableEq, Repr

/-- The fields of `GlyrQuery` used by `cache.c` (`from_` is the C field `from`). -/
structure GlyrQuery where
  type : Int
  artist : Option String
  album : Option String
  title : Option String
  number : Int
  download : Bool
  from_ : Option String
deriving DecidableEq, Repr

/-- The bit tests `(reqs & GLYR_REQUIRES_ARTIST) != 0` ... on a
`GLYR_FIELD_REQUIREMENT` value, one Boolean per flag. -/
structure GLYR_FIELD_REQUIREMENT where
  requires_artist : Bool
  requires_album : Bool
  requires_title : Bool
  optional_artist : Bool
  optional_album : Bool
  optional_title : Bool
deriving DecidableEq, Repr

/-- An entry of the provider registry (`MetaDataSource`): its name and the
subject type it serves. -/
structure MetaDataSource where
  name : String
  type : Int
deriving DecidableEq, Repr

/-! ## Store, rows and compiled constraints -/

/-- A row of the table `metadata` (`create_table_defs`).  The integer columns
and the checksum are always bound by `insert_cache_data`; the ids, the source
url and the payload can be `NULL`. -/
structure MetaRow where
  artist_id : Option Nat
  album_id : Option Nat
  title_id : Option Nat
  provider_id : Option Nat
  source_url : Option String
  image_type_id : Option Nat
  track_duration : Int
  get_type : Int
  data_type : Int
  data_size : Int
  data_is_image : Int
  data_checksum : Bytes
  data : Option Bytes
  rating : Int
  timestamp : Timestamp
deriving DecidableEq, Repr

/-- The state behind a `GlyrDatabase` handle.  A dimension table is the list of
its names in rowid order: nothing deletes from these tables, so the row at
position `i` has rowid `i + 1`.  `metadata` is in rowid order; the order in
which a select visits it is `Env.scan_order`.  `in_transaction` is true while a
`BEGIN` has not been followed by its `COMMIT`. -/
structure GlyrDatabase where
  providers : List String
  artists : List String
  albums : List String
  titles : List String
  image_types : List String
  metadata : List MetaRow
  in_transaction : Bool
deriving DecidableEq, Repr

/-- The predicate text `AND <FIELDNAME> = '<lower>'` produced by
`ADD_CONSTRAINT`, kept as its two arguments. -/
structure Constraint where
  FIELDNAME : String
  lower : String
deriving DecidableEq, Repr

/-- The parts that `glyr_db_lookup` and `glyr_db_delete` compile into their
select: the three field predicates, the text of the provider list, which is
pasted between the parentheses of `IN(...)`, and the link predicate (`none` is
the empty text, `some true` is `AND data_type = IMG_URL`, `some false` is
`AND NOT data_type = IMG_URL`). -/
structure Compiled where
  artist_constr : Option Constraint
  album_constr : Option Constraint
  title_constr : Option Constraint
  from_argument_list : String
  img_url_constr : Option Bool
deriving DecidableEq, Repr

/-- Everything `cache.c` uses but does not define. -/
structure Env where
  /-- The table behind `get_req`. -/
  glyr_get_requirements : Int → GLYR_FIELD_REQUIREMENT
  /-- The macro `TYPE_IS_IMAGE`. -/
  TYPE_IS_IMAGE : Int → Bool
  /-- The artifact type of a link to an image. -/
  GLYR_TYPE_IMG_URL : Int
  /-- The wildcard subject type. -/
  GLYR_GET_ANY : Int
  /-- The provider registry, in list order. -/
  r_getSList : List MetaDataSource
  /-- Whether the query enables the provider. -/
  provider_is_enabled : GlyrQuery → MetaDataSource → Bool
  /-- Lower-casing of GLib, used by the C side. -/
  g_utf8_strdown : String → String
  /-- The SQL function `LOWER` of the engine. -/
  sql_lower : String → String
  /-- What the engine makes of the test `provider_name IN(text)` for a text that
  is not a comma-separated list of string literals (such a list is read by
  `read_in_list`): `none` when the statement does not parse, otherwise the test
  on the provider name that the text stands for. -/
  sql_in_list : String → Option (String → Bool)
  /-- The fresh entry returned by `DL_init`. -/
  DL_init : GlyrMemCache
  /-- The query left by `glyr_query_init`. -/
  glyr_query_init : GlyrQuery
  /-- The rows of `metadata` in the order in which a select visits them, which
  the engine chooses for the statement: the arguments are whether it is the
  select of the lookup (or that of the delete), the subject type, the compiled
  constraints, the limit and the store. -/
  scan_order : Bool → Int → Compiled → Int → GlyrDatabase → List MetaRow
  /-- The scan visits every row once. -/
  scan_order_perm : ∀ b t c n db, (scan_order b t c n db).Perm db.metadata
  /-- Whether a running select notices that a statement on its own connection
  has removed a row it has not yet produced.  The engine leaves this open. -/
  select_sees_deletes : Bool

/-! ## The rating-ordered result list -/

/-- The function `add_to_cache_list` on the list of entries in `next` order: the
first loop walks over the entries whose rating is below the rating of `to_add`;
the new entry is spliced in before the entry the walk stopped at
(`head != NULL`) or linked after the last one (`head == NULL`).  The same
function on linked nodes is `add_to_cache_list_mem` below, and
`add_to_cache_list_mem_spec` shows that on a well-formed chain it computes
this list. -/
def add_to_cache_list : List GlyrMemCache → GlyrMemCache → List GlyrMemCache
  | [], to_add => [to_add]
  | head :: rest, to_add =>
    if head.rating < to_add.rating then head :: add_to_cache_list rest to_add
    else to_add :: head :: rest

/-! ## The result list in memory -/

/-- A `GlyrMemCache` in memory: its fields and the two links, each an address
or `NULL`. -/
structure CacheNode where
  entry : GlyrMemCache
  next : Option Nat
  prev : Option Nat
deriving DecidableEq, Repr

/-- The memory that holds the entries: address to node. -/
abbrev Memory := Nat → Option CacheNode

/-- The assignment `a->next = p`. -/
def set_next (mem : Memory) (a : Nat) (p : Option Nat) : Memory :=
  fun x => if x = a then (mem a).map (fun n => { n with next := p }) else mem x

/-- The assignment `a->prev = p`. -/
def set_prev (mem : Memory) (a : Nat) (p : Option Nat) : Memory :=
  fun x => if x = a then (mem a).map (fun n => { n with prev := p }) else mem x

/-- The first loop of `add_to_cache_list`, started with `tail` and `head`: it
returns the final `tail` and `head`, or `none` when the fuel is used up or a
link is dangling. -/
def find_place (mem : Memory) (rating : Int) : Nat → Nat → Option Nat → Option (Nat × Option Nat)
  | 0, _, _ => none
  | _ + 1, tail, none => some (tail, none)
  | fuel + 1, tail, some h =>
    match mem h with
    | some n =>
      if n.entry.rating < rating then find_place mem rating fuel h n.next
      else some (tail, some h)
    | none => none

/-- The second loop of `add_to_cache_list`: it walks back over the `prev`
links from `iter` while the rating is `cRating` and returns the count `my_ctr`
(which the function only prints), or `none` when the fuel is used up or a link
is dangling. -/
def count_in_row (mem : Memory) (cRating : Int) : Nat → Option Nat → Option Nat
  | 0, _ => none
  | _ + 1, none => some 0
  | fuel + 1, some i =>
    match mem i with
    | some n =>
      if n.entry.rating = cRating then (count_in_row mem cRating fuel n.prev).map (· + 1)
      else some 0
    | none => none

/-- The function `add_to_cache_list` on the memory: `list` is the value of
`*list`, `to_add` the address of the new entry.  It returns the memory and the
value of `*list` afterwards, or `none` when a loop runs out of fuel or a link is
dangling. -/
def add_to_cache_list_mem (fuel : Nat) (mem : Memory) (list : Option Nat) (to_add : Nat) :
    Option (Memory × Option Nat) :=
  match list with
  | none => some (mem, some to_add)
  | some first =>
    match mem to_add with
    | none => none
    | some new =>
      match find_place mem new.entry.rating fuel first (some first) with
      | none => none
      | some (tail, head) =>
        match mem tail with
        | none => none
        | some tn =>
          match count_in_row mem tn.entry.rating fuel (some tail) with
          | none => none
          | some _ =>
            match head with
            | some head =>
              match mem head with
              | none => none
              | some hn =>
                let prev := hn.prev
                let mem1 := match prev with
                  | some p => set_next mem p (some to_add)
                  | none => mem
                let mem2 := set_prev mem1 to_add prev
                let mem3 := set_next mem2 to_add (some head)
                let mem4 := set_prev mem3 head (some to_add)
                some (mem4, if prev = none then some to_add else list)
            | none =>
              some (set_prev (set_next mem tail (some to_add)) to_add (some tail), list)

/-- The nodes at the addresses `addrs` are linked in this order: the segment
starts at the pointer `p`, the first node has `prev` as its `prev` link, each
`next` link points to the following node and the last one to `q`. -/
def is_seg (mem : Memory) : Option Nat → Option Nat → List Nat → Option Nat → Prop
  | p, _, [], q => p = q
  | p, prev, a :: rest, q =>
    p = some a ∧ ∃ n, mem a = some n ∧ n.prev = prev ∧ is_seg mem n.next (some a) rest q

/-- The entries stored at the addresses. -/
def entries (mem : Memory) (addrs : List Nat) : List GlyrMemCache :=
  addrs.filterMap (fun a => (mem a).map (fun n => n.entry))

/-- The pointer to the last node of a segment, `prev` for the empty one. -/
def last_ptr : Option Nat → List Nat → Option Nat
  | prev, [] => prev
  | _, a :: rest => last_ptr (some a) rest

/-! ## Rows handed to the callbacks -/

/-- The `argv` of a row of the 15-column selects of `glyr_db_lookup` and
`glyr_db_foreach`; a SQL `NULL` is `none`. -/
structure SelectArgv where
  artist_name : Option String
  album_name : Option String
  title_name : Option String
  provider_name : Option String
  source_url : Option String
  image_type_name : Option String
  track_duration : Option Int
  get_type : Option Int
  data_type : Option Int
  data_size : Option Int
  data_is_image : Option Int
  data_checksum : Option Bytes
  data : Option Bytes
  rating : Option Int
  timestamp : Option Timestamp
deriving DecidableEq, Repr

/-- A row as delivered by `sqlite3_exec`: column count and column values. -/
structure SelectRow where
  argc : Nat
  argv : SelectArgv
deriving DecidableEq, Repr

/-- The visitor of `glyr_db_foreach`: it sees the query, the entry and the
user state and answers with its return code and the new user state. -/
abbrev glyr_foreach_callback (U : Type) := GlyrQuery → GlyrMemCache → U → Int × U

/-- The accumulator `select_callback_data`.  `result` is `none` for a `NULL`
list pointer, otherwise the list it points to. -/
structure select_callback_data (U : Type) where
  result : Option (List GlyrMemCache)
  query : GlyrQuery
  counter : Int
  cb : Option (glyr_foreach_callback U)
  userptr : U

/-- The entry `select_callback` builds from a row (lines 784-807). -/
def cache_of_row (env : Env) (argv : SelectArgv) : GlyrMemCache :=
  let size := argv.data_size.getD 0
  { env.DL_init with
    prov := argv.provider_name
    dsrc := argv.source_url
    img_format := argv.image_type_name
    duration := argv.track_duration.getD 0
    type := argv.data_type.getD 0
    size := size
    is_image := argv.data_is_image.getD 0
    md5sum := match argv.data_checksum with
      | some sum => sum
      | none => env.DL_init.md5sum
    data := match argv.data with
      | some blob => if 0 < size then some (blob.take size.toNat) else env.DL_init.data
      | none => env.DL_init.data
    rating := argv.rating.getD 0
    timestamp := argv.timestamp.getD 0
    cached := true }

/-- The query `select_callback` hands to the visitor. -/
def query_of_row (env : Env) (argv : SelectArgv) : GlyrQuery :=
  let q := env.glyr_query_init
  let q := match argv.get_type with
    | some t => { q with type := t }
    | none => q
  { q with artist := argv.artist_name, album := argv.album_name, title := argv.title_name }

/-- The callback `select_callback`: returns the updated accumulator and the return code.
The guarded block builds the entry and either merges it into the list or hands
it to the visitor; `data->counter++` runs for every row. -/
def select_callback {U : Type} (env : Env) (data : select_callback_data U) (row : SelectRow) :
    select_callback_data U × Int :=
  let r : select_callback_data U × Int :=
    if 15 ≤ row.argc ∧ data.counter < data.query.number then
      let cache := cache_of_row env row.argv
      match data.result with
      | some list => ({ data with result := some (add_to_cache_list list cache) }, 0)
      | none =>
        match data.cb with
        | some cb =>
          let v := cb (query_of_row env row.argv) cache data.userptr
          ({ data with userptr := v.2 }, v.1)
        | none => (data, 0)
    else (data, 0)
  ({ r.1 with counter := r.1.counter + 1 }, r.2)

/-- The row loop of `sqlite3_exec` with `select_callback`: one call per row,
stopped by a non-zero return code. -/
def exec_select {U : Type} (env : Env) :
    select_callback_data U → List SelectRow → select_callback_data U
  | data, [] => data
  | data, row :: rows =>
    let r := select_callback env data row
    if r.2 = 0 then exec_select env r.1 rows else r.1

/-! ## Tables and statements -/

/-- The scalar sub-select `SELECT rowid FROM <table> WHERE <name column> = x`. -/
def rowid_of : List String → String → Option Nat
  | [], _ => none
  | y :: ys, x => if y = x then some 1 else (rowid_of ys x).map (· + 1)

/-- The name a `JOIN ... ON rowid = id` attaches for rowid `id`. -/
def name_at : List String → Nat → Option String
  | [], _ => none
  | _ :: _, 0 => none
  | y :: ys, n + 1 => if n = 0 then some y else name_at ys n

/-- The joined name column of a `LEFT JOIN`: `NULL` for a `NULL` or dangling id. -/
def left_join (tbl : List String) (id : Option Nat) : Option String :=
  id.bind (name_at tbl)

/-- The statement `INSERT OR IGNORE INTO <table> VALUES(name)` on a table with a
`UNIQUE` name column. -/
def insert_or_ignore (tbl : List String) (name : String) : List String :=
  if name ∈ tbl then tbl else tbl ++ [name]

/-- The call `execute(db,"BEGIN IMMEDIATE;")`: it fails (logged) inside a
transaction. -/
def execute_begin (db : GlyrDatabase) : GlyrDatabase :=
  if db.in_transaction then db else { db with in_transaction := true }

/-- The call `execute(db,"COMMIT;")`: it ends the open transaction and fails
(logged) without one. -/
def execute_commit (db : GlyrDatabase) : GlyrDatabase :=
  { db with in_transaction := false }

/-- What `%q` renders for its argument: the text itself (the quote doubling is
undone when the statement is read), `(NULL)` for a `NULL` pointer. -/
def mprintf_q (arg : Option String) : String :=
  arg.getD "(NULL)"

/-- The function `get_req` for a non-NULL query. -/
def get_req (env : Env) (q : GlyrQuery) : GLYR_FIELD_REQUIREMENT :=
  env.glyr_get_requirements q.type

/-! ## Insert -/

/-- The row that the statement of `insert_cache_data` offers to `metadata`. -/
def new_row (env : Env) (db : GlyrDatabase) (query : GlyrQuery) (cache : GlyrMemCache)
    (now : Timestamp) : MetaRow :=
  { artist_id := rowid_of db.artists (env.sql_lower (mprintf_q query.artist))
    album_id := rowid_of db.albums (env.sql_lower (mprintf_q query.album))
    title_id := rowid_of db.titles (env.sql_lower (mprintf_q query.title))
    provider_id := rowid_of db.providers (env.sql_lower (mprintf_q (some (cache.prov.getD "none"))))
    source_url := cache.dsrc
    image_type_id := rowid_of db.image_types (env.sql_lower (mprintf_q cache.img_format))
    track_duration := cache.duration
    get_type := query.type
    data_type := cache.type
    data_size := cache.size
    data_is_image := cache.is_image
    data_checksum := cache.md5sum
    data := cache.data.map (fun d => d.take cache.size.toNat)
    rating := cache.rating
    timestamp := now }

/-- The unique index `index_unique` on (get_type, data_type, data_checksum,
source_url): two rows collide when the four columns are equal and none is
`NULL`; only `source_url` can be `NULL`. -/
def index_unique_collides (r new : MetaRow) : Bool :=
  r.get_type == new.get_type && r.data_type == new.data_type &&
    r.data_checksum == new.data_checksum &&
    (r.source_url.isSome && r.source_url == new.source_url)

/-- The function `insert_cache_data`: `INSERT OR IGNORE INTO metadata`, `now` being the
reading of `get_current_time`. -/
def insert_cache_data (env : Env) (db : GlyrDatabase) (query : GlyrQuery) (cache : GlyrMemCache)
    (now : Timestamp) : GlyrDatabase :=
  let row := new_row env db query cache now
  if db.metadata.any (fun r => index_unique_collides r row) then db
  else { db with metadata := db.metadata ++ [row] }

/-- The macro `INSERT_STRING` on a dimension table: nothing for a `NULL` argument,
otherwise the lower-cased value is inserted unless present. -/
def INSERT_STRING (env : Env) (tbl : List String) (ARG : Option String) : List String :=
  match ARG with
  | some arg => insert_or_ignore tbl (env.g_utf8_strdown arg)
  | none => tbl

/-- The function `glyr_db_insert` for non-NULL arguments.  Each `ABORT_ON_FAILED_REQS`
returns from the function at once. -/
def glyr_db_insert (env : Env) (db : GlyrDatabase) (q : GlyrQuery) (cache : GlyrMemCache)
    (now : Timestamp) : GlyrDatabase :=
  let reqs := get_req env q
  let db := execute_begin db
  if (reqs.requires_artist || reqs.optional_artist) && q.artist.isNone then db else
  let db := if reqs.requires_artist || reqs.optional_artist
    then { db with artists := INSERT_STRING env db.artists q.artist } else db
  if (reqs.requires_album || reqs.optional_album) && q.album.isNone then db else
  let db := if reqs.requires_album || reqs.optional_album
    then { db with albums := INSERT_STRING env db.albums q.album } else db
  if (reqs.requires_title || reqs.optional_title) && q.title.isNone then db else
  let db := if reqs.requires_title || reqs.optional_title
    then { db with titles := INSERT_STRING env db.titles q.title } else db
  let provider := cache.prov.getD "none"
  let db := { db with providers := INSERT_STRING env db.providers (some provider) }
  let db := insert_cache_data env db q cache now
  execute_commit db

/-! ## The provider list as the engine reads it -/

/-- The single quote. -/
def quote : Char := Char.ofNat 39

/-- The comma. -/
def comma : Char := Char.ofNat 44

/-- Space, tab, line feed and carriage return. -/
def is_blank (c : Char) : Bool :=
  c = Char.ofNat 32 || c = Char.ofNat 9 || c = Char.ofNat 10 || c = Char.ofNat 13

/-- Where the reader of a list of string literals stands: a literal has to
start; it is inside a literal (with the characters read so far, last one
first); inside a literal it has just read a single quote, which ends the
literal unless a second one follows; or the literal has ended and blanks came
after it. -/
inductive ListState where
  | start
  | inside (acc : List Char)
  | quoted (acc : List Char)
  | ended (acc : List Char)
deriving DecidableEq, Repr

/-- The reader of the text between the parentheses of `IN(...)` as a
comma-separated list of string literals, in which two single quotes stand for
one: the values of the literals, or `none` when the text is not such a list. -/
def read_in_list_from : ListState → List Char → Option (List String)
  | .start, [] => none
  | .start, c :: rest =>
    if c = quote then read_in_list_from (.inside []) rest
    else if is_blank c then read_in_list_from .start rest
    else none
  | .inside _, [] => none
  | .inside acc, c :: rest =>
    if c = quote then read_in_list_from (.quoted acc) rest
    else read_in_list_from (.inside (c :: acc)) rest
  | .quoted acc, [] => some [String.mk acc.reverse]
  | .quoted acc, c :: rest =>
    if c = quote then read_in_list_from (.inside (quote :: acc)) rest
    else if c = comma then
      (read_in_list_from .start rest).map (fun l => String.mk acc.reverse :: l)
    else if is_blank c then read_in_list_from (.ended acc) rest
    else none
  | .ended acc, [] => some [String.mk acc.reverse]
  | .ended acc, c :: rest =>
    if c = comma then
      (read_in_list_from .start rest).map (fun l => String.mk acc.reverse :: l)
    else if is_blank c then read_in_list_from (.ended acc) rest
    else none

/-- The string literals of a provider list text, `none` when the text is not a
comma-separated list of string literals. -/
def read_in_list (text : String) : Option (List String) :=
  read_in_list_from .start text.data

/-- The test `provider_name IN(text)` on a provider name as the engine reads
it: membership in the literals when the text is a list of string literals,
otherwise what `Env.sql_in_list` says; `none` when the statement does not
parse. -/
def provider_in_list (env : Env) (text : String) : Option (String → Bool) :=
  match read_in_list text with
  | some literals => some (fun p => decide (p ∈ literals))
  | none => env.sql_in_list text

/-! ## Constraint compilation -/

/-- The macro `ADD_CONSTRAINT`: `none` is the empty string the variable was initialised
with; `g_utf8_strdown` of a `NULL` pointer is `NULL`. -/
def ADD_CONSTRAINT (env : Env) (FIELDNAME : String) (VARNAME : Option String) :
    Option Constraint :=
  match VARNAME.map env.g_utf8_strdown with
  | some lower => some { FIELDNAME := FIELDNAME, lower := lower }
  | none => none

/-- The function `convert_from_option_to_sql`: the text of the `IN(...)` list. -/
def convert_from_option_to_sql (env : Env) (q : GlyrQuery) : String :=
  env.r_getSList.foldl (fun result item =>
    if (q.type = item.type ∨ item.type = env.GLYR_GET_ANY) ∧ env.provider_is_enabled q item = true
    then result ++ (if result ≠ "" then "," else "") ++ "'" ++ item.name ++ "'"
    else result) "'none'"

/-- The `img_url_constr` of lookup and delete: `none` is the empty text,
`some true` is `AND data_type = IMG_URL`, `some false` is `AND NOT data_type = IMG_URL`. -/
def img_url_constr (env : Env) (query : GlyrQuery) : Option Bool :=
  if env.TYPE_IS_IMAGE query.type then
    if query.download = false then some true else some false
  else none

/-- The joined row of the selects: the `metadata` row with the names its ids
point to; `none` when the inner join on `providers` finds no partner. -/
def join_row (db : GlyrDatabase) (m : MetaRow) : Option SelectArgv :=
  match left_join db.providers m.provider_id with
  | none => none
  | some p => some
    { artist_name := left_join db.artists m.artist_id
      album_name := left_join db.albums m.album_id
      title_name := left_join db.titles m.title_id
      provider_name := some p
      source_url := m.source_url
      image_type_name := left_join db.image_types m.image_type_id
      track_duration := some m.track_duration
      get_type := some m.get_type
      data_type := some m.data_type
      data_size := some m.data_size
      data_is_image := some m.data_is_image
      data_checksum := some m.data_checksum
      data := m.data
      rating := some m.rating
      timestamp := some m.timestamp }

/-- The column a predicate of `ADD_CONSTRAINT` names, with or without the
table alias. -/
def column_value (argv : SelectArgv) (FIELDNAME : String) : Option String :=
  if FIELDNAME = "artist_name" ∨ FIELDNAME = "a.artist_name" then argv.artist_name
  else if FIELDNAME = "album_name" ∨ FIELDNAME = "b.album_name" then argv.album_name
  else if FIELDNAME = "title_name" ∨ FIELDNAME = "t.title_name" then argv.title_name
  else none

/-- Truth of a (possibly empty) predicate of `ADD_CONSTRAINT` on a joined row;
an equality with a `NULL` column is not true. -/
def constraint_holds (c : Option Constraint) (argv : SelectArgv) : Bool :=
  match c with
  | none => true
  | some c => column_value argv c.FIELDNAME == some c.lower

/-- Truth of the (possibly empty) link predicate on a joined row. -/
def img_url_holds (env : Env) (c : Option Bool) (argv : SelectArgv) : Bool :=
  match c with
  | none => true
  | some true => argv.data_type == some env.GLYR_TYPE_IMG_URL
  | some false => argv.data_type.isSome && argv.data_type != some env.GLYR_TYPE_IMG_URL

/-- The test `provider_name IN(...)` of the two selects on a joined row, with
the text of the provider list pasted between the parentheses.  When the
statement does not parse `sqlite3_exec` fails before any row is delivered,
which is the same as no row passing. -/
def in_list_holds (env : Env) (c : Compiled) (argv : SelectArgv) : Bool :=
  match provider_in_list env c.from_argument_list, argv.provider_name with
  | some test, some p => test p
  | _, _ => false

/-- The `WHERE` clause shared by the two selects. -/
def where_holds (env : Env) (type : Int) (c : Compiled) (argv : SelectArgv) : Bool :=
  argv.get_type == some type &&
    constraint_holds c.title_constr argv &&
    constraint_holds c.album_constr argv &&
    constraint_holds c.artist_constr argv &&
    img_url_holds env c.img_url_constr argv &&
    in_list_holds env c argv

/-- Whether `LIMIT n` lets another row through after `k` rows were produced: a
negative `n` is no limit. -/
def limit_open (n : Int) (k : Nat) : Bool :=
  decide (n < 0 ∨ (k : Int) < n)

/-! ## Lookup -/

/-- The constraints of `glyr_db_lookup` (lines 383-414). -/
def lookup_constraints (env : Env) (query : GlyrQuery) : Compiled :=
  let reqs := get_req env query
  { artist_constr := if reqs.requires_artist then ADD_CONSTRAINT env "artist_name" query.artist else none
    album_constr := if reqs.requires_album then ADD_CONSTRAINT env "album_name" query.album else none
    title_constr := if reqs.requires_title then ADD_CONSTRAINT env "title_name" query.title else none
    from_argument_list := convert_from_option_to_sql env query
    img_url_constr := img_url_constr env query }

/-- The scan of the select of `glyr_db_lookup`: the rows of `metadata` still to
visit and the number of rows produced so far. -/
def lookup_scan (env : Env) (db : GlyrDatabase) (query : GlyrQuery) :
    List MetaRow → Nat → List SelectRow
  | [], _ => []
  | m :: ms, k =>
    match join_row db m with
    | some argv =>
      if limit_open query.number k && where_holds env query.type (lookup_constraints env query) argv
      then { argc := 15, argv := argv } :: lookup_scan env db query ms (k + 1)
      else lookup_scan env db query ms k
    | none => lookup_scan env db query ms k

/-- The accumulator `glyr_db_lookup` starts `sqlite3_exec` with: `result`
points to the (empty) return list, no visitor. -/
def lookup_data (query : GlyrQuery) : select_callback_data Unit :=
  { result := some [], query := query, counter := 0, cb := none, userptr := () }

/-- The rows of `metadata` in the order in which the select of `glyr_db_lookup`
visits them. -/
def lookup_order (env : Env) (db : GlyrDatabase) (query : GlyrQuery) : List MetaRow :=
  env.scan_order true query.type (lookup_constraints env query) query.number db

/-- The function `glyr_db_lookup` for non-NULL arguments; the empty list is `NULL`. -/
def glyr_db_lookup (env : Env) (db : GlyrDatabase) (query : GlyrQuery) : List GlyrMemCache :=
  ((exec_select env (lookup_data query)
    (lookup_scan env db query (lookup_order env db query) 0)).result).getD []

/-! ## Delete -/

/-- The `argv` of a row of the select of `glyr_db_delete`. -/
structure DeleteArgv where
  get_type : Option Int
  artist_id : Option Nat
  album_id : Option Nat
  title_id : Option Nat
  provider_id : Option Nat
deriving DecidableEq, Repr

/-- The accumulator `delete_callback_data`; `con` is the state of the store. -/
structure delete_callback_data where
  con : GlyrDatabase
  deleted : Int
  max_delete : Int
deriving DecidableEq, Repr

/-- One test of the `DELETE` of `delete_callback`: `col = v` for a value,
`col IS NULL` for a `NULL` argument. -/
def id_test {α : Type} [DecidableEq α] (arg : Option α) (col : Option α) : Bool :=
  match arg with
  | some v => col == some v
  | none => col.isNone

/-- The `WHERE` clause of the `DELETE` of `delete_callback`. -/
def delete_where (argv : DeleteArgv) (m : MetaRow) : Bool :=
  id_test argv.get_type (some m.get_type) &&
    id_test argv.artist_id m.artist_id &&
    id_test argv.album_id m.album_id &&
    id_test argv.title_id m.title_id &&
    id_test argv.provider_id m.provider_id

/-- The call `execute(data->con,sql_delete)`: the rows passing the clause are
removed. -/
def execute_delete (db : GlyrDatabase) (argv : DeleteArgv) : GlyrDatabase :=
  { db with metadata := db.metadata.filter (fun m => !delete_where argv m) }

/-- The callback `delete_callback`: returns the updated accumulator and the return
code 0. -/
def delete_callback (data : delete_callback_data) (argc : Nat) (argv : DeleteArgv) :
    delete_callback_data × Int :=
  if 4 ≤ argc ∧ data.max_delete > data.deleted then
    ({ data with con := execute_delete data.con argv, deleted := data.deleted + 1 }, 0)
  else (data, 0)

/-- The constraints of `glyr_db_delete` (lines 210-246). -/
def delete_constraints (env : Env) (query : GlyrQuery) : Compiled :=
  let reqs := get_req env query
  { artist_constr := if reqs.requires_artist && query.artist.isSome
      then ADD_CONSTRAINT env "a.artist_name" query.artist else none
    album_constr := if reqs.requires_album && query.album.isSome
      then ADD_CONSTRAINT env "b.album_name" query.album else none
    title_constr := if reqs.requires_title && query.title.isSome
      then ADD_CONSTRAINT env "t.title_name" query.title else none
    from_argument_list := convert_from_option_to_sql env query
    img_url_constr := img_url_constr env query }

/-- The five columns the select of `glyr_db_delete` projects. -/
def delete_argv (m : MetaRow) : DeleteArgv :=
  { get_type := some m.get_type
    artist_id := m.artist_id
    album_id := m.album_id
    title_id := m.title_id
    provider_id := m.provider_id }

/-- Whether the joins and the `WHERE` clause of the select of `glyr_db_delete`
let the `metadata` row through. -/
def delete_selects (env : Env) (db : GlyrDatabase) (query : GlyrQuery) (m : MetaRow) : Bool :=
  match join_row db m with
  | some argv => where_holds env query.type (delete_constraints env query) argv
  | none => false

/-- Whether the running select still has the row `m` to produce when the table
holds `rows`: a stored row is produced; a row that an earlier callback removed
is produced only when the select does not see the deletions. -/
def still_produced (env : Env) (rows : List MetaRow) (m : MetaRow) : Bool :=
  decide (m ∈ rows) || !env.select_sees_deletes

/-- The `sqlite3_exec` of `glyr_db_delete`: the select walks over the rows that
`metadata` held at its start while `delete_callback` runs between its steps.
The arguments are the rows still to visit, the number of rows produced so far
and the accumulator. -/
def delete_scan (env : Env) (query : GlyrQuery) :
    List MetaRow → Nat → delete_callback_data → delete_callback_data
  | [], _, data => data
  | m :: ms, k, data =>
    if still_produced env data.con.metadata m && limit_open query.number k &&
        delete_selects env data.con query m
    then delete_scan env query ms (k + 1) (delete_callback data 5 (delete_argv m)).1
    else delete_scan env query ms k data

/-- The rows of `metadata` in the order in which the select of `glyr_db_delete`
visits them. -/
def delete_order (env : Env) (db : GlyrDatabase) (query : GlyrQuery) : List MetaRow :=
  env.scan_order false query.type (delete_constraints env query) query.number db

/-- The function `glyr_db_delete` for non-NULL arguments: the store afterwards and the
returned count. -/
def glyr_db_delete (env : Env) (db : GlyrDatabase) (query : GlyrQuery) : GlyrDatabase × Int :=
  let cb_data : delete_callback_data := { con := db, deleted := 0, max_delete := query.number }
  let r := delete_scan env query (delete_order env db query) 0 cb_data
  (r.con, r.deleted)

/-! ## Edit and replace -/

/-- The loop of `glyr_db_edit`: `elem` walks over the artifact list and every
round calls `glyr_db_insert(db,query,edited)`, with the head `edited` of the
list as its argument.  The list argument holds the entries from `elem` on, `i`
counts the rounds and `clock i` is the reading of `get_current_time` in round
`i`. -/
def edit_loop (env : Env) (query : GlyrQuery) (edited : GlyrMemCache) (clock : Nat → Timestamp) :
    List GlyrMemCache → Nat → GlyrDatabase → GlyrDatabase
  | [], _, db => db
  | _ :: rest, i, db =>
    edit_loop env query edited clock rest (i + 1) (glyr_db_insert env db query edited (clock i))

/-- The function `glyr_db_edit` for non-NULL `db` and `query`: the store afterwards
and the returned count.  The list `edited` is `NULL` when empty. -/
def glyr_db_edit (env : Env) (db : GlyrDatabase) (query : GlyrQuery) (edited : List GlyrMemCache)
    (clock : Nat → Timestamp) : GlyrDatabase × Int :=
  let r := glyr_db_delete env db query
  if r.2 ≠ 0 then
    match edited with
    | [] => r
    | head :: _ => (edit_loop env query head clock edited 0 r.1, r.2)
  else r

/-- The guard `if(db && q && cache)` around the body of `glyr_db_insert`: with a
`NULL` argument nothing happens. -/
def glyr_db_insert_guarded (env : Env) (db : Option GlyrDatabase) (q : Option GlyrQuery)
    (cache : Option GlyrMemCache) (now : Timestamp) : Option GlyrDatabase :=
  match db, q, cache with
  | some d, some q, some c => some (glyr_db_insert env d q c now)
  | _, _, _ => db

/-- The statement `DELETE FROM metadata WHERE data_checksum = ?` with the 16
bytes at `md5sum` bound to the parameter. -/
def execute_delete_checksum (db : GlyrDatabase) (md5sum : Bytes) : GlyrDatabase :=
  { db with metadata := db.metadata.filter (fun m => !(m.data_checksum == md5sum.take 16)) }

/-- The function `glyr_db_replace`; a `NULL` pointer is `none`. -/
def glyr_db_replace (env : Env) (db : Option GlyrDatabase) (md5sum : Option Bytes)
    (query : Option GlyrQuery) (data : Option GlyrMemCache) (now : Timestamp) :
    Option GlyrDatabase :=
  match db, md5sum with
  | some d, some k =>
    let d := execute_delete_checksum d k
    match data with
    | some c => glyr_db_insert_guarded env (some d) query (some c) now
    | none => some d
  | _, _ => db

/-! ## The lyrics validator -/

/-- The function `vdt_lyrics` of `lyrics.c` for a non-NULL query: `artist[0]` is
non-zero when the string is not empty.  The message it logs before returning
false is left out. -/
def vdt_lyrics (settings : GlyrQuery) : Bool :=
  match settings.artist, settings.title with
  | some artist, some title => if artist ≠ "" ∧ title ≠ "" then true else false
  | _, _ => false

/-! ## Statement text -/

/-- The conversion `%q` of `sqlite3_mprintf` on the characters of its argument:
every single quote is written twice. -/
def escape_q : List Char → List Char
  | [] => []
  | c :: rest => if c = quote then quote :: quote :: escape_q rest else c :: escape_q rest

/-- The text that `%q` writes for its argument, `(NULL)` for a `NULL` pointer. -/
def sql_q (arg : Option String) : String :=
  String.mk (escape_q (mprintf_q arg).data)

/-- The fragment `'%q'` of a format of `sqlite3_mprintf`: the escaped argument
between two single quotes. -/
def quoted_q (arg : Option String) : String :=
  "'" ++ sql_q arg ++ "'"

/-- The text of a predicate compiled by `ADD_CONSTRAINT`,
`sqlite3_mprintf("AND %s = '%q'\n",FIELDNAME,lower)`; the empty string the
variable was initialised with when nothing was compiled. -/
def constraint_text (c : Option Constraint) : String :=
  match c with
  | none => ""
  | some c => "AND " ++ c.FIELDNAME ++ " = " ++ quoted_q (some c.lower) ++ "\n"

/-- The statement that the macro `INSERT_STRING` executes, `sqlite3_mprintf(SQL,lower_str)`:
`before` and `after` are the parts of the format `SQL` around its `'%q'`; nothing is
executed for a `NULL` argument. -/
def INSERT_STRING_text (env : Env) (before after : String) (ARG : Option String) :
    Option String :=
  match ARG with
  | some arg => some (before ++ quoted_q (some (env.g_utf8_strdown arg)) ++ after)
  | none => none

/-- The statement text that `insert_cache_data` prepares: five strings go in
through `'%q'`, the source url and the other columns are parameters bound to
the `?` marks. -/
def insert_cache_data_text (query : GlyrQuery) (cache : GlyrMemCache) : String :=
  "INSERT OR IGNORE INTO metadata VALUES(                            \n" ++
  "  (SELECT rowid FROM artists   WHERE artist_name   = LOWER(" ++ quoted_q query.artist ++
    ")),\n" ++
  "  (SELECT rowid FROM albums    WHERE album_name    = LOWER(" ++ quoted_q query.album ++
    ")),\n" ++
  "  (SELECT rowid FROM titles    WHERE title_name    = LOWER(" ++ quoted_q query.title ++
    ")),\n" ++
  "  (SELECT rowid FROM providers WHERE provider_name = LOWER(" ++
    quoted_q (some (cache.prov.getD "none")) ++ ")),\n" ++
  "  ?,                                                              \n" ++
  "  (SELECT rowid FROM image_types WHERE image_type_name = LOWER(" ++
    quoted_q cache.img_format ++ ")),\n" ++
  "  ?,?,?,?,?,?,?,?,?                                               \n" ++
  ");                                                                \n"

/-- The texts of the statements that `glyr_db_insert` builds from strings, in the
order in which it executes them, for a call that no `ABORT_ON_FAILED_REQS` ends. -/
def glyr_db_insert_texts (env : Env) (q : GlyrQuery) (cache : GlyrMemCache) : List String :=
  let reqs := get_req env q
  (if reqs.requires_artist || reqs.optional_artist then
      (INSERT_STRING_text env "INSERT OR IGNORE INTO artists VALUES(" ");" q.artist).toList
    else []) ++
  (if reqs.requires_album || reqs.optional_album then
      (INSERT_STRING_text env "INSERT OR IGNORE INTO albums  VALUES(" ");" q.album).toList
    else []) ++
  (if reqs.requires_title || reqs.optional_title then
      (INSERT_STRING_text env "INSERT OR IGNORE INTO titles  VALUES(" ");" q.title).toList
    else []) ++
  (INSERT_STRING_text env "INSERT OR IGNORE INTO providers VALUES(" ");"
    (some (cache.prov.getD "none"))).toList ++
  [insert_cache_data_text q cache]

/-! ## Export -/

/-- The result code `SQLITE_OK` of the engine. -/
def SQLITE_OK : Int := 0

/-- The result code `SQLITE_ABORT` of the engine: `sqlite3_exec` returns it when
the callback answered non-zero. -/
def SQLITE_ABORT : Int := 4

/-- The largest `int`, GLib's `G_MAXINT`. -/
def G_MAXINT : Int := 2147483647

/-- The return code of `sqlite3_exec` with `select_callback` over the rows of a
statement that the engine runs without failure. -/
def exec_select_rc {U : Type} (env : Env) : select_callback_data U → List SelectRow → Int
  | _, [] => SQLITE_OK
  | data, row :: rows =>
    let r := select_callback env data row
    if r.2 = 0 then exec_select_rc env r.1 rows else SQLITE_ABORT

/-- The order `ORDER BY rating,timestamp` on the rows of `metadata`. -/
def export_le (a b : MetaRow) : Prop :=
  a.rating < b.rating ∨ (a.rating = b.rating ∧ a.timestamp ≤ b.timestamp)

instance export_le_decidable : DecidableRel export_le := fun a b =>
  inferInstanceAs (Decidable
    (a.rating < b.rating ∨ (a.rating = b.rating ∧ a.timestamp ≤ b.timestamp)))

/-- The rows of the statement `select_all` of `glyr_db_foreach`: every row of
`metadata` with a provider, joined with its names, in the order of rating and
timestamp.  Rows that tie are taken in rowid order here; the engine leaves
their order open. -/
def select_all (db : GlyrDatabase) : List SelectRow :=
  ((db.metadata.insertionSort export_le).filterMap (join_row db)).map
    (fun argv => { argc := 15, argv := argv })

/-- The accumulator `scb_data` that `glyr_db_foreach` starts `sqlite3_exec` with:
no result list, the visitor, and the query `dummy`, of which only `number` is
set (and read). -/
def foreach_data {U : Type} (env : Env) (cb : glyr_foreach_callback U) (userptr : U) :
    select_callback_data U :=
  { result := none
    query := { env.glyr_query_init with number := G_MAXINT }
    counter := 0
    cb := some cb
    userptr := userptr }

/-- The body of `glyr_db_foreach` on the rows that its statement delivers: the
user state after the run and whether the message `SQL Foreach error` was
logged. -/
def foreach_rows {U : Type} (env : Env) (rows : List SelectRow) (cb : glyr_foreach_callback U)
    (userptr : U) : U × Bool :=
  let scb_data := foreach_data env cb userptr
  let rc := exec_select_rc env scb_data rows
  ((exec_select env scb_data rows).userptr,
    if rc ≠ SQLITE_OK then (if rc ≠ SQLITE_ABORT then true else false) else false)

/-- The function `glyr_db_foreach` for a non-NULL store and visitor. -/
def glyr_db_foreach {U : Type} (env : Env) (db : GlyrDatabase) (cb : glyr_foreach_callback U)
    (userptr : U) : U × Bool :=
  foreach_rows env (select_all db) cb userptr

/-! ## Specification vocabulary -/

/-- Ascending (non-decreasing) rating order of a result list. -/
def rating_sorted (l : List GlyrMemCache) : Prop :=
  l.Pairwise (fun a b => a.rating ≤ b.rating)

/-- The rows that pass the guard of `select_callback` at their turn, for the
limit `number` and the counter value `counter` before the first row. -/
def merged_rows (number : Int) : Int → List SelectRow → List SelectRow
  | _, [] => []
  | counter, row :: rows =>
    if 15 ≤ row.argc ∧ counter < number then row :: merged_rows number (counter + 1) rows
    else merged_rows number (counter + 1) rows

/-- One `add_to_cache_list` per row, starting from the list `init`. -/
def merge_all (env : Env) (init : List GlyrMemCache) (rows : List SelectRow) :
    List GlyrMemCache :=
  rows.foldl (fun l row => add_to_cache_list l (cache_of_row env row.argv)) init

/-- Some field applicable (mandatory or optional) to the subject type of the
query is `NULL`: the condition under which `glyr_db_insert` aborts. -/
def missing_field (env : Env) (q : GlyrQuery) : Bool :=
  ((get_req env q).requires_artist || (get_req env q).optional_artist) && q.artist.isNone ||
    ((get_req env q).requires_album || (get_req env q).optional_album) && q.album.isNone ||
    ((get_req env q).requires_title || (get_req env q).optional_title) && q.title.isNone

/-- The store in the middle of a `glyr_db_insert` that does not abort: after
`BEGIN` and the dimension inserts, before `insert_cache_data`. -/
def dimensions_inserted (env : Env) (db : GlyrDatabase) (q : GlyrQuery) (cache : GlyrMemCache) :
    GlyrDatabase :=
  { providers := INSERT_STRING env db.providers (some (cache.prov.getD "none"))
    artists := if (get_req env q).requires_artist || (get_req env q).optional_artist
      then INSERT_STRING env db.artists q.artist else db.artists
    albums := if (get_req env q).requires_album || (get_req env q).optional_album
      then INSERT_STRING env db.albums q.album else db.albums
    titles := if (get_req env q).requires_title || (get_req env q).optional_title
      then INSERT_STRING env db.titles q.title else db.titles
    image_types := db.image_types
    metadata := db.metadata
    in_transaction := true }

/-- The row carries the identity (subject type, artifact type, checksum,
source url) of the artifact `c` stored under the query `q`. -/
def same_key (q : GlyrQuery) (c : GlyrMemCache) (r : MetaRow) : Bool :=
  r.get_type == q.type && r.data_type == c.type && r.data_checksum == c.md5sum &&
    r.source_url == c.dsrc

/-- The unique index holds in a table: no two of its rows collide. -/
def index_unique_holds (rows : List MetaRow) : Prop :=
  rows.Pairwise (fun r s => index_unique_collides r s = false)

/-- No two rows of the table share the tuple (get_type, artist_id, album_id,
title_id, provider_id). -/
def fk_distinct (rows : List MetaRow) : Prop :=
  (rows.map delete_argv).Nodup

/-- The two queries differ at most in the letter case of artist, album and
title: every other field is the same and lower-casing makes each of the three
fields the same. -/
def same_up_to_case (env : Env) (q1 q2 : GlyrQuery) : Prop :=
  q1.type = q2.type ∧ q1.number = q2.number ∧ q1.download = q2.download ∧
    q1.from_ = q2.from_ ∧
    q1.artist.map env.g_utf8_strdown = q2.artist.map env.g_utf8_strdown ∧
    q1.album.map env.g_utf8_strdown = q2.album.map env.g_utf8_strdown ∧
    q1.title.map env.g_utf8_strdown = q2.title.map env.g_utf8_strdown

/-- Whether the joins and the `WHERE` clause of the select of `glyr_db_lookup`
let the `metadata` row through. -/
def lookup_selects (env : Env) (db : GlyrDatabase) (query : GlyrQuery) (m : MetaRow) : Bool :=
  match join_row db m with
  | some argv => where_holds env query.type (lookup_constraints env query) argv
  | none => false

/-- The artifact has a payload of `size > 0` bytes, or no payload at all (and
`DL_init` leaves the payload pointer `NULL`). -/
def payload_well_formed (env : Env) (c : GlyrMemCache) : Prop :=
  (c.data = none ∧ env.DL_init.data = none) ∨
    ∃ d, c.data = some d ∧ 0 < c.size ∧ (d.length : Int) = c.size

/-- The value `v` is a field of the query on which `glyr_db_lookup` compiles a
predicate. -/
def constrained_value (env : Env) (q : GlyrQuery) (v : String) : Prop :=
  ((get_req env q).requires_artist = true ∧ q.artist = some v) ∨
    ((get_req env q).requires_album = true ∧ q.album = some v) ∨
    ((get_req env q).requires_title = true ∧ q.title = some v)

/-- The entry has the payload, checksum, provider and rating of the artifact. -/
def carries (c e : GlyrMemCache) : Prop :=
  e.data = c.data ∧ e.md5sum = c.md5sum ∧ e.prov = c.prov ∧ e.rating = c.rating

/-- One `glyr_db_insert(db,query,c)` for every entry `c` of the list in order,
round `i` reading the time `clock i`. -/
def insert_each (env : Env) (query : GlyrQuery) (clock : Nat → Timestamp) :
    List GlyrMemCache → Nat → GlyrDatabase → GlyrDatabase
  | [], _, db => db
  | c :: rest, i, db =>
    insert_each env query clock rest (i + 1) (glyr_db_insert env db query c (clock i))

/-- The store without the fact rows whose checksum is `k`. -/
def without_checksum (db : GlyrDatabase) (k : Bytes) : GlyrDatabase :=
  { db with metadata := db.metadata.filter (fun m => decide (m.data_checksum ≠ k)) }

/-- How the engine reads a string literal whose opening quote has been read:
two single quotes stand for one, a single one ends the literal.  The flag
tells that the character before was a single quote still to be judged.  The
result is the value and the text after the literal, `none` when the literal
is not closed. -/
def read_literal : Bool → List Char → Option (List Char × List Char)
  | pending, [] => if pending then some ([], []) else none
  | false, c :: rest =>
    if c = quote then read_literal true rest
    else (read_literal false rest).map (fun r => (c :: r.1, r.2))
  | true, c :: rest =>
    if c = quote then (read_literal false rest).map (fun r => (quote :: r.1, r.2))
    else some ([], c :: rest)

/-- The value `v` stands in the text as a quoted literal with each of its
single quotes doubled. -/
def escaped_in (v : String) (text : String) : Prop :=
  ∃ before after : String, text = before ++ quoted_q (some v) ++ after

/-- The names of the providers enabled for the query: the registry entries
of the type of the query or of the wildcard type for which `provider_is_enabled`
holds, in registry order. -/
def enabled_providers (env : Env) (q : GlyrQuery) : List String :=
  (env.r_getSList.filter (fun item =>
    (q.type = item.type ∨ item.type = env.GLYR_GET_ANY) ∧ env.provider_is_enabled q item = true)).map
      (fun item => item.name)

/-- The names that `convert_from_option_to_sql` writes between single quotes, in
the order of the text: `none` first, then the enabled registry entries.  The
engine reads the text, not this list; the two agree when no enabled name holds
a single quote. -/
def from_argument_members (env : Env) (q : GlyrQuery) : List String :=
  "none" :: (env.r_getSList.filter (fun item =>
    (q.type = item.type ∨ item.type = env.GLYR_GET_ANY) ∧ env.provider_is_enabled q item = true)).map
      (fun item => item.name)

/-- One call of the visitor on a row: it gets the query and the entry that
`select_callback` builds from the row. -/
def visit {U : Type} (env : Env) (cb : glyr_foreach_callback U) (u : U) (row : SelectRow) :
    Int × U :=
  cb (query_of_row env row.argv) (cache_of_row env row.argv) u

/-- The user state after one call of the visitor on each of the rows in order. -/
def visit_all {U : Type} (env : Env) (cb : glyr_foreach_callback U) (u : U)
    (rows : List SelectRow) : U :=
  rows.foldl (fun u row => (visit env cb u row).2) u

/-- The visitor, called on the rows in order from the user state `u`, answers
0 (continue) on each of them. -/
def continues {U : Type} (env : Env) (cb : glyr_foreach_callback U) : U → List SelectRow → Prop
  | _, [] => True
  | u, row :: rows => (visit env cb u row).1 = 0 ∧ continues env cb (visit env cb u row).2 rows

/-- The visitor `cb` made to record its calls: the user state carries the list
of the (query, entry) pairs it was called with so far. -/
def recording {U : Type} (cb : glyr_foreach_callback U) :
    glyr_foreach_callback (U × List (GlyrQuery × GlyrMemCache)) :=
  fun q c s => ((cb q c s.1).1, ((cb q c s.1).2, s.2 ++ [(q, c)]))

/-- The (query, entry) pair that `select_callback` builds from a row. -/
def visitor_args (env : Env) (row : SelectRow) : GlyrQuery × GlyrMemCache :=
  (query_of_row env row.argv, cache_of_row env row.argv)

/-- The rows are in the order of rating, then timestamp, both ascending. -/
def export_sorted (rows : List SelectRow) : Prop :=
  rows.Pairwise (fun a b =>
    a.argv.rating.getD 0 < b.argv.rating.getD 0 ∨
      (a.argv.rating.getD 0 = b.argv.rating.getD 0 ∧
        a.argv.timestamp.getD 0 ≤ b.argv.timestamp.getD 0))

/-- An accumulator of `select_callback` with a visitor and no result list. -/
def visitor_data {U : Type} (query : GlyrQuery) (counter : Int) (cb : glyr_foreach_callback U)
    (userptr : U) : select_callback_data U :=
  { result := none, query := query, counter := counter, cb := some cb, userptr := userptr }

/-! ## Example environment and inputs -/

/-- Lower-casing of the letters `A`-`Z`, which is what `LOWER` of the engine
does by default and what `g_utf8_strdown` does on such text. -/
def ascii_lower (s : String) : String :=
  String.mk (s.data.map Char.toLower)

/-- Modelled from the spec: the requirement table (`glyr_get_requirements`),
the type macros and the provider registry live outside `cache.c`; this is the
instance of `Env` used in the examples.  Subject type 1 is the album cover (an
image type, artist and album required), type 2 is the track lyrics (artist and
title required), type 4 stands for a subject type that requires the artist
only (the artist biography), every other type requires nothing; 14 is both
the wildcard subject type and the artifact type of an image link.  A provider
is enabled when the query names it or names none.  Both lower-casings act on
the letters `A`-`Z`; a provider list that is not a list of string literals
makes the statement fail; a select visits the rows in rowid order and sees the
deletions made while it runs. -/
def demoEnv : Env :=
  { glyr_get_requirements := fun t =>
      if t = 1 then ⟨true, true, false, false, false, false⟩
      else if t = 2 then ⟨true, false, true, false, false, false⟩
      else if t = 4 then ⟨true, false, false, false, false, false⟩
      else ⟨false, false, false, false, false, false⟩
    TYPE_IS_IMAGE := fun t => decide (t = 1)
    GLYR_TYPE_IMG_URL := 14
    GLYR_GET_ANY := 14
    r_getSList := [⟨"lastfm", 1⟩, ⟨"lyricswiki", 2⟩, ⟨"local", 14⟩]
    provider_is_enabled := fun q item => q.from_ == none || q.from_ == some item.name
    g_utf8_strdown := ascii_lower
    sql_lower := ascii_lower
    sql_in_list := fun _ => none
    DL_init := ⟨none, 0, none, none, 0, 0, 0, 0, none, List.replicate 16 0, false, 0⟩
    glyr_query_init := ⟨0, none, none, none, 1, true, none⟩
    scan_order := fun _ _ _ _ db => db.metadata
    scan_order_perm := fun _ _ _ _ db => List.Perm.refl db.metadata
    select_sees_deletes := true }

/-- The example environment with a select that visits the rows in reverse
rowid order and does not see the deletions made while it runs. -/
def demoEnvBlind : Env :=
  { demoEnv with
    scan_order := fun _ _ _ _ db => db.metadata.reverse
    scan_order_perm := fun _ _ _ _ db => List.reverse_perm db.metadata
    select_sees_deletes := false }

/-- A freshly created store (`create_table_defs`). -/
def emptyDb : GlyrDatabase :=
  ⟨[], [], [], [], ["jpeg", "jpg", "png", "gif", "tiff"], [], false⟩

/-- A 15-column row of provider `lyricswiki` with the given rating and source url. -/
def demo_row (rating : Int) (url : String) : SelectRow :=
  { argc := 15
    argv :=
      { artist_name := some "foo", album_name := none, title_name := some "bar"
        provider_name := some "lyricswiki", source_url := some url
        image_type_name := none, track_duration := some 0, get_type := some 2
        data_type := some 1, data_size := some 2, data_is_image := some 0
        data_checksum := some (List.replicate 16 7), data := some [104, 105]
        rating := some rating, timestamp := some 100 } }

/-- The entry `select_callback` builds from `demo_row rating url`. -/
def demo_entry (rating : Int) (url : String) : GlyrMemCache :=
  ⟨some [104, 105], 2, some url, some "lyricswiki", 1, 0, rating, 0, none,
    List.replicate 16 7, true, 100⟩

/-- A lyrics query for artist `Foo` and title `Bar` with the given limit. -/
def demo_query (number : Int) : GlyrQuery :=
  ⟨2, some "Foo", none, some "Bar", number, true, none⟩

/-- A lyrics artifact of provider `lyricswiki` with the given rating and
source url. -/
def demo_cache (rating : Int) (url : Option String) : GlyrMemCache :=
  ⟨some [104, 105], 2, url, some "lyricswiki", 1, 0, rating, 0, none,
    List.replicate 16 7, false, 0⟩

/-- A cover query (subject type 1) for artist `Foo` without album. -/
def demo_cover_query : GlyrQuery :=
  ⟨1, some "Foo", none, none, 5, true, none⟩

/-- A lyrics query for artist `Foo` and the given title and limit. -/
def demo_query_title (title : String) (number : Int) : GlyrQuery :=
  ⟨2, some "Foo", none, some title, number, true, none⟩

/-- A store with two lyrics for `Foo` / `Bar` from the same provider: the two
rows share their tuple of ids. -/
def demo_two_rows : GlyrDatabase :=
  glyr_db_insert demoEnv
    (glyr_db_insert demoEnv emptyDb (demo_query 3) (demo_cache 5 (some "a")) 100)
    (demo_query 3) (demo_cache 4 (some "b")) 101

/-- A store with three lyrics for `Foo` / `Bar` from the same provider. -/
def demo_three_rows : GlyrDatabase :=
  glyr_db_insert demoEnv demo_two_rows (demo_query 3) (demo_cache 3 (some "c")) 102

/-- A store with one lyrics each for `Foo` / `Bar` and `Foo` / `Baz`: the rows
differ in `title_id`. -/
def demo_two_titles : GlyrDatabase :=
  glyr_db_insert demoEnv
    (glyr_db_insert demoEnv emptyDb (demo_query 3) (demo_cache 5 (some "a")) 100)
    (demo_query_title "Baz" 3) (demo_cache 4 (some "b")) 101

/-- A store that holds the lyrics with source url `a` at rating 1. -/
def demo_one_row : GlyrDatabase :=
  glyr_db_insert demoEnv emptyDb (demo_query 3) (demo_cache 1 (some "a")) 100

/-- The clock of the examples: round `i` reads the time `200 + i`. -/
def demo_clock (i : Nat) : Timestamp := 200 + i

/-- A memory with the list of the two entries of rating 1 and 3 at the
addresses 10 and 20, and a fresh entry of rating 2 at the address 30. -/
def demo_memory : Memory := fun x =>
  if x = 10 then some ⟨demo_entry 1 "a", some 20, none⟩
  else if x = 20 then some ⟨demo_entry 3 "c", none, some 10⟩
  else if x = 30 then some ⟨demo_entry 2 "b", none, none⟩
  else none

/-- A link to a cover (artifact type 14, the image link) of provider `lastfm`. -/
def demo_link_cache : GlyrMemCache :=
  ⟨some [104, 116, 116, 112], 4, some "http://img", some "lastfm", 14, 0, 1, 0, none,
    List.replicate 16 3, false, 0⟩

/-- The example environment with a registry whose only entry has a single quote
in its name. -/
def demoEnvQuote : Env :=
  { demoEnv with r_getSList := [⟨"rock'n'roll", 2⟩] }

/-- The example environment with a requirement table in which the cover
(subject type 1) requires artist and album and takes the title as optional. -/
def demoEnvOptional : Env :=
  { demoEnv with
    glyr_get_requirements := fun t =>
      if t = 1 then ⟨true, true, false, false, false, true⟩
      else demoEnv.glyr_get_requirements t }

/-- A cover query for artist `Foo`, album `Baz` and title `Bar`. -/
def demo_cover_title_query : GlyrQuery :=
  ⟨1, some "Foo", some "Baz", some "Bar", 5, true, none⟩

/-- A visitor without state that answers abort on the entry of rating `r`. -/
def demo_visitor (r : Int) : glyr_foreach_callback Unit :=
  fun _ c _ => (if c.rating = r then 1 else 0, ())

/-- A store into which four lyrics for `Foo` / `Bar` were inserted with the
ratings 3, 1, 2, 1 and the source urls `a`, `b`, `c`, `d`. -/
def demo_four_rows : GlyrDatabase :=
  glyr_db_insert demoEnv
    (glyr_db_insert demoEnv
      (glyr_db_insert demoEnv
        (glyr_db_insert demoEnv emptyDb (demo_query 10) (demo_cache 3 (some "a")) 100)
        (demo_query 10) (demo_cache 1 (some "b")) 101)
      (demo_query 10) (demo_cache 2 (some "c")) 102)
    (demo_query 10) (demo_cache 1 (some "d")) 103

/-- A lyrics artifact of the provider `rock'n'roll`. -/
def demo_rock_cache : GlyrMemCache :=
  ⟨some [104, 105], 2, some "a", some "rock'n'roll", 1, 0, 5, 0, none,
    List.replicate 16 7, false, 0⟩

/-- The example environment with a registry whose only entry has a name that
closes its literal and opens another one. -/
def demoEnvSplit : Env :=
  { demoEnv with r_getSList := [⟨"x','lyricswiki", 2⟩] }

/-! ## Theorems -/

theorem mem_add_to_cache_list (l : List GlyrMemCache) (e x : GlyrMemCache) :
    x ∈ add_to_cache_list l e ↔ x = e ∨ x ∈ l := by
  induction l with
  | nil => simp [add_to_cache_list]
  | cons head rest ih =>
    unfold add_to_cache_list
    split
    · simp only [List.mem_cons, ih]
      tauto
    · simp only [List.mem_cons]

theorem add_to_cache_list_sorted (l : List GlyrMemCache) (e : GlyrMemCache)
    (h : rating_sorted l) : rating_sorted (add_to_cache_list l e) := by
  induction l with
  | nil => simp [add_to_cache_list, rating_sorted]
  | cons head rest ih =>
    unfold rating_sorted at h ih ⊢
    rw [List.pairwise_cons] at h
    unfold add_to_cache_list
    split
    · rename_i hlt
      rw [List.pairwise_cons]
      refine ⟨?_, ih h.2⟩
      intro x hx
      rcases (mem_add_to_cache_list rest e x).1 hx with rfl | hx
      · exact le_of_lt hlt
      · exact h.1 x hx
    · rename_i hge
      rw [List.pairwise_cons, List.pairwise_cons]
      refine ⟨?_, h⟩
      intro x hx
      rcases List.mem_cons.1 hx with rfl | hx
      · exact not_lt.1 hge
      · exact le_trans (not_lt.1 hge) (h.1 x hx)

theorem length_add_to_cache_list (l : List GlyrMemCache) (e : GlyrMemCache) :
    (add_to_cache_list l e).length = l.length + 1 := by
  induction l with
  | nil => rfl
  | cons head rest ih =>
    unfold add_to_cache_list
    split
    · simp [ih]
    · simp

/-! ### The list in memory -/

theorem is_seg_frame (mem mem' : Memory) (addrs : List Nat) :
    ∀ (p prev q : Option Nat), (∀ a ∈ addrs, mem' a = mem a) →
      is_seg mem p prev addrs q → is_seg mem' p prev addrs q := by
  induction addrs with
  | nil => intro p prev q _ h; exact h
  | cons a rest ih =>
    intro p prev q hf h
    obtain ⟨hp, n, hn, hprev, hrest⟩ := h
    refine ⟨hp, n, ?_, hprev, ih _ _ _ (fun x hx => hf x (List.mem_cons_of_mem _ hx)) hrest⟩
    rw [hf a (List.mem_cons_self _ _)]
    exact hn

theorem last_ptr_cons (prev : Option Nat) (a : Nat) (rest : List Nat) :
    last_ptr prev (a :: rest) = last_ptr (some a) rest := rfl

theorem is_seg_append (mem : Memory) (xs ys : List Nat) :
    ∀ (p prev q : Option Nat),
      is_seg mem p prev (xs ++ ys) q ↔
        ∃ mid, is_seg mem p prev xs mid ∧ is_seg mem mid (last_ptr prev xs) ys q := by
  induction xs with
  | nil =>
    intro p prev q
    simp only [List.nil_append, is_seg, last_ptr]
    constructor
    · intro h; exact ⟨p, rfl, h⟩
    · rintro ⟨mid, rfl, h⟩; exact h
  | cons a rest ih =>
    intro p prev q
    simp only [List.cons_append, is_seg, last_ptr_cons]
    constructor
    · rintro ⟨hp, n, hn, hprev, h⟩
      obtain ⟨mid, h1, h2⟩ := (ih _ _ _).1 h
      exact ⟨mid, ⟨hp, n, hn, hprev, h1⟩, h2⟩
    · rintro ⟨mid, ⟨hp, n, hn, hprev, h1⟩, h2⟩
      exact ⟨hp, n, hn, hprev, (ih _ _ _).2 ⟨mid, h1, h2⟩⟩

/-- Setting the `next` link of the last node of a segment redirects its end. -/
theorem is_seg_set_next_last (mem : Memory) (a : Nat) (q' : Option Nat) (xs : List Nat) :
    ∀ (p prev q : Option Nat), (xs ++ [a]).Nodup → is_seg mem p prev (xs ++ [a]) q →
      is_seg (set_next mem a q') p prev (xs ++ [a]) q' := by
  induction xs with
  | nil =>
    intro p prev q _ h
    obtain ⟨hp, n, hn, hprev, _⟩ := h
    exact ⟨hp, { n with next := q' }, by simp [set_next, hn], hprev, rfl⟩
  | cons b rest ih =>
    intro p prev q hnd h
    obtain ⟨hp, n, hn, hprev, hrest⟩ := h
    rw [List.cons_append, List.nodup_cons] at hnd
    have hba : b ≠ a := by
      intro hba
      apply hnd.1
      rw [hba]
      simp
    exact ⟨hp, n, by simp [set_next, hba, hn], hprev, ih _ _ _ hnd.2 hrest⟩

/-- Setting the `prev` link of the first node of a segment. -/
theorem is_seg_set_prev_first (mem : Memory) (a : Nat) (prev' : Option Nat) (xs : List Nat)
    (p prev q : Option Nat) (hnd : (a :: xs).Nodup) (h : is_seg mem p prev (a :: xs) q) :
    is_seg (set_prev mem a prev') p prev' (a :: xs) q := by
  obtain ⟨hp, n, hn, _, hrest⟩ := h
  refine ⟨hp, { n with prev := prev' }, by simp [set_prev, hn], rfl, ?_⟩
  apply is_seg_frame mem _ xs _ _ _ _ hrest
  intro x hx
  have hxa : x ≠ a := by
    intro hxa
    rw [List.nodup_cons] at hnd
    exact hnd.1 (hxa ▸ hx)
  simp [set_prev, hxa]

/-- The first loop on a chain: it stops with `head` at the first node whose
rating is not below `rating` and `tail` at the node before it. -/
theorem find_place_spec (mem : Memory) (rating : Int) (addrs : List Nat) :
    ∀ (p prev : Option Nat) (tail fuel : Nat),
      is_seg mem p prev addrs none → addrs.length < fuel →
      ∃ pre post t, addrs = pre ++ post ∧
        (∀ a ∈ pre, ∃ n, mem a = some n ∧ n.entry.rating < rating) ∧
        (∀ h, post.head? = some h → ∃ n, mem h = some n ∧ ¬ n.entry.rating < rating) ∧
        find_place mem rating fuel tail p = some (t, post.head?) ∧
        some t = last_ptr (some tail) pre := by
  induction addrs with
  | nil =>
    intro p prev tail fuel h hf
    have hp : p = none := h
    subst hp
    obtain ⟨f, rfl⟩ : ∃ f, fuel = f + 1 := ⟨fuel - 1, by omega⟩
    exact ⟨[], [], tail, rfl, by simp, by simp, rfl, rfl⟩
  | cons a rest ih =>
    intro p prev tail fuel h hf
    obtain ⟨hp, n, hn, hprev, hrest⟩ := h
    subst hp
    obtain ⟨f, rfl⟩ : ∃ f, fuel = f + 1 := ⟨fuel - 1, by omega⟩
    simp only [List.length_cons] at hf
    by_cases hlt : n.entry.rating < rating
    · obtain ⟨pre, post, t, hsplit, hpre, hpost, hfind, ht⟩ :=
        ih n.next (some a) a f hrest (by omega)
      refine ⟨a :: pre, post, t, by rw [hsplit]; rfl, ?_, hpost, ?_, ?_⟩
      · intro x hx
        rcases List.mem_cons.1 hx with rfl | hx
        · exact ⟨n, hn, hlt⟩
        · exact hpre x hx
      · simp only [find_place, hn, hlt, if_true]
        exact hfind
      · rw [last_ptr_cons]
        exact ht
    · refine ⟨[], a :: rest, tail, rfl, by simp, ?_, ?_, rfl⟩
      · intro h hh
        simp only [List.head?_cons, Option.some.injEq] at hh
        subst hh
        exact ⟨n, hn, hlt⟩
      · simp only [find_place, hn, hlt, if_false, List.head?_cons]

theorem last_ptr_append_singleton (xs : List Nat) (t : Nat) :
    ∀ prev, last_ptr prev (xs ++ [t]) = some t := by
  induction xs with
  | nil => intro prev; rfl
  | cons a rest ih => intro prev; exact ih (some a)

theorem last_ptr_eq_some (pre : List Nat) :
    ∀ (prev : Option Nat) (t : Nat), pre ≠ [] → last_ptr prev pre = some t →
      ∃ xs, pre = xs ++ [t] := by
  induction pre with
  | nil => intro prev t h; exact absurd rfl h
  | cons a rest ih =>
    intro prev t _ h
    cases rest with
    | nil =>
      have : a = t := by simpa [last_ptr] using h
      exact ⟨[], by rw [this]; rfl⟩
    | cons b rest' =>
      obtain ⟨xs, hxs⟩ := ih (some a) t (by simp) h
      exact ⟨a :: xs, by rw [hxs]; rfl⟩

theorem entry_set_next (mem : Memory) (a : Nat) (p : Option Nat) (x : Nat) :
    ((set_next mem a p) x).map (fun n => n.entry) = (mem x).map (fun n => n.entry) := by
  unfold set_next
  split
  · rename_i h; subst h
    cases mem x <;> rfl
  · rfl

theorem entry_set_prev (mem : Memory) (a : Nat) (p : Option Nat) (x : Nat) :
    ((set_prev mem a p) x).map (fun n => n.entry) = (mem x).map (fun n => n.entry) := by
  unfold set_prev
  split
  · rename_i h; subst h
    cases mem x <;> rfl
  · rfl

theorem entries_congr (mem mem' : Memory) (addrs : List Nat)
    (h : ∀ x, (mem' x).map (fun n => n.entry) = (mem x).map (fun n => n.entry)) :
    entries mem' addrs = entries mem addrs := by
  unfold entries
  simp only [h]

/-- The list-level `add_to_cache_list` on a list split at the place of the new
entry. -/
theorem add_to_cache_list_at (e : GlyrMemCache) (A B : List GlyrMemCache)
    (hA : ∀ x ∈ A, x.rating < e.rating)
    (hB : ∀ x, B.head? = some x → ¬ x.rating < e.rating) :
    add_to_cache_list (A ++ B) e = A ++ e :: B := by
  induction A with
  | nil =>
    cases B with
    | nil => rfl
    | cons b rest =>
      have := hB b rfl
      simp [add_to_cache_list, this]
  | cons a rest ih =>
    have ha := hA a (List.mem_cons_self _ _)
    have hrec := ih (fun x hx => hA x (List.mem_cons_of_mem _ hx))
    show add_to_cache_list (a :: (rest ++ B)) e = a :: (rest ++ e :: B)
    rw [add_to_cache_list, if_pos ha, hrec]

theorem is_seg_mem (mem : Memory) (addrs : List Nat) :
    ∀ (p prev q : Option Nat), is_seg mem p prev addrs q → ∀ a ∈ addrs, ∃ n, mem a = some n := by
  induction addrs with
  | nil => intro p prev q _ a ha; simp at ha
  | cons b rest ih =>
    intro p prev q h a ha
    obtain ⟨_, n, hn, _, hrest⟩ := h
    rcases List.mem_cons.1 ha with rfl | ha
    · exact ⟨n, hn⟩
    · exact ih _ _ _ hrest a ha

/-- The second loop returns on a chain: from the last node of a segment that
starts the chain it walks back at most to the first node. -/
theorem count_in_row_returns (mem : Memory) (cRating : Int) (xs : List Nat) :
    ∀ (a : Nat) (p q : Option Nat) (fuel : Nat), is_seg mem p none (xs ++ [a]) q →
      xs.length + 1 < fuel → ∃ k, count_in_row mem cRating fuel (some a) = some k := by
  induction xs using List.reverseRecOn with
  | nil =>
    intro a p q fuel h hf
    obtain ⟨_, n, hn, hprev, _⟩ := h
    obtain ⟨f, rfl⟩ : ∃ f, fuel = f + 2 := ⟨fuel - 2, by simp at hf; omega⟩
    by_cases hr : n.entry.rating = cRating
    · exact ⟨1, by simp [count_in_row, hn, hr, hprev]⟩
    · exact ⟨0, by simp [count_in_row, hn, hr]⟩
  | append_singleton ys b ih =>
    intro a p q fuel h hf
    rw [is_seg_append] at h
    obtain ⟨mid, h1, h2⟩ := h
    rw [last_ptr_append_singleton] at h2
    obtain ⟨_, n, hn, hprev, _⟩ := h2
    obtain ⟨f, rfl⟩ : ∃ f, fuel = f + 1 := ⟨fuel - 1, by omega⟩
    simp only [List.length_append, List.length_singleton] at hf
    by_cases hr : n.entry.rating = cRating
    · obtain ⟨k, hk⟩ := ih b p mid f h1 (by omega)
      exact ⟨k + 1, by simp [count_in_row, hn, hr, hprev, hk]⟩
    · exact ⟨0, by simp [count_in_row, hn, hr]⟩

theorem count_in_row_chain (mem : Memory) (cRating : Int) (addrs : List Nat) (p q : Option Nat)
    (a : Nat) (fuel : Nat) (h : is_seg mem p none addrs q) (ha : a ∈ addrs)
    (hf : addrs.length < fuel) : ∃ k, count_in_row mem cRating fuel (some a) = some k := by
  obtain ⟨xs, ys, hsplit⟩ := List.append_of_mem ha
  have h' : is_seg mem p none ((xs ++ [a]) ++ ys) q := by
    rw [List.append_assoc]
    simpa [hsplit] using h
  rw [is_seg_append] at h'
  obtain ⟨mid, h1, _⟩ := h'
  apply count_in_row_returns mem cRating xs a p mid fuel h1
  rw [hsplit] at hf
  simp only [List.length_append, List.length_cons] at hf
  omega

theorem entries_split (mem : Memory) (pre post : List Nat) (to_add : Nat) (new : CacheNode)
    (hnew : mem to_add = some new) (rating : Int)
    (hpre : ∀ a ∈ pre, ∃ n, mem a = some n ∧ n.entry.rating < rating)
    (hpost : ∀ h, post.head? = some h → ∃ n, mem h = some n ∧ ¬ n.entry.rating < rating)
    (hr : new.entry.rating = rating) :
    entries mem (pre ++ to_add :: post) =
      add_to_cache_list (entries mem (pre ++ post)) new.entry := by
  have h1 : entries mem (pre ++ to_add :: post) =
      entries mem pre ++ new.entry :: entries mem post := by
    simp [entries, List.filterMap_append, List.filterMap_cons, hnew]
  have h2 : entries mem (pre ++ post) = entries mem pre ++ entries mem post := by
    simp [entries, List.filterMap_append]
  rw [h1, h2]
  symm
  apply add_to_cache_list_at
  · intro x hx
    simp only [entries, List.mem_filterMap] at hx
    obtain ⟨a, ha, hax⟩ := hx
    obtain ⟨n, hn, hlt⟩ := hpre a ha
    rw [hn] at hax
    simp only [Option.map_some', Option.some.injEq] at hax
    rw [← hax, hr]
    exact hlt
  · intro x hx
    cases post with
    | nil => simp [entries] at hx
    | cons h post' =>
      obtain ⟨n, hn, hge⟩ := hpost h rfl
      simp only [entries, List.filterMap_cons, hn, Option.map_some', List.head?_cons,
        Option.some.injEq] at hx
      rw [← hx, hr]
      exact hge

/-- The function on the memory refines `add_to_cache_list` on lists: on a
well-formed chain and a fresh entry whose links are `NULL`, with enough fuel it
returns; the result is a well-formed chain that starts at the new value of
`*list`, holds the old nodes in their order with the new node at one place,
and its entries are those computed by the list-level function. -/
theorem add_to_cache_list_mem_spec (fuel : Nat) (mem : Memory) (list : Option Nat)
    (to_add : Nat) (addrs : List Nat) (new : CacheNode)
    (hseg : is_seg mem list none addrs none) (hnd : addrs.Nodup)
    (hfresh : to_add ∉ addrs) (hnew : mem to_add = some new)
    (hnext : new.next = none) (hprev : new.prev = none) (hfuel : addrs.length < fuel) :
    ∃ mem' list' pre post,
      add_to_cache_list_mem fuel mem list to_add = some (mem', list') ∧
        addrs = pre ++ post ∧
        is_seg mem' list' none (pre ++ to_add :: post) none ∧
        (pre ++ to_add :: post).Nodup ∧
        (∀ x, (mem' x).map (fun n => n.entry) = (mem x).map (fun n => n.entry)) ∧
        entries mem' (pre ++ to_add :: post) =
          add_to_cache_list (entries mem addrs) new.entry := by
  have hnd' : ∀ pre post, addrs = pre ++ post → (pre ++ to_add :: post).Nodup := by
    intro pre post hsplit
    rw [hsplit] at hnd hfresh
    rw [List.nodup_append] at hnd ⊢
    simp only [List.mem_append, not_or] at hfresh
    refine ⟨hnd.1, List.nodup_cons.2 ⟨hfresh.2, hnd.2.1⟩, ?_⟩
    intro a ha hb
    rcases List.mem_cons.1 hb with rfl | hb
    · exact hfresh.1 ha
    · exact hnd.2.2 ha hb
  cases list with
  | none =>
    have haddrs : addrs = [] := by
      cases addrs with
      | nil => rfl
      | cons a rest => exact absurd hseg.1 (by simp)
    subst haddrs
    refine ⟨mem, some to_add, [], [], ?_, rfl, ?_, by simp, fun _ => rfl, ?_⟩
    · simp [add_to_cache_list_mem, hnew]
    · exact ⟨rfl, new, hnew, hprev, hnext⟩
    · simp [entries, hnew, add_to_cache_list]
  | some first =>
    obtain ⟨pre, post, t, hsplit, hpre, hpost, hfind, ht⟩ :=
      find_place_spec mem new.entry.rating addrs (some first) none first fuel hseg hfuel
    have ht_mem : t ∈ addrs := by
      by_cases hpe : pre = []
      · subst hpe
        have htf : t = first := by simpa [last_ptr] using ht
        cases addrs with
        | nil => exact absurd hseg (by simp [is_seg])
        | cons a rest =>
          have : first = a := by simpa using hseg.1
          rw [htf, this]
          exact List.mem_cons_self _ _
      · obtain ⟨xs, hxs⟩ := last_ptr_eq_some pre (some first) t hpe ht.symm
        rw [hsplit, hxs]
        simp
    obtain ⟨tn, htn⟩ := is_seg_mem mem addrs _ _ _ hseg t ht_mem
    obtain ⟨k, hk⟩ := count_in_row_chain mem tn.entry.rating addrs (some first) none t fuel hseg
      ht_mem hfuel
    have hndn := hnd' pre post hsplit
    have hseg2 := hseg
    rw [hsplit, is_seg_append] at hseg2
    obtain ⟨mid, hsegpre, hsegpost⟩ := hseg2
    have hpre_fresh : to_add ∉ pre := fun h => hfresh (hsplit ▸ List.mem_append_left _ h)
    have hpost_fresh : to_add ∉ post := fun h => hfresh (hsplit ▸ List.mem_append_right _ h)
    cases post with
    | nil =>
      -- the walk reached the end: the new node is linked after `tail`
      have hpre_ne : pre ≠ [] := by
        intro h
        rw [h] at hsplit
        rw [hsplit] at hseg
        exact absurd hseg (by simp [is_seg])
      have ht' : last_ptr (some first) pre = last_ptr none pre := by
        cases pre with
        | nil => exact absurd rfl hpre_ne
        | cons a rest => rfl
      obtain ⟨xs, hxs⟩ := last_ptr_eq_some pre (some first) t hpre_ne ht.symm
      have hmid : mid = none := hsegpost
      refine ⟨set_prev (set_next mem t (some to_add)) to_add (some t), some first, pre, [],
        ?_, hsplit, ?_, hndn, ?_, ?_⟩
      · simp only [add_to_cache_list_mem, hnew, hfind, htn, hk, List.head?_nil]
      · rw [is_seg_append]
        refine ⟨some to_add, ?_, ?_⟩
        · apply is_seg_frame (set_next mem t (some to_add)) _ pre
          · intro a ha
            have : a ≠ to_add := fun h => hpre_fresh (h ▸ ha)
            simp [set_prev, this]
          · rw [hxs]
            apply is_seg_set_next_last mem t (some to_add) xs _ _ mid
            · rw [← hxs]
              rw [hsplit, List.append_nil] at hnd
              exact hnd
            · rw [← hxs]; exact hsegpre
        · have hlast : last_ptr none pre = some t := by rw [← ht']; exact ht.symm
          rw [hlast]
          have hne : to_add ≠ t := by
            intro h
            apply hpre_fresh
            rw [hxs, h]
            simp
          refine ⟨rfl, { new with prev := some t }, ?_, rfl, hnext⟩
          simp [set_prev, set_next, hne, hnew]
      · intro x
        rw [entry_set_prev, entry_set_next]
      · rw [entries_congr mem _ _ (fun x => by rw [entry_set_prev, entry_set_next]), hsplit]
        exact entries_split mem pre [] to_add new hnew _ hpre hpost rfl
    | cons h post' =>
      -- the walk stopped at `h`: the new node is spliced in before it
      obtain ⟨hmid, hn, hhn, hhprev, hrest⟩ := hsegpost
      have hh_ne : h ≠ to_add := fun e => hpost_fresh (e ▸ List.mem_cons_self _ _)
      have hpost_nd : (h :: post').Nodup := by
        rw [hsplit, List.nodup_append] at hnd
        exact hnd.2.1
      have hsegpost : is_seg mem (some h) (last_ptr none pre) (h :: post') none :=
        ⟨rfl, hn, hhn, hhprev, hrest⟩
      by_cases hpre_e : pre = []
      · subst hpre_e
        have hprevnone : hn.prev = none := hhprev
        refine ⟨set_prev (set_next (set_prev mem to_add none) to_add (some h)) h (some to_add),
          some to_add, [], h :: post', ?_, hsplit, ?_, hndn, ?_, ?_⟩
        · simp only [add_to_cache_list_mem, hnew, hfind, htn, hk, List.head?_cons, hhn,
            hprevnone, if_true]
        · refine ⟨rfl, { new with next := some h, prev := none }, ?_, rfl, ?_⟩
          · simp [set_prev, set_next, hh_ne.symm, hnew]
          · apply is_seg_set_prev_first _ h (some to_add) post' (some h) none none hpost_nd
            apply is_seg_frame mem _ (h :: post') _ _ _ _ hsegpost
            intro a ha
            have : a ≠ to_add := fun e => hpost_fresh (e ▸ ha)
            simp [set_prev, set_next, this]
        · intro x
          rw [entry_set_prev, entry_set_next, entry_set_prev]
        · rw [entries_congr mem _ _
            (fun x => by rw [entry_set_prev, entry_set_next, entry_set_prev]), hsplit]
          exact entries_split mem [] (h :: post') to_add new hnew _ hpre hpost rfl
      · have ht' : last_ptr (some first) pre = last_ptr none pre := by
          cases pre with
          | nil => exact absurd rfl hpre_e
          | cons a rest => rfl
        obtain ⟨xs, hxs⟩ := last_ptr_eq_some pre (some first) t hpre_e ht.symm
        have hlast : last_ptr none pre = some t := by rw [← ht']; exact ht.symm
        have hprevt : hn.prev = some t := by rw [hhprev, hlast]
        have ht_pre : t ∈ pre := by rw [hxs]; simp
        have ht_ne : t ≠ to_add := fun e => hpre_fresh (e ▸ ht_pre)
        have hdisj : ∀ a ∈ pre, a ∉ h :: post' := by
          rw [hsplit, List.nodup_append] at hnd
          exact fun a ha hb => hnd.2.2 ha hb
        have ht_h : t ≠ h := fun e => hdisj t ht_pre (e ▸ List.mem_cons_self _ _)
        refine ⟨set_prev (set_next (set_prev (set_next mem t (some to_add)) to_add (some t))
            to_add (some h)) h (some to_add),
          some first, pre, h :: post', ?_, hsplit, ?_, hndn, ?_, ?_⟩
        · simp only [add_to_cache_list_mem, hnew, hfind, htn, hk, List.head?_cons, hhn, hprevt]
          simp
        · rw [is_seg_append]
          refine ⟨some to_add, ?_, ?_⟩
          · apply is_seg_frame (set_next mem t (some to_add)) _ pre
            · intro a ha
              have h1 : a ≠ to_add := fun e => hpre_fresh (e ▸ ha)
              have h2 : a ≠ h := fun e => hdisj a ha (e ▸ List.mem_cons_self _ _)
              simp [set_prev, set_next, h1, h2]
            · rw [hxs]
              apply is_seg_set_next_last mem t (some to_add) xs _ _ mid
              · rw [← hxs]
                rw [hsplit, List.nodup_append] at hnd
                exact hnd.1
              · rw [← hxs]; exact hsegpre
          · rw [hlast]
            refine ⟨rfl, { new with next := some h, prev := some t }, ?_, rfl, ?_⟩
            · simp [set_prev, set_next, hh_ne.symm, ht_ne.symm, hnew]
            · apply is_seg_set_prev_first _ h (some to_add) post' (some h) (some t) none hpost_nd
              rw [← hlast]
              apply is_seg_frame mem _ (h :: post') _ _ _ _ hsegpost
              intro a ha
              have h1 : a ≠ to_add := fun e => hpost_fresh (e ▸ ha)
              have h2 : a ≠ t := fun e => hdisj t ht_pre (e ▸ ha)
              simp [set_prev, set_next, h1, h2]
        · intro x
          rw [entry_set_prev, entry_set_next, entry_set_prev, entry_set_next]
        · rw [entries_congr mem _ _
            (fun x => by rw [entry_set_prev, entry_set_next, entry_set_prev, entry_set_next]),
            hsplit]
          exact entries_split mem pre (h :: post') to_add new hnew _ hpre hpost rfl

/-! ### The merged rows -/

theorem merge_all_sorted (env : Env) (rows : List SelectRow) :
    ∀ init, rating_sorted init → rating_sorted (merge_all env init rows) := by
  induction rows with
  | nil => intro init h; exact h
  | cons row rows ih =>
    intro init h
    exact ih _ (add_to_cache_list_sorted init _ h)

theorem length_merge_all (env : Env) (rows : List SelectRow) :
    ∀ init, (merge_all env init rows).length = init.length + rows.length := by
  induction rows with
  | nil => intro init; rfl
  | cons row rows ih =>
    intro init
    show (merge_all env (add_to_cache_list init _) rows).length = _
    rw [ih, length_add_to_cache_list]
    simp only [List.length_cons]
    omega

/-- With a list to fill, `select_callback` merges the row when the guard holds,
counts it, and returns 0. -/
theorem select_callback_list {U : Type} (env : Env) (data : select_callback_data U)
    (row : SelectRow) (l : List GlyrMemCache) (h : data.result = some l) :
    select_callback env data row =
      ({ data with
          result := some (if 15 ≤ row.argc ∧ data.counter < data.query.number
            then add_to_cache_list l (cache_of_row env row.argv) else l)
          counter := data.counter + 1 }, 0) := by
  unfold select_callback
  by_cases hg : 15 ≤ row.argc ∧ data.counter < data.query.number
  · simp only [hg, and_self, if_true, h]
  · simp only [hg, if_false, h]

theorem exec_select_list {U : Type} (env : Env) (rows : List SelectRow) :
    ∀ (data : select_callback_data U) (l : List GlyrMemCache), data.result = some l →
      (exec_select env data rows).result =
        some (merge_all env l (merged_rows data.query.number data.counter rows)) := by
  induction rows with
  | nil => intro data l h; simpa [exec_select, merged_rows, merge_all] using h
  | cons row rows ih =>
    intro data l h
    unfold exec_select
    simp only [select_callback_list env data row l h, if_true]
    rw [ih _ _ rfl]
    by_cases hg : 15 ≤ row.argc ∧ data.counter < data.query.number
    · simp only [merged_rows, hg, and_self, if_true]
      rfl
    · simp only [merged_rows, hg, if_false]

theorem merged_rows_length (number : Int) (rows : List SelectRow) :
    ∀ counter : Int, ((merged_rows number counter rows).length : Int) ≤ max 0 (number - counter) := by
  induction rows with
  | nil => intro counter; simp [merged_rows]
  | cons row rows ih =>
    intro counter
    have := ih (counter + 1)
    simp only [merged_rows]
    split
    · rename_i hg
      simp only [List.length_cons, Nat.cast_add, Nat.cast_one]
      have h2 := hg.2
      rcases le_max_iff.1 this with h | h
      · have : (0:Int) ≤ ((merged_rows number (counter + 1) rows).length : Int) := Int.natCast_nonneg _
        apply le_max_of_le_right; omega
      · apply le_max_of_le_right; omega
    · rcases le_max_iff.1 this with h | h
      · exact le_max_of_le_left h
      · by_cases hc : counter < number
        · apply le_max_of_le_right; omega
        · apply le_max_of_le_left; omega

theorem glyr_db_lookup_eq (env : Env) (db : GlyrDatabase) (query : GlyrQuery) :
    glyr_db_lookup env db query =
      merge_all env [] (merged_rows query.number 0
        (lookup_scan env db query (lookup_order env db query) 0)) := by
  unfold glyr_db_lookup
  rw [exec_select_list env _ (lookup_data query) [] rfl]
  rfl

/-! ### C1 - C3: the merged result list -/

/-- C1: whatever rows `sqlite3_exec` delivers to `select_callback` for a lookup,
the result is the empty list extended by one `add_to_cache_list` per merged row
and is in non-decreasing rating order; so is the list `glyr_db_lookup` returns;
and `add_to_cache_list` applied to a list in non-decreasing rating order and
any new entry yields a list in non-decreasing rating order. -/
theorem lookup_rating_ascending (env : Env) (db : GlyrDatabase) (query : GlyrQuery)
    (rows : List SelectRow) :
    (exec_select env (lookup_data query) rows).result =
        some (merge_all env [] (merged_rows query.number 0 rows)) ∧
      rating_sorted (merge_all env [] (merged_rows query.number 0 rows)) ∧
      glyr_db_lookup env db query =
        merge_all env [] (merged_rows query.number 0
          (lookup_scan env db query (lookup_order env db query) 0)) ∧
      rating_sorted (glyr_db_lookup env db query) ∧
      (∀ (l : List GlyrMemCache) (e : GlyrMemCache),
        rating_sorted l → rating_sorted (add_to_cache_list l e)) := by
  refine ⟨exec_select_list env rows (lookup_data query) [] rfl, ?_, glyr_db_lookup_eq env db query,
    ?_, fun l e h => add_to_cache_list_sorted l e h⟩
  · exact merge_all_sorted env _ [] List.Pairwise.nil
  · rw [glyr_db_lookup_eq]
    exact merge_all_sorted env _ [] List.Pairwise.nil

/-- Witness of C1: inserting a rating-2 entry into the ordered list of a
rating-1 and a rating-3 entry. -/
theorem lookup_rating_ascending_witness :
    rating_sorted [demo_entry 1 "a", demo_entry 3 "b"] ∧
      rating_sorted (add_to_cache_list [demo_entry 1 "a", demo_entry 3 "b"] (demo_entry 2 "c")) :=
  ⟨by unfold rating_sorted; decide,
    (lookup_rating_ascending demoEnv emptyDb (demo_query 3) []).2.2.2.2
      [demo_entry 1 "a", demo_entry 3 "b"] (demo_entry 2 "c") (by unfold rating_sorted; decide)⟩

theorem filter_rating_add_to_cache_list (l : List GlyrMemCache) (e : GlyrMemCache) (k : Int) :
    (add_to_cache_list l e).filter (fun x => decide (x.rating = k)) =
      if e.rating = k then e :: l.filter (fun x => decide (x.rating = k))
      else l.filter (fun x => decide (x.rating = k)) := by
  induction l with
  | nil =>
    by_cases hk : e.rating = k <;> simp [add_to_cache_list, hk]
  | cons head rest ih =>
    unfold add_to_cache_list
    by_cases hlt : head.rating < e.rating
    · simp only [hlt, if_true]
      by_cases hk : e.rating = k
      · have hne : ¬ head.rating = k := by omega
        simp only [List.filter_cons, ih, hk, if_true, hne, decide_False, Bool.false_eq_true,
          if_false]
      · simp only [List.filter_cons, ih, hk, if_false]
    · simp only [hlt, if_false]
      by_cases hk : e.rating = k
      · simp only [List.filter_cons, hk, decide_True, if_true]
      · simp only [List.filter_cons, hk, decide_False, Bool.false_eq_true, if_false]

theorem add_to_cache_list_split (l : List GlyrMemCache) (e : GlyrMemCache) :
    add_to_cache_list l e =
      l.takeWhile (fun x => decide (x.rating < e.rating)) ++
        e :: l.dropWhile (fun x => decide (x.rating < e.rating)) := by
  induction l with
  | nil => rfl
  | cons head rest ih =>
    unfold add_to_cache_list
    by_cases hlt : head.rating < e.rating
    · simp only [hlt, if_true, List.takeWhile_cons, List.dropWhile_cons, decide_True,
        List.cons_append]
      rw [ih]
    · simp only [hlt, if_false, List.takeWhile_cons, List.dropWhile_cons, decide_False,
        Bool.false_eq_true, List.nil_append]

theorem filter_rating_merge_all (env : Env) (k : Int) (rows : List SelectRow) :
    ∀ init : List GlyrMemCache,
      (merge_all env init rows).filter (fun x => decide (x.rating = k)) =
        ((rows.map (fun row => cache_of_row env row.argv)).filter
            (fun x => decide (x.rating = k))).reverse ++
          init.filter (fun x => decide (x.rating = k)) := by
  induction rows with
  | nil => intro init; simp [merge_all]
  | cons row rows ih =>
    intro init
    show (merge_all env (add_to_cache_list init _) rows).filter _ = _
    rw [ih, filter_rating_add_to_cache_list]
    by_cases hk : (cache_of_row env row.argv).rating = k
    · simp only [hk, if_true, List.map_cons, List.filter_cons, decide_True, List.reverse_cons,
        List.append_assoc, List.singleton_append]
    · simp only [hk, if_false, List.map_cons, List.filter_cons, decide_False, Bool.false_eq_true]

/-! ### C2 -/

/-- C2: rows arriving with ratings 3, 1, 2, 1 (source urls `a`, `b`, `c`, `d`)
are returned as 1, 1, 2, 3 with the rating-1 entry that arrived second (`d`)
before the rating-1 entry that arrived first (`b`): the walk of
`add_to_cache_list` stops at the first entry whose rating is not below the new
one, so the new entry is not placed at the end of its group.  The function
carries the note `FIXME: Subsort groups by timestamp`.  The same order comes
out of `glyr_db_lookup` on the store into which the four lyrics were inserted
in this order, when the select visits the rows in rowid order. -/
theorem lookup_ties_not_in_arrival_order :
    (exec_select demoEnv (lookup_data (demo_query 10))
        [demo_row 3 "a", demo_row 1 "b", demo_row 2 "c", demo_row 1 "d"]).result =
      some [demo_entry 1 "d", demo_entry 1 "b", demo_entry 2 "c", demo_entry 3 "a"] ∧
    (exec_select demoEnv (lookup_data (demo_query 10))
        [demo_row 3 "a", demo_row 1 "b", demo_row 2 "c", demo_row 1 "d"]).result ≠
      some [demo_entry 1 "b", demo_entry 1 "d", demo_entry 2 "c", demo_entry 3 "a"] ∧
    add_to_cache_list [demo_entry 1 "b", demo_entry 2 "c", demo_entry 3 "a"] (demo_entry 1 "d") ≠
      [demo_entry 1 "b", demo_entry 1 "d", demo_entry 2 "c", demo_entry 3 "a"] ∧
    (glyr_db_lookup demoEnv demo_four_rows (demo_query 10)).map (fun e => (e.rating, e.dsrc)) =
      [(1, some "d"), (1, some "b"), (2, some "c"), (3, some "a")] := by
  decide

/-- The place that `add_to_cache_list` picks: the new entry goes after the leading
entries of smaller rating and before every other entry, hence to the front of
the group of existing entries with its rating; in the list built from the
merged rows the entries of each rating appear in reverse arrival order; and
rows arriving with ratings 3, 1, 2, 1 give 1, 1, 2, 3 with the rating-1 entry
that arrived second (`d`) before the one that arrived first (`b`). -/
theorem add_to_cache_list_front_of_group (env : Env) (l : List GlyrMemCache) (e : GlyrMemCache)
    (rows : List SelectRow) (k : Int) :
    add_to_cache_list l e =
        l.takeWhile (fun x => decide (x.rating < e.rating)) ++
          e :: l.dropWhile (fun x => decide (x.rating < e.rating)) ∧
      (add_to_cache_list l e).filter (fun x => decide (x.rating = e.rating)) =
        e :: l.filter (fun x => decide (x.rating = e.rating)) ∧
      (merge_all env [] rows).filter (fun x => decide (x.rating = k)) =
        ((rows.map (fun row => cache_of_row env row.argv)).filter
          (fun x => decide (x.rating = k))).reverse ∧
      (exec_select demoEnv (lookup_data (demo_query 10))
          [demo_row 3 "a", demo_row 1 "b", demo_row 2 "c", demo_row 1 "d"]).result =
        some [demo_entry 1 "d", demo_entry 1 "b", demo_entry 2 "c", demo_entry 3 "a"] := by
  refine ⟨add_to_cache_list_split l e, ?_, ?_, by decide⟩
  · rw [filter_rating_add_to_cache_list]
    simp
  · rw [filter_rating_merge_all]
    simp

/-! ### C3 -/

/-- C3: for a limit `N >= 0`, whatever rows are delivered to `select_callback`,
the result list has at most `N` entries, and so has the list returned by
`glyr_db_lookup`; a row delivered when `N` rows have been counted leaves the
list as it is. -/
theorem lookup_bounded (env : Env) (db : GlyrDatabase) (query : GlyrQuery)
    (rows : List SelectRow) (hN : 0 ≤ query.number) :
    (∃ l, (exec_select env (lookup_data query) rows).result = some l ∧
        (l.length : Int) ≤ query.number) ∧
      ((glyr_db_lookup env db query).length : Int) ≤ query.number ∧
      (∀ (U : Type) (data : select_callback_data U) (row : SelectRow) (l : List GlyrMemCache),
        data.result = some l → data.query.number ≤ data.counter →
          (select_callback env data row).1.result = some l) := by
  have hlen : ∀ rows : List SelectRow,
      ((merge_all env [] (merged_rows query.number 0 rows)).length : Int) ≤ query.number := by
    intro rows
    rw [length_merge_all]
    have := merged_rows_length query.number rows 0
    rw [sub_zero, max_eq_right hN] at this
    simpa using this
  refine ⟨⟨_, exec_select_list env rows (lookup_data query) [] rfl, hlen rows⟩, ?_, ?_⟩
  · rw [glyr_db_lookup_eq]
    exact hlen _
  · intro U data row l hl hc
    rw [select_callback_list env data row l hl]
    have : ¬ (15 ≤ row.argc ∧ data.counter < data.query.number) := by
      intro h; omega
    simp only [this, if_false]

/-- Witness of C3: three rows delivered under limit 2. -/
theorem lookup_bounded_witness :
    (0 : Int) ≤ (demo_query 2).number ∧
      ∃ l, (exec_select demoEnv (lookup_data (demo_query 2))
          [demo_row 3 "a", demo_row 1 "b", demo_row 2 "c"]).result = some l ∧
        (l.length : Int) ≤ (demo_query 2).number :=
  ⟨by decide, (lookup_bounded demoEnv emptyDb (demo_query 2)
    [demo_row 3 "a", demo_row 1 "b", demo_row 2 "c"] (by decide)).1⟩

/-! ### Insert -/

theorem glyr_db_insert_ok (env : Env) (db : GlyrDatabase) (q : GlyrQuery) (c : GlyrMemCache)
    (now : Timestamp) (h : missing_field env q = false) :
    glyr_db_insert env db q c now =
      execute_commit (insert_cache_data env (dimensions_inserted env db q c) q c now) := by
  unfold missing_field at h
  simp only [Bool.or_eq_false_iff] at h
  obtain ⟨⟨h1, h2⟩, h3⟩ := h
  unfold glyr_db_insert dimensions_inserted
  simp only [h1, h2, h3, Bool.false_eq_true, if_false]
  have hb2 : ∀ d : GlyrDatabase, execute_begin d = { d with in_transaction := true } := by
    intro d; unfold execute_begin; split
    · rename_i ht; cases d; simp_all
    · rfl
  rw [hb2]
  split <;> split <;> split <;> rfl

theorem glyr_db_insert_abort (env : Env) (db : GlyrDatabase) (q : GlyrQuery) (c : GlyrMemCache)
    (now : Timestamp) (h : missing_field env q = true) :
    (glyr_db_insert env db q c now).metadata = db.metadata ∧
      (glyr_db_insert env db q c now).in_transaction = true := by
  have hb2 : ∀ d : GlyrDatabase, execute_begin d = { d with in_transaction := true } := by
    intro d; unfold execute_begin; split
    · rename_i ht; cases d; simp_all
    · rfl
  unfold missing_field at h
  unfold glyr_db_insert
  rw [hb2]
  simp only []
  split
  · exact ⟨rfl, rfl⟩
  · rename_i h1
    rw [Bool.not_eq_true] at h1
    split
    · split <;> exact ⟨rfl, rfl⟩
    · rename_i h2
      rw [Bool.not_eq_true] at h2
      split
      · split <;> split <;> exact ⟨rfl, rfl⟩
      · rename_i h3
        rw [Bool.not_eq_true] at h3
        simp only [get_req] at h h1 h2 h3
        simp only [get_req, h1, h2, h3, Bool.or_self, Bool.false_eq_true] at h

theorem collides_new_row (env : Env) (d : GlyrDatabase) (q : GlyrQuery) (c : GlyrMemCache)
    (now : Timestamp) (r : MetaRow) :
    index_unique_collides r (new_row env d q c now) = (same_key q c r && c.dsrc.isSome) := by
  unfold index_unique_collides same_key new_row
  simp only []
  cases hs : r.source_url <;> cases hd : c.dsrc <;> simp

theorem same_key_new_row (env : Env) (d : GlyrDatabase) (q : GlyrQuery) (c : GlyrMemCache)
    (now : Timestamp) : same_key q c (new_row env d q c now) = true := by
  simp [same_key, new_row]

theorem insert_cache_data_metadata (env : Env) (d : GlyrDatabase) (q : GlyrQuery)
    (c : GlyrMemCache) (now : Timestamp) :
    (insert_cache_data env d q c now).metadata =
      if d.metadata.any (fun r => same_key q c r && c.dsrc.isSome) then d.metadata
      else d.metadata ++ [new_row env d q c now] := by
  unfold insert_cache_data
  simp only [collides_new_row]
  split <;> rfl

theorem filter_same_key_le_one (q : GlyrQuery) (c : GlyrMemCache) (hsrc : c.dsrc.isSome = true)
    (rows : List MetaRow) (h : index_unique_holds rows) :
    (rows.filter (same_key q c)).length ≤ 1 := by
  induction rows with
  | nil => simp
  | cons r rs ih =>
    unfold index_unique_holds at h ih
    rw [List.pairwise_cons] at h
    by_cases hr : same_key q c r = true
    · have hnone : rs.filter (same_key q c) = [] := by
        rw [List.filter_eq_nil_iff]
        intro s hs hks
        have hcol := h.1 s hs
        unfold same_key at hr hks
        unfold index_unique_collides at hcol
        simp only [Bool.and_eq_true, beq_iff_eq] at hr hks
        obtain ⟨⟨⟨a1, a2⟩, a3⟩, a4⟩ := hr
        obtain ⟨⟨⟨b1, b2⟩, b3⟩, b4⟩ := hks
        rw [a1, a2, a3, a4, b1, b2, b3, b4] at hcol
        simp [hsrc] at hcol
      simp [List.filter_cons, hr, hnone]
    · simp only [List.filter_cons, hr, Bool.false_eq_true, if_false]
      exact ih h.2

/-! ### C5 -/

/-- C5, as stated, fails for an artifact without source url: the second
`glyr_db_insert` of the same artifact adds a second row to `metadata`. -/
theorem insert_twice_without_source_url_duplicates :
    (glyr_db_insert demoEnv emptyDb (demo_query 3) (demo_cache 5 none) 100).metadata.length = 1 ∧
    (glyr_db_insert demoEnv
        (glyr_db_insert demoEnv emptyDb (demo_query 3) (demo_cache 5 none) 100)
        (demo_query 3) (demo_cache 5 none) 101).metadata.length = 2 ∧
    ((glyr_db_insert demoEnv
        (glyr_db_insert demoEnv emptyDb (demo_query 3) (demo_cache 5 none) 100)
        (demo_query 3) (demo_cache 5 none) 101).metadata.filter
          (same_key (demo_query 3) (demo_cache 5 none))).length = 2 := by
  decide

/-- C5 as amended: for an artifact whose source url is present, the fact table
after the second `glyr_db_insert` equals the fact table after the first; and
when no applicable field is missing and the unique index held before, exactly
one row carries the identity of the artifact. -/
theorem insert_twice_idempotent (env : Env) (db : GlyrDatabase) (q : GlyrQuery)
    (c : GlyrMemCache) (now1 now2 : Timestamp) (hsrc : c.dsrc.isSome = true) :
    (glyr_db_insert env (glyr_db_insert env db q c now1) q c now2).metadata =
        (glyr_db_insert env db q c now1).metadata ∧
      (missing_field env q = false → index_unique_holds db.metadata →
        ((glyr_db_insert env (glyr_db_insert env db q c now1) q c now2).metadata.filter
          (same_key q c)).length = 1) := by
  have key : (glyr_db_insert env (glyr_db_insert env db q c now1) q c now2).metadata =
      (glyr_db_insert env db q c now1).metadata := by
    cases hm : missing_field env q
    · rw [glyr_db_insert_ok env _ q c now2 hm]
      show (insert_cache_data env _ q c now2).metadata = _
      rw [insert_cache_data_metadata]
      have hany : (dimensions_inserted env (glyr_db_insert env db q c now1) q c).metadata.any
          (fun r => same_key q c r && c.dsrc.isSome) = true := by
        show (glyr_db_insert env db q c now1).metadata.any _ = true
        rw [glyr_db_insert_ok env db q c now1 hm]
        show (insert_cache_data env _ q c now1).metadata.any _ = true
        rw [insert_cache_data_metadata]
        split
        · assumption
        · rw [List.any_append]
          simp [same_key_new_row, hsrc]
      rw [if_pos hany]
      rfl
    · exact (glyr_db_insert_abort env _ q c now2 hm).1
  refine ⟨key, ?_⟩
  intro hm hu
  rw [key, glyr_db_insert_ok env db q c now1 hm]
  show ((insert_cache_data env _ q c now1).metadata.filter _).length = 1
  rw [insert_cache_data_metadata]
  show ((if db.metadata.any (fun r => same_key q c r && c.dsrc.isSome) = true then db.metadata
    else db.metadata ++ [new_row env _ q c now1]).filter _).length = 1
  split
  · rename_i hany
    rw [List.any_eq_true] at hany
    obtain ⟨r, hr, hk⟩ := hany
    have hle := filter_same_key_le_one q c hsrc db.metadata hu
    have hpos : 0 < (db.metadata.filter (same_key q c)).length := by
      apply List.length_pos_of_mem (a := r)
      rw [List.mem_filter]
      simp only [Bool.and_eq_true] at hk
      exact ⟨hr, hk.1⟩
    omega
  · rename_i hany
    have hnone : db.metadata.filter (same_key q c) = [] := by
      rw [List.filter_eq_nil_iff]
      intro r hr hk
      apply hany
      rw [List.any_eq_true]
      exact ⟨r, hr, by simp [hk, hsrc]⟩
    rw [List.filter_append, hnone]
    simp [same_key_new_row]

/-- Witness of C5: the lyrics artifact with source url `a`, inserted twice into
a fresh store. -/
theorem insert_twice_idempotent_witness :
    (demo_cache 5 (some "a")).dsrc.isSome = true ∧
      missing_field demoEnv (demo_query 3) = false ∧
      index_unique_holds emptyDb.metadata ∧
      (glyr_db_insert demoEnv
          (glyr_db_insert demoEnv emptyDb (demo_query 3) (demo_cache 5 (some "a")) 100)
          (demo_query 3) (demo_cache 5 (some "a")) 101).metadata =
        (glyr_db_insert demoEnv emptyDb (demo_query 3) (demo_cache 5 (some "a")) 100).metadata ∧
      ((glyr_db_insert demoEnv
          (glyr_db_insert demoEnv emptyDb (demo_query 3) (demo_cache 5 (some "a")) 100)
          (demo_query 3) (demo_cache 5 (some "a")) 101).metadata.filter
            (same_key (demo_query 3) (demo_cache 5 (some "a")))).length = 1 :=
  ⟨by decide, by decide, List.Pairwise.nil,
    (insert_twice_idempotent demoEnv emptyDb (demo_query 3) (demo_cache 5 (some "a")) 100 101
      (by decide)).1,
    (insert_twice_idempotent demoEnv emptyDb (demo_query 3) (demo_cache 5 (some "a")) 100 101
      (by decide)).2 (by decide) List.Pairwise.nil⟩

/-! ### C7 -/

/-- C7: the code at the failing input.  A cover query with artist `Foo` and no
album on a fresh store: `glyr_db_insert` returns from `ABORT_ON_FAILED_REQS`
after `BEGIN IMMEDIATE` and after the insert into `artists`, so the artist row
is there and the transaction is left open.  Without the artist, too, the
transaction is left open. -/
theorem insert_missing_album_leaves_artist_and_transaction :
    missing_field demoEnv demo_cover_query = true ∧
      glyr_db_insert demoEnv emptyDb demo_cover_query (demo_cache 5 (some "a")) 100 =
        { emptyDb with artists := ["foo"], in_transaction := true } ∧
      glyr_db_insert demoEnv emptyDb demo_cover_query (demo_cache 5 (some "a")) 100 ≠ emptyDb ∧
      glyr_db_insert demoEnv emptyDb { demo_cover_query with artist := none }
          (demo_cache 5 (some "a")) 100 =
        { emptyDb with in_transaction := true } := by
  decide

/-! ### Delete -/

theorem id_test_iff {α : Type} [DecidableEq α] (arg col : Option α) :
    id_test arg col = true ↔ col = arg := by
  cases arg <;> cases col <;> simp [id_test]

theorem delete_where_iff (argv : DeleteArgv) (m : MetaRow) :
    delete_where argv m = true ↔ delete_argv m = argv := by
  unfold delete_where delete_argv
  simp only [Bool.and_eq_true, id_test_iff]
  cases argv
  simp only [DeleteArgv.mk.injEq]
  tauto

theorem delete_where_self (m : MetaRow) : delete_where (delete_argv m) m = true :=
  (delete_where_iff _ _).2 rfl

theorem delete_callback_five (data : delete_callback_data) (argv : DeleteArgv) :
    (delete_callback data 5 argv).1 =
      if data.max_delete > data.deleted then
        { data with con := execute_delete data.con argv, deleted := data.deleted + 1 }
      else data := by
  unfold delete_callback
  by_cases h : data.max_delete > data.deleted
  · simp [h]
  · simp [h]

theorem delete_selects_execute_delete (env : Env) (db : GlyrDatabase) (argv : DeleteArgv)
    (query : GlyrQuery) (m : MetaRow) :
    delete_selects env (execute_delete db argv) query m = delete_selects env db query m := rfl

theorem delete_callback_max (data : delete_callback_data) (argv : DeleteArgv) :
    (delete_callback data 5 argv).1.max_delete = data.max_delete := by
  rw [delete_callback_five]
  split <;> rfl

theorem delete_scan_cons (env : Env) (query : GlyrQuery) (m : MetaRow) (ms : List MetaRow)
    (k : Nat) (data : delete_callback_data) :
    delete_scan env query (m :: ms) k data =
      if still_produced env data.con.metadata m && limit_open query.number k &&
          delete_selects env data.con query m
      then delete_scan env query ms (k + 1) (delete_callback data 5 (delete_argv m)).1
      else delete_scan env query ms k data := rfl

/-- The count never exceeds the limit. -/
theorem delete_scan_bound (env : Env) (query : GlyrQuery) (todo : List MetaRow) :
    ∀ (k : Nat) (data : delete_callback_data), data.deleted ≤ max 0 data.max_delete →
      (delete_scan env query todo k data).deleted ≤ max 0 data.max_delete := by
  induction todo with
  | nil => intro k data h; exact h
  | cons m ms ih =>
    intro k data h
    rw [delete_scan_cons]
    split
    · have := ih (k + 1) (delete_callback data 5 (delete_argv m)).1
      rw [delete_callback_max] at this
      apply this
      rw [delete_callback_five]
      split
      · rename_i hgt
        show data.deleted + 1 ≤ _
        apply le_max_of_le_right
        omega
      · exact h
    · exact ih k data h

/-- The scan in closed form: the rows for which a `DELETE` was executed form a
sublist `C` of the rows visited, the rows removed are those that share their
tuple of ids with a row of `C`, and the count grew by the length of `C`. -/
theorem delete_scan_closed_form (env : Env) (query : GlyrQuery) (todo : List MetaRow) :
    ∀ (k : Nat) (data : delete_callback_data),
      ∃ C : List MetaRow, C.Sublist todo ∧
        (delete_scan env query todo k data).con.metadata =
          data.con.metadata.filter (fun r => decide (delete_argv r ∉ C.map delete_argv)) ∧
        (delete_scan env query todo k data).deleted = data.deleted + (C.length : Int) := by
  induction todo with
  | nil =>
    intro k data
    exact ⟨[], List.Sublist.refl _, by simp [delete_scan], by simp [delete_scan]⟩
  | cons m ms ih =>
    intro k data
    rw [delete_scan_cons]
    split
    · rw [delete_callback_five]
      split
      · obtain ⟨C, hC, h1, h2⟩ := ih (k + 1)
          { data with con := execute_delete data.con (delete_argv m),
                      deleted := data.deleted + 1 }
        refine ⟨m :: C, hC.cons₂ m, ?_, ?_⟩
        · rw [h1]
          show (data.con.metadata.filter _).filter _ = _
          rw [List.filter_filter]
          apply List.filter_congr
          intro r _
          have hiff := delete_where_iff (delete_argv m) r
          by_cases hr : delete_argv r = delete_argv m
          · simp [hiff.2 hr, hr]
          · have hw : delete_where (delete_argv m) r = false := by
              rw [Bool.eq_false_iff]
              exact fun h => hr (hiff.1 h)
            simp [hw, hr]
        · rw [h2]
          simp only [List.length_cons]
          push_cast
          ring
      · obtain ⟨C, hC, h1, h2⟩ := ih (k + 1) data
        exact ⟨C, hC.cons m, h1, h2⟩
    · obtain ⟨C, hC, h1, h2⟩ := ih k data
      exact ⟨C, hC.cons m, h1, h2⟩

/-- The count returned by `glyr_db_delete` never exceeds the number of rows
removed. -/
theorem glyr_db_delete_count_le_removed (env : Env) (db : GlyrDatabase) (query : GlyrQuery) :
    (glyr_db_delete env db query).2 + ((glyr_db_delete env db query).1.metadata.length : Int) ≤
      (db.metadata.length : Int) := by
  obtain ⟨C, hC, h1, h2⟩ := delete_scan_closed_form env query (delete_order env db query) 0
    { con := db, deleted := 0, max_delete := query.number }
  have hperm : (delete_order env db query).Perm db.metadata := env.scan_order_perm _ _ _ _ _
  have h1' : (glyr_db_delete env db query).1.metadata =
      db.metadata.filter (fun r => decide (delete_argv r ∉ C.map delete_argv)) := h1
  have h2' : (glyr_db_delete env db query).2 = 0 + (C.length : Int) := h2
  rw [h1', h2']
  have hsplit := List.length_eq_length_filter_add
    (l := db.metadata) (fun r => decide (delete_argv r ∉ C.map delete_argv))
  have hsub := hC.filter (fun r => !decide (delete_argv r ∉ C.map delete_argv))
  have hCf : C.filter (fun r => !decide (delete_argv r ∉ C.map delete_argv)) = C := by
    rw [List.filter_eq_self]
    intro a ha
    simp only [Bool.not_eq_true', decide_eq_false_iff_not, not_not]
    exact List.mem_map_of_mem _ ha
  rw [hCf] at hsub
  have hle := hsub.length_le
  have hpl := (hperm.filter (fun r => !decide (delete_argv r ∉ C.map delete_argv))).length_eq
  omega

theorem filter_delete_where_distinct (cur : List MetaRow) (m : MetaRow) (hd : fk_distinct cur)
    (hm : m ∈ cur) :
    cur.filter (fun r => !delete_where (delete_argv m) r) =
      cur.filter (fun r => decide (r ≠ m)) := by
  apply List.filter_congr
  intro r hr
  have hinj := List.inj_on_of_nodup_map hd
  by_cases h : r = m
  · subst h; simp [delete_where_self]
  · have hw : delete_where (delete_argv m) r = false := by
      rw [Bool.eq_false_iff]
      intro hw
      exact h (hinj hr hm ((delete_where_iff _ _).1 hw))
    simp [hw, h]

theorem length_filter_ne (cur : List MetaRow) (m : MetaRow) (hd : cur.Nodup) (hm : m ∈ cur) :
    (cur.filter (fun r => decide (r ≠ m))).length + 1 = cur.length := by
  have h1 : cur.filter (fun r => decide (r ≠ m)) = cur.erase m := by
    rw [List.Nodup.erase_eq_filter hd m]
    apply List.filter_congr
    intro r _
    by_cases h : r = m <;> simp [h]
  rw [h1, List.length_erase_of_mem hm]
  have := List.length_pos_of_mem hm
  omega

/-- The scan on a table without shared tuples: the rows removed are the first
rows the select lets through, as many as the limit leaves room for, and each
counted `DELETE` removed one row.  No row is removed before its turn, so the
result does not depend on whether the select sees the deletions. -/
theorem delete_scan_distinct (env : Env) (query : GlyrQuery) (hN : 0 ≤ query.number)
    (db0 : GlyrDatabase) (todo : List MetaRow) :
    ∀ (k : Nat) (data : delete_callback_data),
      data.max_delete = query.number → data.deleted = (k : Int) →
      fk_distinct data.con.metadata → (∀ x ∈ todo, x ∈ data.con.metadata) → todo.Nodup →
      (∀ m, delete_selects env data.con query m = delete_selects env db0 query m) →
      (delete_scan env query todo k data).con.metadata =
          data.con.metadata.filter (fun r => decide (r ∉
            (todo.filter (delete_selects env db0 query)).take (query.number.toNat - k))) ∧
        (delete_scan env query todo k data).deleted =
          (k : Int) + (((todo.filter (delete_selects env db0 query)).take
            (query.number.toNat - k)).length : Int) ∧
        ((delete_scan env query todo k data).con.metadata.length : Int) +
            ((delete_scan env query todo k data).deleted - (k : Int)) =
          (data.con.metadata.length : Int) := by
  induction todo with
  | nil =>
    intro k data _ hdel _ _ _ _
    simp [delete_scan, hdel]
  | cons m ms ih =>
    intro k data hmax hdel hd hsub htodo hsel
    have hm : m ∈ data.con.metadata := hsub m (List.mem_cons_self m ms)
    have hms : ∀ x ∈ ms, x ∈ data.con.metadata :=
      fun x hx => hsub x (List.mem_cons_of_mem _ hx)
    have hnd : data.con.metadata.Nodup := List.Nodup.of_map _ hd
    have hmms : m ∉ ms := (List.nodup_cons.1 htodo).1
    have hmsnd : ms.Nodup := (List.nodup_cons.1 htodo).2
    rw [delete_scan_cons]
    by_cases hA : delete_selects env db0 query m = true ∧ (k : Int) < query.number
    · obtain ⟨hs, hk⟩ := hA
      have hcond : (still_produced env data.con.metadata m && limit_open query.number k &&
          delete_selects env data.con query m) = true := by
        simp [still_produced, hm, limit_open, hk, hsel, hs]
      rw [if_pos hcond]
      have hcb : (delete_callback data 5 (delete_argv m)).1 =
          { data with con := execute_delete data.con (delete_argv m),
                      deleted := data.deleted + 1 } := by
        rw [delete_callback_five, if_pos (by omega)]
      rw [hcb]
      have hcur : (execute_delete data.con (delete_argv m)).metadata =
          data.con.metadata.filter (fun r => decide (r ≠ m)) :=
        filter_delete_where_distinct _ _ hd hm
      have hd2 : fk_distinct (execute_delete data.con (delete_argv m)).metadata := by
        unfold fk_distinct
        exact List.Nodup.sublist ((List.filter_sublist _).map _) hd
      have hsub2 : ∀ x ∈ ms, x ∈ (execute_delete data.con (delete_argv m)).metadata := by
        intro x hx
        rw [hcur, List.mem_filter]
        refine ⟨hms x hx, ?_⟩
        simp only [decide_eq_true_eq]
        intro h; exact hmms (h ▸ hx)
      obtain ⟨h1, h2, h3⟩ := ih (k + 1)
        { data with con := execute_delete data.con (delete_argv m), deleted := data.deleted + 1 }
        hmax (by simp [hdel]) hd2 hsub2 hmsnd (fun x => hsel x)
      have hpos : query.number.toNat - k = (query.number.toNat - (k + 1)) + 1 := by omega
      have hT : ((m :: ms).filter (delete_selects env db0 query)).take (query.number.toNat - k) =
          m :: (ms.filter (delete_selects env db0 query)).take (query.number.toNat - (k + 1)) := by
        rw [List.filter_cons, if_pos hs, hpos, List.take_succ_cons]
      rw [hT]
      refine ⟨?_, ?_, ?_⟩
      · rw [h1]
        show (execute_delete data.con (delete_argv m)).metadata.filter _ = _
        rw [hcur, List.filter_filter]
        apply List.filter_congr
        intro r _
        by_cases hr : r = m <;> simp [hr]
      · rw [h2]
        simp only [List.length_cons]
        push_cast
        ring
      · have hlen := length_filter_ne _ _ hnd hm
        rw [← hcur] at hlen
        have h3' : ((delete_scan env query ms (k + 1)
            { data with con := execute_delete data.con (delete_argv m),
                        deleted := data.deleted + 1 }).con.metadata.length : Int) +
            ((delete_scan env query ms (k + 1)
              { data with con := execute_delete data.con (delete_argv m),
                          deleted := data.deleted + 1 }).deleted - ((k + 1 : Nat) : Int)) =
            ((execute_delete data.con (delete_argv m)).metadata.length : Int) := h3
        push_cast at h3'
        omega
    · have hcond : (still_produced env data.con.metadata m && limit_open query.number k &&
          delete_selects env data.con query m) = false := by
        rw [Bool.eq_false_iff]
        intro hc
        simp only [Bool.and_eq_true, decide_eq_true_eq, limit_open, hsel] at hc
        apply hA
        refine ⟨hc.2, ?_⟩
        rcases hc.1.2 with h | h
        · omega
        · exact h
      rw [hcond]
      simp only [Bool.false_eq_true, if_false]
      obtain ⟨h1, h2, h3⟩ := ih k data hmax hdel hd hms hmsnd hsel
      have hT : ((m :: ms).filter (delete_selects env db0 query)).take (query.number.toNat - k) =
          (ms.filter (delete_selects env db0 query)).take (query.number.toNat - k) := by
        by_cases hs : delete_selects env db0 query m = true
        · have hk : ¬ (k : Int) < query.number := fun hk => hA ⟨hs, hk⟩
          have h0 : query.number.toNat - k = 0 := by omega
          rw [h0]
          simp
        · rw [List.filter_cons, if_neg hs]
      rw [hT]
      exact ⟨h1, h2, h3⟩

theorem glyr_db_delete_distinct (env : Env) (db : GlyrDatabase) (query : GlyrQuery)
    (hN : 0 ≤ query.number) (hd : fk_distinct db.metadata) :
    (glyr_db_delete env db query).1.metadata =
        db.metadata.filter (fun r => decide (r ∉
          ((delete_order env db query).filter (delete_selects env db query)).take
            query.number.toNat)) ∧
      (glyr_db_delete env db query).2 =
        ((((delete_order env db query).filter (delete_selects env db query)).take
          query.number.toNat).length : Int) ∧
      ((glyr_db_delete env db query).1.metadata.length : Int) + (glyr_db_delete env db query).2 =
        (db.metadata.length : Int) := by
  have hperm : (delete_order env db query).Perm db.metadata := env.scan_order_perm _ _ _ _ _
  have h := delete_scan_distinct env query hN db (delete_order env db query) 0
    { con := db, deleted := 0, max_delete := query.number } rfl rfl hd
    (fun x hx => hperm.mem_iff.1 hx) (hperm.nodup_iff.2 (List.Nodup.of_map _ hd))
    (fun _ => rfl)
  simp only [Nat.sub_zero, Nat.cast_zero, zero_add, sub_zero] at h
  exact h

/-! ### C8 -/

/-- C9, as stated, fails when matching rows share their tuple of ids: on the
store with three lyrics for `Foo` / `Bar` of one provider, `glyr_db_delete` with
limit 1 returns 1 and has removed three rows (whether or not the select sees
the deletions).  With a negative limit it returns 0, which is greater than the
limit. -/
theorem delete_count_differs_from_removed :
    demo_three_rows.metadata.length = 3 ∧
      (glyr_db_delete demoEnv demo_three_rows (demo_query 1)).1.metadata.length = 0 ∧
      (glyr_db_delete demoEnv demo_three_rows (demo_query 1)).2 = 1 ∧
      (glyr_db_delete demoEnvBlind demo_three_rows (demo_query 1)).1.metadata.length = 0 ∧
      (glyr_db_delete demoEnvBlind demo_three_rows (demo_query 1)).2 = 1 ∧
      (glyr_db_delete demoEnv demo_three_rows (demo_query (-1))).2 = 0 := by
  decide

/-- C9 as amended: for a limit `N >= 0` the integer returned by
`glyr_db_delete` is never greater than `N`; it never exceeds the number of fact
rows the call removed; and it equals that number when no two fact rows share
the tuple (get_type, artist_id, album_id, title_id, provider_id). -/
theorem delete_count (env : Env) (db : GlyrDatabase) (query : GlyrQuery)
    (hN : 0 ≤ query.number) :
    (glyr_db_delete env db query).2 ≤ query.number ∧
      (glyr_db_delete env db query).2 ≤
        (db.metadata.length : Int) - ((glyr_db_delete env db query).1.metadata.length : Int) ∧
      (fk_distinct db.metadata →
        (glyr_db_delete env db query).2 =
          (db.metadata.length : Int) -
            ((glyr_db_delete env db query).1.metadata.length : Int)) := by
  refine ⟨?_, ?_, ?_⟩
  · have h := delete_scan_bound env query (delete_order env db query) 0
      { con := db, deleted := 0, max_delete := query.number } (le_max_left _ _)
    rw [max_eq_right hN] at h
    exact h
  · have h := glyr_db_delete_count_le_removed env db query
    omega
  · intro hd
    obtain ⟨_, _, h3⟩ := glyr_db_delete_distinct env db query hN hd
    omega

/-- Witness of C9: two lyrics with different titles, limit 1. -/
theorem delete_count_witness :
    (0 : Int) ≤ (demo_query 1).number ∧ fk_distinct demo_two_titles.metadata ∧
      (glyr_db_delete demoEnv demo_two_titles (demo_query 1)).2 =
        (demo_two_titles.metadata.length : Int) -
          ((glyr_db_delete demoEnv demo_two_titles (demo_query 1)).1.metadata.length : Int) :=
  ⟨by decide, by unfold fk_distinct; decide,
    (delete_count demoEnv demo_two_titles (demo_query 1) (by decide)).2.2
      (by unfold fk_distinct; decide)⟩

theorem ADD_CONSTRAINT_congr (env : Env) (FIELDNAME : String) (a b : Option String)
    (h : a.map env.g_utf8_strdown = b.map env.g_utf8_strdown) :
    ADD_CONSTRAINT env FIELDNAME a = ADD_CONSTRAINT env FIELDNAME b := by
  unfold ADD_CONSTRAINT
  rw [h]

theorem lookup_constraints_congr (env : Env) (q1 q2 : GlyrQuery)
    (h : same_up_to_case env q1 q2)
    (hp : ∀ item, env.provider_is_enabled q1 item = env.provider_is_enabled q2 item) :
    lookup_constraints env q1 = lookup_constraints env q2 := by
  obtain ⟨ht, _, hd, _, ha, hb, hc⟩ := h
  have hpf : env.provider_is_enabled q1 = env.provider_is_enabled q2 := funext hp
  unfold lookup_constraints get_req convert_from_option_to_sql img_url_constr
  rw [ht, hd, hpf, ADD_CONSTRAINT_congr env _ _ _ ha, ADD_CONSTRAINT_congr env _ _ _ hb,
    ADD_CONSTRAINT_congr env _ _ _ hc]

theorem lookup_scan_congr (env : Env) (db : GlyrDatabase) (q1 q2 : GlyrQuery)
    (ht : q1.type = q2.type) (hn : q1.number = q2.number)
    (hc : lookup_constraints env q1 = lookup_constraints env q2) (ms : List MetaRow) :
    ∀ k, lookup_scan env db q1 ms k = lookup_scan env db q2 ms k := by
  induction ms with
  | nil => intro k; rfl
  | cons m ms ih =>
    intro k
    unfold lookup_scan
    rw [ht, hn, hc]
    simp only [ih]

/-- C6: two queries that differ only in the letter case of artist, album and
title (lower-casing makes them equal, the other fields are equal and the same
providers are enabled for both) compile to the same constraints and
`glyr_db_lookup` returns the same list for both on the same store. -/
theorem lookup_case_insensitive (env : Env) (db : GlyrDatabase) (q1 q2 : GlyrQuery)
    (h : same_up_to_case env q1 q2)
    (hp : ∀ item, env.provider_is_enabled q1 item = env.provider_is_enabled q2 item) :
    lookup_constraints env q1 = lookup_constraints env q2 ∧
      glyr_db_lookup env db q1 = glyr_db_lookup env db q2 := by
  have hc := lookup_constraints_congr env q1 q2 h hp
  refine ⟨hc, ?_⟩
  have ho : lookup_order env db q1 = lookup_order env db q2 := by
    unfold lookup_order
    rw [h.1, h.2.1, hc]
  rw [glyr_db_lookup_eq, glyr_db_lookup_eq, lookup_scan_congr env db q1 q2 h.1 h.2.1 hc, h.2.1,
    ho]

/-- Witness of C6: artist `Foo`, title `Bar` against artist `foo`, title `BAR`
on the store with three lyrics. -/
theorem lookup_case_insensitive_witness :
    same_up_to_case demoEnv (demo_query 3) ⟨2, some "foo", none, some "BAR", 3, true, none⟩ ∧
      glyr_db_lookup demoEnv demo_three_rows (demo_query 3) =
        glyr_db_lookup demoEnv demo_three_rows ⟨2, some "foo", none, some "BAR", 3, true, none⟩ :=
  ⟨by unfold same_up_to_case; decide,
    (lookup_case_insensitive demoEnv demo_three_rows (demo_query 3)
      ⟨2, some "foo", none, some "BAR", 3, true, none⟩ (by unfold same_up_to_case; decide)
      (fun _ => rfl)).2⟩

/-! ### Round trip -/

theorem name_at_zero (tbl : List String) : name_at tbl 0 = none := by
  cases tbl <;> rfl

theorem left_join_rowid_of (tbl : List String) (x : String) (h : x ∈ tbl) :
    left_join tbl (rowid_of tbl x) = some x := by
  induction tbl with
  | nil => simp at h
  | cons y ys ih =>
    unfold rowid_of
    by_cases hy : y = x
    · simp [hy, left_join, name_at]
    · simp only [hy, if_false]
      have hx : x ∈ ys := by
        rcases List.mem_cons.1 h with h | h
        · exact absurd h.symm hy
        · exact h
      have := ih hx
      cases hr : rowid_of ys x with
      | none => simp [hr, left_join] at this
      | some i =>
        rw [hr] at this
        have this' : name_at ys i = some x := this
        have hi : i ≠ 0 := by
          intro h0
          rw [h0, name_at_zero] at this'
          simp at this'
        simp [left_join, name_at, hi, this']

theorem mem_insert_or_ignore (tbl : List String) (x : String) : x ∈ insert_or_ignore tbl x := by
  unfold insert_or_ignore
  split
  · assumption
  · simp

theorem mem_merge_all (env : Env) (rows : List SelectRow) :
    ∀ (init : List GlyrMemCache) (x : GlyrMemCache),
      x ∈ merge_all env init rows ↔ x ∈ init ∨ ∃ r ∈ rows, x = cache_of_row env r.argv := by
  induction rows with
  | nil => intro init x; simp [merge_all]
  | cons row rows ih =>
    intro init x
    show x ∈ merge_all env (add_to_cache_list init _) rows ↔ _
    rw [ih, mem_add_to_cache_list]
    simp only [List.mem_cons, exists_eq_or_imp]
    tauto

theorem merged_rows_all (number : Int) (rows : List SelectRow) :
    ∀ counter : Int, (∀ r ∈ rows, 15 ≤ r.argc) → counter + (rows.length : Int) ≤ number →
      merged_rows number counter rows = rows := by
  induction rows with
  | nil => intro counter _ _; rfl
  | cons row rows ih =>
    intro counter h15 hb
    simp only [List.length_cons] at hb
    push_cast at hb
    have hg : 15 ≤ row.argc ∧ counter < number :=
      ⟨h15 row (List.mem_cons_self _ _), by
        have : (0 : Int) ≤ (rows.length : Int) := Int.natCast_nonneg _
        omega⟩
    simp only [merged_rows, hg, and_self, if_true]
    rw [ih (counter + 1) (fun r hr => h15 r (List.mem_cons_of_mem _ hr)) (by omega)]

theorem lookup_scan_argc (env : Env) (db : GlyrDatabase) (query : GlyrQuery)
    (ms : List MetaRow) : ∀ k, ∀ r ∈ lookup_scan env db query ms k, 15 ≤ r.argc := by
  induction ms with
  | nil => intro k r hr; simp [lookup_scan] at hr
  | cons m ms ih =>
    intro k r hr
    unfold lookup_scan at hr
    split at hr
    · split at hr
      · rcases List.mem_cons.1 hr with rfl | hr
        · exact le_refl _
        · exact ih _ r hr
      · exact ih _ r hr
    · exact ih _ r hr

theorem lookup_scan_length (env : Env) (db : GlyrDatabase) (query : GlyrQuery)
    (ms : List MetaRow) :
    ∀ k, (lookup_scan env db query ms k).length ≤ (ms.filter (lookup_selects env db query)).length := by
  induction ms with
  | nil => intro k; simp [lookup_scan]
  | cons m ms ih =>
    intro k
    unfold lookup_scan
    cases hj : join_row db m with
    | none =>
      simp only []
      have hs : lookup_selects env db query m = false := by simp [lookup_selects, hj]
      rw [List.filter_cons, hs]
      exact ih k
    | some argv =>
      simp only []
      have hs : lookup_selects env db query m =
          where_holds env query.type (lookup_constraints env query) argv := by
        simp [lookup_selects, hj]
      split
      · rename_i hc
        simp only [Bool.and_eq_true] at hc
        rw [List.filter_cons, hs, if_pos hc.2]
        simp only [List.length_cons]
        exact Nat.succ_le_succ (ih (k + 1))
      · rw [List.filter_cons]
        split
        · simp only [List.length_cons]
          exact Nat.le_succ_of_le (ih k)
        · exact ih k

/-- When the limit leaves room for every row the select lets through, each of
them is produced. -/
theorem lookup_scan_mem (env : Env) (db : GlyrDatabase) (query : GlyrQuery)
    (ms : List MetaRow) :
    ∀ k : Nat, (k : Int) + ((ms.filter (lookup_selects env db query)).length : Int) ≤ query.number →
      ∀ m ∈ ms, ∀ argv, join_row db m = some argv →
        where_holds env query.type (lookup_constraints env query) argv = true →
        ({ argc := 15, argv := argv } : SelectRow) ∈ lookup_scan env db query ms k := by
  induction ms with
  | nil => intro k _ m hm; simp at hm
  | cons m' ms ih =>
    intro k hb m hm argv hj hw
    unfold lookup_scan
    cases hj' : join_row db m' with
    | none =>
      simp only []
      have hs : lookup_selects env db query m' = false := by simp [lookup_selects, hj']
      rw [List.filter_cons, hs] at hb
      rcases List.mem_cons.1 hm with rfl | hm
      · rw [hj] at hj'; simp at hj'
      · exact ih k hb m hm argv hj hw
    | some argv' =>
      simp only []
      have hs : lookup_selects env db query m' =
          where_holds env query.type (lookup_constraints env query) argv' := by
        simp [lookup_selects, hj']
      by_cases hw' : where_holds env query.type (lookup_constraints env query) argv' = true
      · rw [List.filter_cons, hs, if_pos hw', List.length_cons] at hb
        push_cast at hb
        have hlim : limit_open query.number k = true := by
          simp only [limit_open, decide_eq_true_eq]
          right
          have : (0 : Int) ≤ ((ms.filter (lookup_selects env db query)).length : Int) :=
            Int.natCast_nonneg _
          omega
        simp only [hlim, hw', Bool.and_self, if_true]
        rcases List.mem_cons.1 hm with rfl | hm
        · rw [hj] at hj'
          simp only [Option.some.injEq] at hj'
          rw [hj']
          exact List.mem_cons_self _ _
        · exact List.mem_cons_of_mem _ (ih (k + 1) (by push_cast; omega) m hm argv hj hw)
      · rw [List.filter_cons, hs, if_neg hw'] at hb
        have hw'' : where_holds env query.type (lookup_constraints env query) argv' = false := by
          simpa using hw'
        simp only [hw'', Bool.and_false, Bool.false_eq_true, if_false]
        rcases List.mem_cons.1 hm with rfl | hm
        · rw [hj] at hj'
          simp only [Option.some.injEq] at hj'
          rw [hj'] at hw
          exact absurd hw hw'
        · exact ih k hb m hm argv hj hw

theorem insert_cache_data_dims (env : Env) (d : GlyrDatabase) (q : GlyrQuery) (c : GlyrMemCache)
    (now : Timestamp) :
    (insert_cache_data env d q c now).providers = d.providers ∧
      (insert_cache_data env d q c now).artists = d.artists ∧
      (insert_cache_data env d q c now).albums = d.albums ∧
      (insert_cache_data env d q c now).titles = d.titles ∧
      (insert_cache_data env d q c now).image_types = d.image_types := by
  unfold insert_cache_data
  simp only []
  split <;> exact ⟨rfl, rfl, rfl, rfl, rfl⟩

/-- The name a dimension insert leaves behind is the one the id sub-select of
`insert_cache_data` finds, when the two lower-casings agree on the value. -/
theorem field_joined (env : Env) (tbl : List String) (ap : Bool) (v : String)
    (hap : ap = true) (hlow : env.sql_lower v = env.g_utf8_strdown v) :
    left_join (if ap = true then INSERT_STRING env tbl (some v) else tbl)
        (rowid_of (if ap = true then INSERT_STRING env tbl (some v) else tbl)
          (env.sql_lower (mprintf_q (some v)))) =
      some (env.g_utf8_strdown v) := by
  rw [if_pos hap]
  show left_join _ (rowid_of _ (env.sql_lower v)) = _
  rw [hlow]
  exact left_join_rowid_of _ _ (mem_insert_or_ignore _ _)

theorem column_value_artist (argv : SelectArgv) :
    column_value argv "artist_name" = argv.artist_name := by
  simp [column_value]

theorem column_value_album (argv : SelectArgv) :
    column_value argv "album_name" = argv.album_name := by
  simp [column_value]

theorem column_value_title (argv : SelectArgv) :
    column_value argv "title_name" = argv.title_name := by
  simp [column_value]

/-- A predicate that `glyr_db_lookup` compiles on a field holds on the joined
row of an artifact stored under the same query. -/
theorem constraint_field (env : Env) (FIELD : String) (req opt : Bool) (val : Option String)
    (tbl : List String) (argv : SelectArgv)
    (hcolumn : column_value argv FIELD =
      left_join (if (req || opt) = true then INSERT_STRING env tbl val else tbl)
        (rowid_of (if (req || opt) = true then INSERT_STRING env tbl val else tbl)
          (env.sql_lower (mprintf_q val))))
    (hmiss : ((req || opt) && val.isNone) = false)
    (hlow : ∀ v, req = true ∧ val = some v → env.sql_lower v = env.g_utf8_strdown v) :
    constraint_holds (if req = true then ADD_CONSTRAINT env FIELD val else none) argv = true := by
  cases req with
  | false => simp [constraint_holds]
  | true =>
    cases val with
    | none => simp at hmiss
    | some v =>
      have h := field_joined env tbl (true || opt) v (by simp) (hlow v ⟨rfl, rfl⟩)
      rw [← hcolumn] at h
      simp [ADD_CONSTRAINT, constraint_holds, h]

/-! ### C4 -/

/-- C4 as amended: when no applicable field of the query is missing, no stored
row has the identity (subject type, artifact type, checksum, source url) of the
artifact, the two lower-casings agree on the provider name and on the fields
the lookup constrains, the provider list of the query reads as a list of
string literals of which the provider is one, the artifact type fits the link
flag of an image query, the limit is not smaller
than the number of rows the lookup select lets through and the payload is well
formed, then after `glyr_db_insert` the list returned by `glyr_db_lookup` for the
same query contains an entry with the payload, the checksum and the rating of
the artifact and with its lower-cased provider name (`none` for no provider). -/
theorem insert_then_lookup (env : Env) (db : GlyrDatabase) (q : GlyrQuery) (c : GlyrMemCache)
    (now : Timestamp)
    (hmiss : missing_field env q = false)
    (hnew : db.metadata.any (fun r => same_key q c r && c.dsrc.isSome) = false)
    (hprov : env.sql_lower (c.prov.getD "none") = env.g_utf8_strdown (c.prov.getD "none"))
    (literals : List String)
    (hlist : read_in_list (convert_from_option_to_sql env q) = some literals)
    (hen : env.g_utf8_strdown (c.prov.getD "none") ∈ literals)
    (hlow : ∀ v, constrained_value env q v → env.sql_lower v = env.g_utf8_strdown v)
    (himg : env.TYPE_IS_IMAGE q.type = true →
      (q.download = false ↔ c.type = env.GLYR_TYPE_IMG_URL))
    (hlimit : (((glyr_db_insert env db q c now).metadata.filter
      (lookup_selects env (glyr_db_insert env db q c now) q)).length : Int) ≤ q.number)
    (hdata : payload_well_formed env c) :
    ∃ e ∈ glyr_db_lookup env (glyr_db_insert env db q c now) q,
      e.data = c.data ∧ e.md5sum = c.md5sum ∧
        e.prov = some (env.g_utf8_strdown (c.prov.getD "none")) ∧ e.rating = c.rating := by
  have hD := glyr_db_insert_ok env db q c now hmiss
  have hdims := insert_cache_data_dims env (dimensions_inserted env db q c) q c now
  have hmeta : (glyr_db_insert env db q c now).metadata =
      db.metadata ++ [new_row env (dimensions_inserted env db q c) q c now] := by
    rw [hD]
    show (insert_cache_data env _ q c now).metadata = _
    rw [insert_cache_data_metadata]
    have hm0 : (dimensions_inserted env db q c).metadata = db.metadata := rfl
    rw [hm0, hnew]
    simp
  have hp : (glyr_db_insert env db q c now).providers =
      (dimensions_inserted env db q c).providers := by rw [hD]; exact hdims.1
  have ha : (glyr_db_insert env db q c now).artists =
      (dimensions_inserted env db q c).artists := by rw [hD]; exact hdims.2.1
  have hb : (glyr_db_insert env db q c now).albums =
      (dimensions_inserted env db q c).albums := by rw [hD]; exact hdims.2.2.1
  have ht : (glyr_db_insert env db q c now).titles =
      (dimensions_inserted env db q c).titles := by rw [hD]; exact hdims.2.2.2.1
  generalize glyr_db_insert env db q c now = D at hmeta hp ha hb ht hlimit ⊢
  clear hD hdims
  -- the joined row of the new `metadata` row
  have hjp : left_join D.providers
      (new_row env (dimensions_inserted env db q c) q c now).provider_id =
      some (env.g_utf8_strdown (c.prov.getD "none")) := by
    rw [hp]
    show left_join (insert_or_ignore db.providers _)
      (rowid_of (insert_or_ignore db.providers _) (env.sql_lower (c.prov.getD "none"))) = _
    rw [hprov]
    exact left_join_rowid_of _ _ (mem_insert_or_ignore _ _)
  obtain ⟨argv, hj, hprovname, hcols, hdata_col, hsum, hrating, hsize, htype, hgt⟩ :
      ∃ argv, join_row D (new_row env (dimensions_inserted env db q c) q c now) = some argv ∧
        argv.provider_name = some (env.g_utf8_strdown (c.prov.getD "none")) ∧
        (argv.artist_name = left_join D.artists
            (new_row env (dimensions_inserted env db q c) q c now).artist_id ∧
          argv.album_name = left_join D.albums
            (new_row env (dimensions_inserted env db q c) q c now).album_id ∧
          argv.title_name = left_join D.titles
            (new_row env (dimensions_inserted env db q c) q c now).title_id) ∧
        argv.data = c.data.map (fun d => d.take c.size.toNat) ∧
        argv.data_checksum = some c.md5sum ∧ argv.rating = some c.rating ∧
        argv.data_size = some c.size ∧ argv.data_type = some c.type ∧
        argv.get_type = some q.type := by
    unfold join_row
    rw [hjp]
    exact ⟨_, rfl, rfl, ⟨rfl, rfl, rfl⟩, rfl, rfl, rfl, rfl, rfl, rfl⟩
  unfold missing_field at hmiss
  simp only [Bool.or_eq_false_iff] at hmiss
  obtain ⟨⟨hm1, hm2⟩, hm3⟩ := hmiss
  have hw : where_holds env q.type (lookup_constraints env q) argv = true := by
    unfold where_holds
    simp only [Bool.and_eq_true]
    refine ⟨⟨⟨⟨⟨?_, ?_⟩, ?_⟩, ?_⟩, ?_⟩, ?_⟩
    · rw [hgt]; simp
    · apply constraint_field env "title_name" _ (get_req env q).optional_title q.title db.titles
        argv _ hm3 (fun v hv => hlow v (Or.inr (Or.inr hv)))
      rw [column_value_title, hcols.2.2, ht]
      rfl
    · apply constraint_field env "album_name" _ (get_req env q).optional_album q.album db.albums
        argv _ hm2 (fun v hv => hlow v (Or.inr (Or.inl hv)))
      rw [column_value_album, hcols.2.1, hb]
      rfl
    · apply constraint_field env "artist_name" _ (get_req env q).optional_artist q.artist
        db.artists argv _ hm1 (fun v hv => hlow v (Or.inl hv))
      rw [column_value_artist, hcols.1, ha]
      rfl
    · show img_url_holds env (img_url_constr env q) argv = true
      unfold img_url_constr
      by_cases hi : env.TYPE_IS_IMAGE q.type = true
      · rw [if_pos hi]
        have hiff := himg hi
        by_cases hdl : q.download = false
        · rw [if_pos hdl]
          simp [img_url_holds, htype, hiff.1 hdl]
        · rw [if_neg hdl]
          have hne : c.type ≠ env.GLYR_TYPE_IMG_URL := fun h => hdl (hiff.2 h)
          simp [img_url_holds, htype, hne]
      · rw [if_neg hi]
        rfl
    · have htext : (lookup_constraints env q).from_argument_list =
          convert_from_option_to_sql env q := rfl
      simp only [in_list_holds, provider_in_list, htext, hlist, hprovname, decide_eq_true_eq]
      exact hen
  have hmem : new_row env (dimensions_inserted env db q c) q c now ∈ D.metadata := by
    rw [hmeta]; simp
  have hperm : (lookup_order env D q).Perm D.metadata := env.scan_order_perm _ _ _ _ _
  have hpl := (hperm.filter (lookup_selects env D q)).length_eq
  have hrow := lookup_scan_mem env D q (lookup_order env D q) 0
    (by rw [hpl]; simpa using hlimit) _ (hperm.mem_iff.2 hmem) argv hj hw
  have hall : merged_rows q.number 0 (lookup_scan env D q (lookup_order env D q) 0) =
      lookup_scan env D q (lookup_order env D q) 0 := by
    apply merged_rows_all _ _ 0 (lookup_scan_argc env D q (lookup_order env D q) 0)
    have := lookup_scan_length env D q (lookup_order env D q) 0
    omega
  refine ⟨cache_of_row env argv, ?_, ?_, ?_, ?_, ?_⟩
  · rw [glyr_db_lookup_eq, hall, mem_merge_all]
    exact Or.inr ⟨_, hrow, rfl⟩
  · unfold cache_of_row
    simp only [hdata_col, hsize, Option.getD_some]
    rcases hdata with ⟨hnone, hinit⟩ | ⟨d, hd, hpos, hlen⟩
    · rw [hnone]; simp [hinit]
    · rw [hd]
      have htake : d.take c.size.toNat = d := by
        apply List.take_of_length_le
        omega
      simp [hpos, htake, List.take_take]
  · unfold cache_of_row
    simp only [hsum]
  · unfold cache_of_row
    simp only [hprovname]
  · unfold cache_of_row
    simp only [hrating, Option.getD_some]

/-- C4, as stated, fails.  The store holds the lyrics with source url `a` at
rating 1; inserting the same lyrics (same subject type, artifact type, checksum
and source url) at rating 5 is ignored by the unique index, and the lookup
returns the rating-1 entry only.  An insert under a cover query without album
aborts, so the lookup returns nothing.  And with the registry entry
`rock'n'roll` the provider list is not a list of string literals: the select
of the lookup does not parse and the lookup returns nothing, also for an
artifact of that very provider. -/
theorem insert_then_lookup_misses_artifact :
    glyr_db_lookup demoEnv
        (glyr_db_insert demoEnv demo_one_row (demo_query 3) (demo_cache 5 (some "a")) 101)
        (demo_query 3) = [demo_entry 1 "a"] ∧
      (¬ ∃ e ∈ glyr_db_lookup demoEnv
          (glyr_db_insert demoEnv demo_one_row (demo_query 3) (demo_cache 5 (some "a")) 101)
          (demo_query 3), carries (demo_cache 5 (some "a")) e) ∧
      glyr_db_lookup demoEnv
        (glyr_db_insert demoEnv emptyDb demo_cover_query (demo_cache 5 (some "a")) 100)
        demo_cover_query = [] ∧
      "rock'n'roll" ∈ from_argument_members demoEnvQuote (demo_query 3) ∧
      read_in_list (convert_from_option_to_sql demoEnvQuote (demo_query 3)) = none ∧
      glyr_db_lookup demoEnvQuote
        (glyr_db_insert demoEnvQuote emptyDb (demo_query 3) demo_rock_cache 100)
        (demo_query 3) = [] := by
  unfold carries
  decide

/-- Witness of C4: the lyrics of `Foo` / `Bar` inserted into a fresh store. -/
theorem insert_then_lookup_witness :
    missing_field demoEnv (demo_query 3) = false ∧
      ∃ e ∈ glyr_db_lookup demoEnv
          (glyr_db_insert demoEnv emptyDb (demo_query 3) (demo_cache 5 (some "a")) 100)
          (demo_query 3),
        e.data = (demo_cache 5 (some "a")).data ∧ e.md5sum = (demo_cache 5 (some "a")).md5sum ∧
          e.prov = some (demoEnv.g_utf8_strdown ((demo_cache 5 (some "a")).prov.getD "none")) ∧
          e.rating = (demo_cache 5 (some "a")).rating :=
  ⟨by decide,
    insert_then_lookup demoEnv emptyDb (demo_query 3) (demo_cache 5 (some "a")) 100
      (by decide) (by decide) rfl ["none", "lyricswiki", "local"] (by decide) (by decide)
      (fun _ _ => rfl)
      (fun h => absurd h (by decide)) (by decide)
      (Or.inr ⟨[104, 105], rfl, by decide, by decide⟩)⟩

/-! ### Edit, replace and the lyrics validator -/

/-- C11: `glyr_db_edit` returns the count of `glyr_db_delete`, and when that
count is 0 no insert runs: the store is the one the delete left. -/
theorem edit_guard (env : Env) (db : GlyrDatabase) (query : GlyrQuery)
    (edited : List GlyrMemCache) (clock : Nat → Timestamp) :
    (glyr_db_edit env db query edited clock).2 = (glyr_db_delete env db query).2 ∧
      ((glyr_db_delete env db query).2 = 0 →
        (glyr_db_edit env db query edited clock).1 = (glyr_db_delete env db query).1) := by
  unfold glyr_db_edit
  constructor
  · simp only []
    split
    · cases edited <;> rfl
    · rfl
  · intro h
    simp [h]

/-- Witness of C11: an edit of the lyrics of `Foo` / `Bar` on a fresh store,
where the delete finds nothing. -/
theorem edit_guard_witness :
    (glyr_db_delete demoEnv emptyDb (demo_query 3)).2 = 0 ∧
      (glyr_db_edit demoEnv emptyDb (demo_query 3) [demo_cache 5 (some "x")] demo_clock).1 =
        (glyr_db_delete demoEnv emptyDb (demo_query 3)).1 :=
  ⟨by decide,
    (edit_guard demoEnv emptyDb (demo_query 3) [demo_cache 5 (some "x")] demo_clock).2
      (by decide)⟩

/-- The loop of `glyr_db_edit` inserts the head of the list once per entry. -/
theorem edit_loop_eq (env : Env) (query : GlyrQuery) (edited : GlyrMemCache)
    (clock : Nat → Timestamp) (l : List GlyrMemCache) :
    ∀ (i : Nat) (db : GlyrDatabase),
      edit_loop env query edited clock l i db =
        insert_each env query clock (List.replicate l.length edited) i db := by
  induction l with
  | nil => intro i db; rfl
  | cons c rest ih =>
    intro i db
    show edit_loop env query edited clock rest (i + 1) _ = _
    rw [ih]
    rfl

/-- C12: an edit with the two artifacts of source url `x` and `y` on a store
that holds one matching row.  The delete removes one row; the loop then inserts
the first artifact twice (the second insert is ignored) and never the second
one, where one insert per artifact would store both. -/
theorem edit_inserts_head_for_every_entry :
    (glyr_db_delete demoEnv demo_one_row (demo_query 3)).2 = 1 ∧
      ((glyr_db_edit demoEnv demo_one_row (demo_query 3)
        [demo_cache 5 (some "x"), demo_cache 6 (some "y")] demo_clock).1.metadata.map
          (fun r => r.source_url)) = [some "x"] ∧
      ((insert_each demoEnv (demo_query 3) demo_clock
        [demo_cache 5 (some "x"), demo_cache 6 (some "y")] 0
        (glyr_db_delete demoEnv demo_one_row (demo_query 3)).1).metadata.map
          (fun r => r.source_url)) = [some "x", some "y"] ∧
      (glyr_db_edit demoEnv demo_one_row (demo_query 3)
        [demo_cache 5 (some "x"), demo_cache 6 (some "y")] demo_clock).1 ≠
        insert_each demoEnv (demo_query 3) demo_clock
          [demo_cache 5 (some "x"), demo_cache 6 (some "y")] 0
          (glyr_db_delete demoEnv demo_one_row (demo_query 3)).1 ∧
      (glyr_db_edit demoEnvBlind demo_one_row (demo_query 3)
        [demo_cache 5 (some "x"), demo_cache 6 (some "y")] demo_clock).1 ≠
        insert_each demoEnvBlind (demo_query 3) demo_clock
          [demo_cache 5 (some "x"), demo_cache 6 (some "y")] 0
          (glyr_db_delete demoEnvBlind demo_one_row (demo_query 3)).1 := by
  decide

theorem mem_without_checksum (db : GlyrDatabase) (k : Bytes) (r : MetaRow) :
    r ∈ (without_checksum db k).metadata ↔ r ∈ db.metadata ∧ r.data_checksum ≠ k := by
  simp [without_checksum, List.mem_filter]

theorem execute_delete_checksum_eq (db : GlyrDatabase) (k : Bytes) (hk : k.length = 16) :
    execute_delete_checksum db k = without_checksum db k := by
  unfold execute_delete_checksum without_checksum
  have ht : k.take 16 = k := by
    rw [← hk]
    exact List.take_length _
  rw [ht]
  congr 1
  apply List.filter_congr
  intro m _
  by_cases h : m.data_checksum = k <;> simp [h]

/-- C13: `glyr_db_replace` with a 16-byte checksum `k` removes the fact rows
whose checksum is `k`, whatever their other fields, and then the store is
that of `glyr_db_insert(db,q,c)` on the store without those rows, so a row with
checksum `k` is in the store afterwards only if the insert wrote it; with
`c = NULL` only the removal happens, with `k = NULL` or `db = NULL` nothing
happens (and with `q = NULL` the insert does nothing). -/
theorem replace_semantics (env : Env) (db : GlyrDatabase) (k : Bytes) (q : GlyrQuery)
    (c : GlyrMemCache) (now : Timestamp) (hk : k.length = 16) :
    glyr_db_replace env (some db) (some k) (some q) (some c) now =
        some (glyr_db_insert env (without_checksum db k) q c now) ∧
      (∀ r ∈ db.metadata, r.data_checksum = k → r ∉ (without_checksum db k).metadata) ∧
      (∀ r ∈ db.metadata, r.data_checksum ≠ k → r ∈ (without_checksum db k).metadata) ∧
      (without_checksum db k).metadata.Sublist db.metadata ∧
      (without_checksum db k).providers = db.providers ∧
      (without_checksum db k).artists = db.artists ∧
      (without_checksum db k).albums = db.albums ∧
      (without_checksum db k).titles = db.titles ∧
      (without_checksum db k).image_types = db.image_types ∧
      (without_checksum db k).in_transaction = db.in_transaction ∧
      (∀ r ∈ (glyr_db_insert env (without_checksum db k) q c now).metadata,
        r.data_checksum = k →
          r = new_row env (dimensions_inserted env (without_checksum db k) q c) q c now) ∧
      glyr_db_replace env (some db) (some k) (some q) none now = some (without_checksum db k) ∧
      glyr_db_replace env (some db) (some k) none (some c) now = some (without_checksum db k) ∧
      glyr_db_replace env (some db) none (some q) (some c) now = some db ∧
      glyr_db_replace env none (some k) (some q) (some c) now = none := by
  have hdel := execute_delete_checksum_eq db k hk
  refine ⟨?_, ?_, ?_, List.filter_sublist _, rfl, rfl, rfl, rfl, rfl, rfl, ?_, ?_, ?_, rfl, rfl⟩
  · simp only [glyr_db_replace, glyr_db_insert_guarded, hdel]
  · intro r _ hr hmem
    exact ((mem_without_checksum db k r).1 hmem).2 hr
  · intro r hr hne
    exact (mem_without_checksum db k r).2 ⟨hr, hne⟩
  · intro r hr hrk
    by_cases hmiss : missing_field env q = true
    · rw [(glyr_db_insert_abort env _ q c now hmiss).1] at hr
      exact absurd hrk ((mem_without_checksum db k r).1 hr).2
    · rw [Bool.not_eq_true] at hmiss
      rw [glyr_db_insert_ok env _ q c now hmiss] at hr
      have hm : (execute_commit (insert_cache_data env
          (dimensions_inserted env (without_checksum db k) q c) q c now)).metadata =
          (insert_cache_data env
            (dimensions_inserted env (without_checksum db k) q c) q c now).metadata := rfl
      rw [hm, insert_cache_data_metadata] at hr
      have hold : ∀ x ∈ (dimensions_inserted env (without_checksum db k) q c).metadata,
          x.data_checksum ≠ k := fun x hx => ((mem_without_checksum db k x).1 hx).2
      split at hr
      · exact absurd hrk (hold r hr)
      · rcases List.mem_append.1 hr with h | h
        · exact absurd hrk (hold r h)
        · exact List.mem_singleton.1 h
  · simp only [glyr_db_replace, hdel]
  · simp only [glyr_db_replace, glyr_db_insert_guarded, hdel]

/-- Witness of C13: the checksum of the two stored lyrics replaced by a new
artifact with the same checksum; only the new row is left. -/
theorem replace_semantics_witness :
    (List.replicate 16 7).length = 16 ∧
      glyr_db_replace demoEnv (some demo_two_rows) (some (List.replicate 16 7))
          (some (demo_query 3)) (some (demo_cache 2 (some "z"))) 300 =
        some (glyr_db_insert demoEnv (without_checksum demo_two_rows (List.replicate 16 7))
          (demo_query 3) (demo_cache 2 (some "z")) 300) ∧
      (glyr_db_insert demoEnv (without_checksum demo_two_rows (List.replicate 16 7))
          (demo_query 3) (demo_cache 2 (some "z")) 300).metadata.map (fun r => r.source_url) =
        [some "z"] :=
  ⟨by decide,
    (replace_semantics demoEnv demo_two_rows (List.replicate 16 7) (demo_query 3)
      (demo_cache 2 (some "z")) 300 (by decide)).1,
    by decide⟩

/-- C18: `vdt_lyrics` is true exactly when artist and title are both present
and not empty; two queries with the same artist and title get the same
answer, whatever their other fields. -/
theorem vdt_lyrics_iff (settings : GlyrQuery) :
    (vdt_lyrics settings = true ↔
      (∃ artist, settings.artist = some artist ∧ artist ≠ "") ∧
        (∃ title, settings.title = some title ∧ title ≠ "")) ∧
      (∀ other : GlyrQuery, other.artist = settings.artist → other.title = settings.title →
        vdt_lyrics other = vdt_lyrics settings) := by
  constructor
  · unfold vdt_lyrics
    cases ha : settings.artist <;> cases ht : settings.title <;> simp
  · intro other h1 h2
    unfold vdt_lyrics
    rw [h1, h2]

/-- Witness of C18: the lyrics query for `Foo` / `Bar` and the same query with
an album, another subject type and another limit. -/
theorem vdt_lyrics_iff_witness :
    vdt_lyrics (demo_query 3) = true ∧
      vdt_lyrics ⟨1, some "Foo", some "Baz", some "Bar", 7, false, some "local"⟩ =
        vdt_lyrics (demo_query 3) :=
  ⟨((vdt_lyrics_iff (demo_query 3)).1).2 ⟨⟨"Foo", rfl, by decide⟩, ⟨"Bar", rfl, by decide⟩⟩,
    (vdt_lyrics_iff (demo_query 3)).2 _ rfl rfl⟩

/-! ### The list in memory, well-formedness -/

/-- The forward traversal from a pointer to `NULL` is determined by the memory. -/
theorem is_seg_unique (mem : Memory) (xs : List Nat) :
    ∀ (ys : List Nat) (p prev1 prev2 : Option Nat),
      is_seg mem p prev1 xs none → is_seg mem p prev2 ys none → xs = ys := by
  induction xs with
  | nil =>
    intro ys p prev1 prev2 h1 h2
    cases ys with
    | nil => rfl
    | cons b ys =>
      obtain ⟨hp, _⟩ := h2
      have h1' : p = none := h1
      rw [h1'] at hp
      cases hp
  | cons a xs ih =>
    intro ys p prev1 prev2 h1 h2
    obtain ⟨hp, n, hn, _, hrest⟩ := h1
    cases ys with
    | nil =>
      have h2' : p = none := h2
      rw [h2'] at hp
      cases hp
    | cons b ys =>
      obtain ⟨hp2, n2, hn2, _, hrest2⟩ := h2
      rw [hp] at hp2
      cases hp2
      rw [hn] at hn2
      cases hn2
      rw [ih ys _ _ _ hrest hrest2]

/-- A list that ends in `NULL` visits no node twice. -/
theorem is_seg_nodup (mem : Memory) (addrs : List Nat) :
    ∀ (p prev : Option Nat), is_seg mem p prev addrs none → addrs.Nodup := by
  induction addrs with
  | nil => intro _ _ _; exact List.nodup_nil
  | cons a rest ih =>
    intro p prev h
    have h0 := h
    obtain ⟨hp, n, hn, hprev, hrest⟩ := h
    refine List.nodup_cons.2 ⟨?_, ih _ _ hrest⟩
    intro hmem
    obtain ⟨xs, ys, hsplit⟩ := List.append_of_mem hmem
    rw [hsplit, is_seg_append] at hrest
    obtain ⟨mid, _, h2⟩ := hrest
    have hmid : mid = some a := h2.1
    rw [hmid] at h2
    rw [hp] at h0
    have heq := is_seg_unique mem (a :: ys) (a :: rest) (some a) _ _ h2 h0
    have hl := congrArg List.length heq
    rw [hsplit] at hl
    simp at hl
    omega

/-- C20: on a well-formed doubly-linked list (the first node has `prev`
`NULL`, each `next` link leads to a node whose `prev` link leads back, the last
`next` is `NULL`) and a fresh entry with both links `NULL`, the function
`add_to_cache_list` returns with a well-formed list whose forward traversal is
the old one with the new entry put in at one place: the old nodes keep their
order and their contents, the length grows by one and `*list` points at the
first node.  The place is the one the list-level `add_to_cache_list` picks. -/
theorem add_to_cache_list_well_formed (fuel : Nat) (mem : Memory) (list : Option Nat)
    (to_add : Nat) (addrs : List Nat) (new : CacheNode)
    (hseg : is_seg mem list none addrs none)
    (hfresh : to_add ∉ addrs) (hnew : mem to_add = some new)
    (hnext : new.next = none) (hprev : new.prev = none) (hfuel : addrs.length < fuel) :
    ∃ mem' list' pre post,
      add_to_cache_list_mem fuel mem list to_add = some (mem', list') ∧
        addrs = pre ++ post ∧
        is_seg mem' list' none (pre ++ to_add :: post) none ∧
        list' = (pre ++ to_add :: post).head? ∧
        (pre ++ to_add :: post).length = addrs.length + 1 ∧
        (pre ++ to_add :: post).Nodup ∧
        (∀ x, (mem' x).map (fun n => n.entry) = (mem x).map (fun n => n.entry)) ∧
        entries mem' (pre ++ to_add :: post) =
          add_to_cache_list (entries mem addrs) new.entry := by
  obtain ⟨mem', list', pre, post, h1, h2, h3, h4, h5, h6⟩ :=
    add_to_cache_list_mem_spec fuel mem list to_add addrs new hseg
      (is_seg_nodup mem addrs _ _ hseg) hfresh hnew hnext hprev hfuel
  refine ⟨mem', list', pre, post, h1, h2, h3, ?_, ?_, h4, h5, h6⟩
  · cases pre with
    | nil => exact h3.1
    | cons a pre => exact h3.1
  · rw [h2]
    simp only [List.length_append, List.length_cons]
    omega

/-- Witness of C20: the entry of rating 2 goes between the entries of rating 1
and 3. -/
theorem add_to_cache_list_well_formed_witness :
    (add_to_cache_list_mem 3 demo_memory (some 10) 30).map
        (fun r => (r.2, (r.1 10).map (fun n => (n.prev, n.next)),
          (r.1 30).map (fun n => (n.prev, n.next)), (r.1 20).map (fun n => (n.prev, n.next)))) =
      some (some 10, some (none, some 30), some (some 10, some 20), some (some 30, none)) ∧
    ∃ mem' list' pre post,
      add_to_cache_list_mem 3 demo_memory (some 10) 30 = some (mem', list') ∧
        [10, 20] = pre ++ post ∧
        is_seg mem' list' none (pre ++ 30 :: post) none ∧
        list' = (pre ++ 30 :: post).head? ∧
        (pre ++ 30 :: post).length = [10, 20].length + 1 ∧
        (pre ++ 30 :: post).Nodup ∧
        (∀ x, (mem' x).map (fun n => n.entry) = (demo_memory x).map (fun n => n.entry)) ∧
        entries mem' (pre ++ 30 :: post) =
          add_to_cache_list (entries demo_memory [10, 20]) (demo_entry 2 "b") :=
  ⟨rfl,
    add_to_cache_list_well_formed 3 demo_memory (some 10) 30 [10, 20]
      ⟨demo_entry 2 "b", none, none⟩
      ⟨rfl, ⟨demo_entry 1 "a", some 20, none⟩, rfl, rfl,
        ⟨rfl, ⟨demo_entry 3 "c", none, some 10⟩, rfl, rfl, rfl⟩⟩
      (by decide) rfl rfl rfl (by decide)⟩

/-! ### The frame of the delete -/

theorem append_ne_empty (a b : String) (h : a ≠ "") : a ++ b ≠ "" := by
  intro hab
  apply h
  have hd := congrArg String.data hab
  rw [String.data_append] at hd
  have : a.data = [] := (List.append_eq_nil.1 hd).1
  exact String.ext this

theorem intercalate_go_eq_foldl (s : String) (l : List String) :
    ∀ acc : String, String.intercalate.go acc s l = l.foldl (fun r a => r ++ s ++ a) acc := by
  induction l with
  | nil => intro acc; rfl
  | cons a as ih => intro acc; exact ih _

/-- The loop of `convert_from_option_to_sql` from a non-empty text on: one
`,'name'` per enabled registry entry. -/
theorem convert_loop (env : Env) (q : GlyrQuery) (items : List MetaDataSource) :
    ∀ result : String, result ≠ "" →
      items.foldl (fun result item =>
        if (q.type = item.type ∨ item.type = env.GLYR_GET_ANY) ∧
            env.provider_is_enabled q item = true
        then result ++ (if result ≠ "" then "," else "") ++ "'" ++ item.name ++ "'"
        else result) result =
      (((items.filter (fun item =>
        (q.type = item.type ∨ item.type = env.GLYR_GET_ANY) ∧
          env.provider_is_enabled q item = true)).map (fun item => item.name)).map
            (fun n => "'" ++ n ++ "'")).foldl (fun r a => r ++ "," ++ a) result := by
  induction items with
  | nil => intro result _; rfl
  | cons item rest ih =>
    intro result hne
    simp only [List.foldl_cons]
    by_cases hc : (q.type = item.type ∨ item.type = env.GLYR_GET_ANY) ∧
        env.provider_is_enabled q item = true
    · rw [if_pos hc, if_pos hne]
      have hf : (item :: rest).filter (fun item =>
          decide ((q.type = item.type ∨ item.type = env.GLYR_GET_ANY) ∧
            env.provider_is_enabled q item = true)) =
          item :: rest.filter (fun item =>
            decide ((q.type = item.type ∨ item.type = env.GLYR_GET_ANY) ∧
              env.provider_is_enabled q item = true)) := by
        rw [List.filter_cons, if_pos (by simpa using hc)]
      rw [hf]
      simp only [List.map_cons, List.foldl_cons]
      have hassoc : result ++ "," ++ "'" ++ item.name ++ "'" =
          result ++ "," ++ ("'" ++ item.name ++ "'") := by
        simp only [String.append_assoc]
      rw [hassoc]
      apply ih
      rw [String.append_assoc]
      exact append_ne_empty _ _ hne
    · rw [if_neg hc]
      have hf : (item :: rest).filter (fun item =>
          decide ((q.type = item.type ∨ item.type = env.GLYR_GET_ANY) ∧
            env.provider_is_enabled q item = true)) =
          rest.filter (fun item =>
            decide ((q.type = item.type ∨ item.type = env.GLYR_GET_ANY) ∧
              env.provider_is_enabled q item = true)) := by
        rw [List.filter_cons, if_neg (by simpa using hc)]
      rw [hf]
      exact ih result hne

theorem convert_from_option_to_sql_eq (env : Env) (q : GlyrQuery) :
    convert_from_option_to_sql env q =
      String.intercalate "," (("none" :: enabled_providers env q).map (fun n => "'" ++ n ++ "'")) := by
  unfold convert_from_option_to_sql enabled_providers
  rw [convert_loop env q env.r_getSList "'none'" (by decide)]
  simp only [List.map_cons, String.intercalate]
  rw [intercalate_go_eq_foldl]
  rfl

/-- Counterexample to C16: for the lyrics query the registry of the example has
the two providers `lyricswiki` and `local` enabled, and the list starts with
`'none'` all the same. -/
theorem provider_list_none_with_enabled_providers :
    enabled_providers demoEnv (demo_query 3) = ["lyricswiki", "local"] ∧
      convert_from_option_to_sql demoEnv (demo_query 3) = "'none','lyricswiki','local'" ∧
      convert_from_option_to_sql demoEnv (demo_query 3) ≠ "'lyricswiki','local'" ∧
      "none" ∈ from_argument_members demoEnv (demo_query 3) ∧
      from_argument_members demoEnv (demo_query 3) ≠ enabled_providers demoEnv (demo_query 3) := by
  decide

/-- C16: the list built by `convert_from_option_to_sql` is the comma-separated
list of the quoted names `none` and then the enabled providers in registry
order, so it is never empty, `none` is its first member in every case, and it
is exactly `'none'` when no provider is enabled. -/
theorem provider_list (env : Env) (q : GlyrQuery) :
    convert_from_option_to_sql env q =
        String.intercalate ","
          (("none" :: enabled_providers env q).map (fun n => "'" ++ n ++ "'")) ∧
      from_argument_members env q = "none" :: enabled_providers env q ∧
      convert_from_option_to_sql env q ≠ "" ∧
      (enabled_providers env q = [] → convert_from_option_to_sql env q = "'none'") := by
  refine ⟨convert_from_option_to_sql_eq env q, rfl, ?_, ?_⟩
  · unfold convert_from_option_to_sql
    rw [convert_loop env q env.r_getSList "'none'" (by decide)]
    generalize ((env.r_getSList.filter _).map _).map _ = l
    have : ∀ (l : List String) (acc : String), acc ≠ "" →
        l.foldl (fun r a => r ++ "," ++ a) acc ≠ "" := by
      intro l
      induction l with
      | nil => intro acc h; exact h
      | cons a as ih =>
        intro acc h
        apply ih
        show acc ++ "," ++ a ≠ ""
        rw [String.append_assoc]
        exact append_ne_empty _ _ h
    exact this l _ (by decide)
  · intro h
    rw [convert_from_option_to_sql_eq, h]
    rfl

/-- Witness of C16: a query that names a provider the registry does not have. -/
theorem provider_list_witness :
    enabled_providers demoEnv ⟨2, some "Foo", none, some "Bar", 3, true, some "nobody"⟩ = [] ∧
      convert_from_option_to_sql demoEnv
        ⟨2, some "Foo", none, some "Bar", 3, true, some "nobody"⟩ = "'none'" :=
  ⟨by decide,
    (provider_list demoEnv ⟨2, some "Foo", none, some "Bar", 3, true, some "nobody"⟩).2.2.2
      (by decide)⟩

/-! ### The predicates on artist, album and title -/

/-- Counterexample to C17: with a requirement table in which the title is
optional for the cover, a cover query that carries a title gets no title
predicate from the lookup or the delete, while the insert stores the title. -/
theorem optional_title_gets_no_predicate :
    (get_req demoEnvOptional demo_cover_title_query).optional_title = true ∧
      demo_cover_title_query.title = some "Bar" ∧
      (lookup_constraints demoEnvOptional demo_cover_title_query).title_constr = none ∧
      constraint_text (lookup_constraints demoEnvOptional demo_cover_title_query).title_constr =
        "" ∧
      (delete_constraints demoEnvOptional demo_cover_title_query).title_constr = none ∧
      constraint_text (delete_constraints demoEnvOptional demo_cover_title_query).title_constr =
        "" ∧
      constraint_text (lookup_constraints demoEnvOptional demo_cover_title_query).album_constr =
        "AND album_name = 'baz'\n" ∧
      (glyr_db_insert demoEnvOptional emptyDb demo_cover_title_query demo_link_cache 100).titles =
        ["bar"] := by
  decide

/-- C17: for each of artist, album and title the lookup and the delete compile
an equality predicate on the lower-cased value exactly when the field is
mandatory for the subject type of the query and present on the query, and
leave the predicate empty otherwise; the flags for optional fields are not
read. -/
theorem predicates_for_required_fields (env : Env) (q : GlyrQuery) :
    (lookup_constraints env q).artist_constr =
        (if (get_req env q).requires_artist then
          q.artist.map (fun v => ⟨"artist_name", env.g_utf8_strdown v⟩) else none) ∧
      (lookup_constraints env q).album_constr =
        (if (get_req env q).requires_album then
          q.album.map (fun v => ⟨"album_name", env.g_utf8_strdown v⟩) else none) ∧
      (lookup_constraints env q).title_constr =
        (if (get_req env q).requires_title then
          q.title.map (fun v => ⟨"title_name", env.g_utf8_strdown v⟩) else none) ∧
      (delete_constraints env q).artist_constr =
        (if (get_req env q).requires_artist then
          q.artist.map (fun v => ⟨"a.artist_name", env.g_utf8_strdown v⟩) else none) ∧
      (delete_constraints env q).album_constr =
        (if (get_req env q).requires_album then
          q.album.map (fun v => ⟨"b.album_name", env.g_utf8_strdown v⟩) else none) ∧
      (delete_constraints env q).title_constr =
        (if (get_req env q).requires_title then
          q.title.map (fun v => ⟨"t.title_name", env.g_utf8_strdown v⟩) else none) ∧
      constraint_text none = "" ∧
      (∀ c : Constraint, constraint_text (some c) =
        "AND " ++ c.FIELDNAME ++ " = '" ++ String.mk (escape_q c.lower.data) ++ "'\n") := by
  refine ⟨?_, ?_, ?_, ?_, ?_, ?_, rfl, ?_⟩
  · cases hq : q.artist <;> cases hr : (get_req env q).requires_artist <;>
      simp [lookup_constraints, ADD_CONSTRAINT, hq, hr]
  · cases hq : q.album <;> cases hr : (get_req env q).requires_album <;>
      simp [lookup_constraints, ADD_CONSTRAINT, hq, hr]
  · cases hq : q.title <;> cases hr : (get_req env q).requires_title <;>
      simp [lookup_constraints, ADD_CONSTRAINT, hq, hr]
  · cases hq : q.artist <;> cases hr : (get_req env q).requires_artist <;>
      simp [delete_constraints, ADD_CONSTRAINT, hq, hr]
  · cases hq : q.album <;> cases hr : (get_req env q).requires_album <;>
      simp [delete_constraints, ADD_CONSTRAINT, hq, hr]
  · cases hq : q.title <;> cases hr : (get_req env q).requires_title <;>
      simp [delete_constraints, ADD_CONSTRAINT, hq, hr]
  · intro c
    have e1 : (" = '" : String) = " = " ++ "'" := by decide
    have e2 : ("'\n" : String) = "'" ++ "\n" := by decide
    rw [e1, e2]
    simp only [constraint_text, quoted_q, sql_q, mprintf_q, Option.getD_some, String.append_assoc]

/-! ### Strings in statement text -/

theorem escape_q_eq_flatMap (v : List Char) :
    escape_q v = v.flatMap (fun c => if c = quote then [quote, quote] else [c]) := by
  induction v with
  | nil => rfl
  | cons c rest ih =>
    by_cases h : c = quote
    · simp [escape_q, h, ih, List.flatMap_cons]
    · simp [escape_q, h, ih, List.flatMap_cons]

theorem read_literal_escape_q (v : List Char) (rest : List Char)
    (h : rest.head? ≠ some quote) :
    read_literal false (escape_q v ++ quote :: rest) = some (v, rest) := by
  induction v with
  | nil =>
    cases rest with
    | nil => simp [escape_q, read_literal]
    | cons c r =>
      have hc : c ≠ quote := fun hc => h (by simp [hc])
      simp [escape_q, read_literal, hc]
  | cons c v ih =>
    by_cases hc : c = quote
    · simp [escape_q, read_literal, hc, ih]
    · simp [escape_q, read_literal, hc, ih]

theorem escaped_in_constraint_text (c : Constraint) :
    escaped_in c.lower (constraint_text (some c)) :=
  ⟨"AND " ++ c.FIELDNAME ++ " = ", "\n", rfl⟩

theorem escaped_in_insert_cache_data_text (query : GlyrQuery) (cache : GlyrMemCache) :
    escaped_in (mprintf_q query.artist) (insert_cache_data_text query cache) ∧
      escaped_in (mprintf_q query.album) (insert_cache_data_text query cache) ∧
      escaped_in (mprintf_q query.title) (insert_cache_data_text query cache) ∧
      escaped_in (cache.prov.getD "none") (insert_cache_data_text query cache) ∧
      escaped_in (mprintf_q cache.img_format) (insert_cache_data_text query cache) := by
  have hq : ∀ a : Option String, quoted_q (some (mprintf_q a)) = quoted_q a := by
    intro a
    cases a <;> rfl
  refine ⟨?_, ?_, ?_, ?_, ?_⟩
  · refine ⟨"INSERT OR IGNORE INTO metadata VALUES(                            \n" ++
        "  (SELECT rowid FROM artists   WHERE artist_name   = LOWER(",
      ")),\n" ++
        "  (SELECT rowid FROM albums    WHERE album_name    = LOWER(" ++
        quoted_q query.album ++
        ")),\n" ++
        "  (SELECT rowid FROM titles    WHERE title_name    = LOWER(" ++
        quoted_q query.title ++
        ")),\n" ++
        "  (SELECT rowid FROM providers WHERE provider_name = LOWER(" ++
        quoted_q (some (cache.prov.getD "none")) ++
        ")),\n" ++
        "  ?,                                                              \n" ++
        "  (SELECT rowid FROM image_types WHERE image_type_name = LOWER(" ++
        quoted_q cache.img_format ++
        ")),\n" ++
        "  ?,?,?,?,?,?,?,?,?                                               \n" ++
        ");                                                                \n", ?_⟩
    rw [hq]
    simp only [insert_cache_data_text, String.append_assoc]
  · refine ⟨"INSERT OR IGNORE INTO metadata VALUES(                            \n" ++
        "  (SELECT rowid FROM artists   WHERE artist_name   = LOWER(" ++
        quoted_q query.artist ++
        ")),\n" ++
        "  (SELECT rowid FROM albums    WHERE album_name    = LOWER(",
      ")),\n" ++
        "  (SELECT rowid FROM titles    WHERE title_name    = LOWER(" ++
        quoted_q query.title ++
        ")),\n" ++
        "  (SELECT rowid FROM providers WHERE provider_name = LOWER(" ++
        quoted_q (some (cache.prov.getD "none")) ++
        ")),\n" ++
        "  ?,                                                              \n" ++
        "  (SELECT rowid FROM image_types WHERE image_type_name = LOWER(" ++
        quoted_q cache.img_format ++
        ")),\n" ++
        "  ?,?,?,?,?,?,?,?,?                                               \n" ++
        ");                                                                \n", ?_⟩
    rw [hq]
    simp only [insert_cache_data_text, String.append_assoc]
  · refine ⟨"INSERT OR IGNORE INTO metadata VALUES(                            \n" ++
        "  (SELECT rowid FROM artists   WHERE artist_name   = LOWER(" ++
        quoted_q query.artist ++
        ")),\n" ++
        "  (SELECT rowid FROM albums    WHERE album_name    = LOWER(" ++
        quoted_q query.album ++
        ")),\n" ++
        "  (SELECT rowid FROM titles    WHERE title_name    = LOWER(",
      ")),\n" ++
        "  (SELECT rowid FROM providers WHERE provider_name = LOWER(" ++
        quoted_q (some (cache.prov.getD "none")) ++
        ")),\n" ++
        "  ?,                                                              \n" ++
        "  (SELECT rowid FROM image_types WHERE image_type_name = LOWER(" ++
        quoted_q cache.img_format ++
        ")),\n" ++
        "  ?,?,?,?,?,?,?,?,?                                               \n" ++
        ");                                                                \n", ?_⟩
    rw [hq]
    simp only [insert_cache_data_text, String.append_assoc]
  · refine ⟨"INSERT OR IGNORE INTO metadata VALUES(                            \n" ++
        "  (SELECT rowid FROM artists   WHERE artist_name   = LOWER(" ++
        quoted_q query.artist ++
        ")),\n" ++
        "  (SELECT rowid FROM albums    WHERE album_name    = LOWER(" ++
        quoted_q query.album ++
        ")),\n" ++
        "  (SELECT rowid FROM titles    WHERE title_name    = LOWER(" ++
        quoted_q query.title ++
        ")),\n" ++
        "  (SELECT rowid FROM providers WHERE provider_name = LOWER(",
      ")),\n" ++
        "  ?,                                                              \n" ++
        "  (SELECT rowid FROM image_types WHERE image_type_name = LOWER(" ++
        quoted_q cache.img_format ++
        ")),\n" ++
        "  ?,?,?,?,?,?,?,?,?                                               \n" ++
        ");                                                                \n", ?_⟩
    simp only [insert_cache_data_text, String.append_assoc]
  · refine ⟨"INSERT OR IGNORE INTO metadata VALUES(                            \n" ++
        "  (SELECT rowid FROM artists   WHERE artist_name   = LOWER(" ++
        quoted_q query.artist ++
        ")),\n" ++
        "  (SELECT rowid FROM albums    WHERE album_name    = LOWER(" ++
        quoted_q query.album ++
        ")),\n" ++
        "  (SELECT rowid FROM titles    WHERE title_name    = LOWER(" ++
        quoted_q query.title ++
        ")),\n" ++
        "  (SELECT rowid FROM providers WHERE provider_name = LOWER(" ++
        quoted_q (some (cache.prov.getD "none")) ++
        ")),\n" ++
        "  ?,                                                              \n" ++
        "  (SELECT rowid FROM image_types WHERE image_type_name = LOWER(",
      ")),\n" ++
        "  ?,?,?,?,?,?,?,?,?                                               \n" ++
        ");                                                                \n", ?_⟩
    rw [hq]
    simp only [insert_cache_data_text, String.append_assoc]

/-- Counterexample to C15: a registry entry whose name holds a single quote is
written into the `IN(...)` list of lookup and delete as it is, so the quote
stands alone in the text and the literal that starts at the name ends at it. -/
theorem provider_name_not_escaped :
    enabled_providers demoEnvQuote (demo_query 3) = ["rock'n'roll"] ∧
      convert_from_option_to_sql demoEnvQuote (demo_query 3) = "'none','rock'n'roll'" ∧
      (lookup_constraints demoEnvQuote (demo_query 3)).from_argument_list =
        "'none','rock'n'roll'" ∧
      (delete_constraints demoEnvQuote (demo_query 3)).from_argument_list =
        "'none','rock'n'roll'" ∧
      quoted_q (some "rock'n'roll") = "'rock''n''roll'" ∧
      ¬ ((quoted_q (some "rock'n'roll")).data <:+:
        (convert_from_option_to_sql demoEnvQuote (demo_query 3)).data) ∧
      read_literal false "rock'n'roll'".data = some ("rock".data, "n'roll'".data) := by
  decide

/-- C15: the strings that lookup, delete and insert write into statement text
through `'%q'` stand there as quoted literals with every single quote doubled,
and such a literal reads back as the value: the lower-cased artist, album and
title in the predicates of lookup and delete, the lower-cased artist, album,
title and provider in the dimension statements of the insert, and artist,
album, title, provider and image format in the statement of
`insert_cache_data`, whose text does not hold the source url (it is bound).
The provider names of the `IN(...)` list are registry names written between
single quotes as they are. -/
theorem strings_escaped (env : Env) (query : GlyrQuery) (cache : GlyrMemCache) :
    (∀ v : List Char,
        escape_q v = v.flatMap (fun c => if c = quote then [quote, quote] else [c])) ∧
      (∀ v rest : List Char, rest.head? ≠ some quote →
        read_literal false (escape_q v ++ quote :: rest) = some (v, rest)) ∧
      (∀ c : Constraint, escaped_in c.lower (constraint_text (some c))) ∧
      (∀ t ∈ glyr_db_insert_texts env query cache,
        t = insert_cache_data_text query cache ∨
          ∃ a, some a ∈ [query.artist, query.album, query.title,
              some (cache.prov.getD "none")] ∧
            escaped_in (env.g_utf8_strdown a) t ∧
            ∃ before ∈ ["INSERT OR IGNORE INTO artists VALUES(",
                "INSERT OR IGNORE INTO albums  VALUES(", "INSERT OR IGNORE INTO titles  VALUES(",
                "INSERT OR IGNORE INTO providers VALUES("],
              t = before ++ quoted_q (some (env.g_utf8_strdown a)) ++ ");") ∧
      escaped_in (mprintf_q query.artist) (insert_cache_data_text query cache) ∧
      escaped_in (mprintf_q query.album) (insert_cache_data_text query cache) ∧
      escaped_in (mprintf_q query.title) (insert_cache_data_text query cache) ∧
      escaped_in (cache.prov.getD "none") (insert_cache_data_text query cache) ∧
      escaped_in (mprintf_q cache.img_format) (insert_cache_data_text query cache) ∧
      (∀ dsrc : Option String,
        insert_cache_data_text query { cache with dsrc := dsrc } =
          insert_cache_data_text query cache) ∧
      convert_from_option_to_sql env query =
        String.intercalate ","
          (("none" :: enabled_providers env query).map (fun n => "'" ++ n ++ "'")) := by
  obtain ⟨h1, h2, h3, h4, h5⟩ := escaped_in_insert_cache_data_text query cache
  refine ⟨escape_q_eq_flatMap, read_literal_escape_q, escaped_in_constraint_text, ?_,
    h1, h2, h3, h4, h5, fun _ => rfl, convert_from_option_to_sql_eq env query⟩
  intro t ht
  have hins : ∀ (before : String) (arg : Option String),
      t ∈ (INSERT_STRING_text env before ");" arg).toList →
      ∃ a, arg = some a ∧ escaped_in (env.g_utf8_strdown a) t ∧
        t = before ++ quoted_q (some (env.g_utf8_strdown a)) ++ ");" := by
    intro before arg hmem
    cases arg with
    | none => simp [INSERT_STRING_text] at hmem
    | some a =>
      simp only [INSERT_STRING_text, Option.toList, List.mem_singleton] at hmem
      exact ⟨a, rfl, ⟨before, ");", hmem⟩, hmem⟩
  unfold glyr_db_insert_texts at ht
  simp only [List.mem_append, List.mem_singleton] at ht
  rcases ht with (((ht | ht) | ht) | ht) | ht
  · split at ht
    · obtain ⟨a, ha, he, hs⟩ := hins _ _ ht
      exact Or.inr ⟨a, by simp [ha], he, _, by simp, hs⟩
    · simp at ht
  · split at ht
    · obtain ⟨a, ha, he, hs⟩ := hins _ _ ht
      exact Or.inr ⟨a, by simp [ha], he, _, by simp, hs⟩
    · simp at ht
  · split at ht
    · obtain ⟨a, ha, he, hs⟩ := hins _ _ ht
      exact Or.inr ⟨a, by simp [ha], he, _, by simp, hs⟩
    · simp at ht
  · obtain ⟨a, ha, he, hs⟩ := hins _ _ ht
    exact Or.inr ⟨a, by simp [ha], he, _, by simp, hs⟩
  · exact Or.inl ht

/-- Witness of C15: the name `o'neil` between quotes and followed by more text
reads back as `o'neil`. -/
theorem strings_escaped_witness :
    escape_q "o'neil".data = "o''neil".data ∧
      read_literal false (escape_q "o'neil".data ++ quote :: " LIMIT 1".data) =
        some ("o'neil".data, " LIMIT 1".data) :=
  ⟨by decide,
    (strings_escaped demoEnv (demo_query 3) (demo_cache 5 (some "a"))).2.1
      "o'neil".data " LIMIT 1".data (by decide)⟩

/-! ### Export -/

theorem select_callback_visitor {U : Type} (env : Env) (q : GlyrQuery) (c : Int)
    (cb : glyr_foreach_callback U) (u : U) (row : SelectRow) (h15 : 15 ≤ row.argc)
    (hc : c < q.number) :
    select_callback env (visitor_data q c cb u) row =
      (visitor_data q (c + 1) cb (visit env cb u row).2, (visit env cb u row).1) := by
  simp [select_callback, visitor_data, visit, h15, hc]

/-- While the visitor continues and the counter stays below the limit, the row
loop calls it on one row after the other. -/
theorem exec_select_visitor {U : Type} (env : Env) (q : GlyrQuery)
    (cb : glyr_foreach_callback U) (pre : List SelectRow) :
    ∀ (c : Int) (u : U) (rest : List SelectRow), (∀ r ∈ pre, 15 ≤ r.argc) →
      c + (pre.length : Int) ≤ q.number → continues env cb u pre →
      exec_select env (visitor_data q c cb u) (pre ++ rest) =
          exec_select env (visitor_data q (c + pre.length) cb (visit_all env cb u pre)) rest ∧
        exec_select_rc env (visitor_data q c cb u) (pre ++ rest) =
          exec_select_rc env (visitor_data q (c + pre.length) cb (visit_all env cb u pre)) rest := by
  induction pre with
  | nil => intro c u rest _ _ _; simp [visit_all]
  | cons r pre ih =>
    intro c u rest h15 hlen hcont
    obtain ⟨h0, hcont'⟩ := hcont
    simp only [List.length_cons, Nat.cast_add, Nat.cast_one] at hlen
    have hsc := select_callback_visitor env q c cb u r (h15 r (List.mem_cons_self _ _))
      (by omega)
    obtain ⟨ih1, ih2⟩ := ih (c + 1) (visit env cb u r).2 rest
      (fun x hx => h15 x (List.mem_cons_of_mem _ hx)) (by omega) hcont'
    have hc : c + 1 + (pre.length : Int) = c + ((pre.length : Int) + 1) := by ring
    constructor
    · show exec_select env _ (r :: (pre ++ rest)) = _
      simp only [exec_select, hsc, h0, if_true, List.length_cons, Nat.cast_add, Nat.cast_one]
      rw [ih1, hc]
      rfl
    · show exec_select_rc env _ (r :: (pre ++ rest)) = _
      simp only [exec_select_rc, hsc, h0, if_true, List.length_cons, Nat.cast_add, Nat.cast_one]
      rw [ih2, hc]
      rfl

theorem visit_all_append {U : Type} (env : Env) (cb : glyr_foreach_callback U) (u : U)
    (pre : List SelectRow) (row : SelectRow) :
    visit_all env cb u (pre ++ [row]) = (visit env cb (visit_all env cb u pre) row).2 := by
  simp [visit_all, List.foldl_append]

/-- The run of the export on rows of which the visitor continues on `pre` and
aborts on the next one. -/
theorem foreach_rows_abort {U : Type} (env : Env) (cb : glyr_foreach_callback U) (u : U)
    (pre : List SelectRow) (row : SelectRow) (post : List SelectRow)
    (h15 : ∀ r ∈ pre ++ row :: post, 15 ≤ r.argc) (hlen : (pre.length : Int) < G_MAXINT)
    (hcont : continues env cb u pre)
    (habort : (visit env cb (visit_all env cb u pre) row).1 ≠ 0) :
    foreach_rows env (pre ++ row :: post) cb u = (visit_all env cb u (pre ++ [row]), false) := by
  have hd : foreach_data env cb u =
      visitor_data { env.glyr_query_init with number := G_MAXINT } 0 cb u := rfl
  obtain ⟨h1, h2⟩ := exec_select_visitor env { env.glyr_query_init with number := G_MAXINT } cb
    pre 0 u (row :: post) (fun r hr => h15 r (List.mem_append_left _ hr))
    (by simp only [zero_add]; exact le_of_lt hlen) hcont
  have hsc := select_callback_visitor env { env.glyr_query_init with number := G_MAXINT }
    (0 + (pre.length : Int)) cb (visit_all env cb u pre) row
    (h15 row (List.mem_append_right _ (List.mem_cons_self _ _)))
    (by simp only [zero_add]; exact hlen)
  unfold foreach_rows
  simp only [hd, h1, h2, exec_select, exec_select_rc, hsc, habort, if_false]
  rw [visit_all_append]
  simp [visitor_data, SQLITE_OK, SQLITE_ABORT]

/-- The run of the export on rows on all of which the visitor continues. -/
theorem foreach_rows_continue {U : Type} (env : Env) (cb : glyr_foreach_callback U) (u : U)
    (rows : List SelectRow) (h15 : ∀ r ∈ rows, 15 ≤ r.argc)
    (hlen : (rows.length : Int) ≤ G_MAXINT) (hcont : continues env cb u rows) :
    foreach_rows env rows cb u = (visit_all env cb u rows, false) := by
  have hd : foreach_data env cb u =
      visitor_data { env.glyr_query_init with number := G_MAXINT } 0 cb u := rfl
  obtain ⟨h1, h2⟩ := exec_select_visitor env { env.glyr_query_init with number := G_MAXINT } cb
    rows 0 u [] h15 (by simp only [zero_add]; exact hlen) hcont
  rw [List.append_nil] at h1 h2
  unfold foreach_rows
  simp only [hd, h1, h2, exec_select, exec_select_rc]
  simp [visitor_data]

theorem visit_all_recording {U : Type} (env : Env) (cb : glyr_foreach_callback U)
    (rows : List SelectRow) :
    ∀ (u : U) (log : List (GlyrQuery × GlyrMemCache)),
      visit_all env (recording cb) (u, log) rows =
        (visit_all env cb u rows, log ++ rows.map (visitor_args env)) := by
  induction rows with
  | nil => intro u log; simp [visit_all]
  | cons r rows ih =>
    intro u log
    show visit_all env (recording cb) (visit env (recording cb) (u, log) r).2 rows = _
    have hv : (visit env (recording cb) (u, log) r).2 =
        ((visit env cb u r).2, log ++ [visitor_args env r]) := rfl
    rw [hv, ih]
    simp [visit_all]

theorem continues_recording {U : Type} (env : Env) (cb : glyr_foreach_callback U)
    (rows : List SelectRow) :
    ∀ (u : U) (log : List (GlyrQuery × GlyrMemCache)), continues env cb u rows →
      continues env (recording cb) (u, log) rows := by
  induction rows with
  | nil => intro u log _; exact trivial
  | cons r rows ih =>
    intro u log h
    obtain ⟨h0, h'⟩ := h
    exact ⟨h0, ih (visit env cb u r).2 (log ++ [visitor_args env r]) h'⟩

theorem join_row_order (db : GlyrDatabase) (m : MetaRow) (argv : SelectArgv)
    (h : join_row db m = some argv) :
    argv.rating = some m.rating ∧ argv.timestamp = some m.timestamp := by
  unfold join_row at h
  split at h
  · cases h
  · cases h
    exact ⟨rfl, rfl⟩

theorem select_all_sorted (db : GlyrDatabase) : export_sorted (select_all db) := by
  haveI : IsTotal MetaRow export_le := ⟨fun a b => by
    show (a.rating < b.rating ∨ (a.rating = b.rating ∧ a.timestamp ≤ b.timestamp)) ∨
      (b.rating < a.rating ∨ (b.rating = a.rating ∧ b.timestamp ≤ a.timestamp))
    rcases lt_trichotomy a.rating b.rating with h | h | h
    · exact Or.inl (Or.inl h)
    · rcases le_total a.timestamp b.timestamp with h2 | h2
      · exact Or.inl (Or.inr ⟨h, h2⟩)
      · exact Or.inr (Or.inr ⟨h.symm, h2⟩)
    · exact Or.inr (Or.inl h)⟩
  haveI : IsTrans MetaRow export_le := ⟨fun a b c h1 h2 => by
    have h1' : a.rating < b.rating ∨ (a.rating = b.rating ∧ a.timestamp ≤ b.timestamp) := h1
    have h2' : b.rating < c.rating ∨ (b.rating = c.rating ∧ b.timestamp ≤ c.timestamp) := h2
    show a.rating < c.rating ∨ (a.rating = c.rating ∧ a.timestamp ≤ c.timestamp)
    rcases h1' with h | ⟨h, ht⟩
    · rcases h2' with h' | ⟨h', _⟩
      · exact Or.inl (lt_trans h h')
      · exact Or.inl (h' ▸ h)
    · rcases h2' with h' | ⟨h', ht'⟩
      · exact Or.inl (h ▸ h')
      · exact Or.inr ⟨h.trans h', le_trans ht ht'⟩⟩
  have hs := List.sorted_insertionSort export_le db.metadata
  unfold export_sorted select_all
  rw [List.pairwise_map]
  refine List.Pairwise.filterMap _ ?_ hs
  intro a a' haa b hb b' hb'
  obtain ⟨h1, h2⟩ := join_row_order db a b hb
  obtain ⟨h3, h4⟩ := join_row_order db a' b' hb'
  simp only [h1, h2, h3, h4, Option.getD_some]
  exact haa

theorem select_all_argc (db : GlyrDatabase) : ∀ r ∈ select_all db, r.argc = 15 := by
  intro r hr
  unfold select_all at hr
  obtain ⟨argv, _, rfl⟩ := List.mem_map.1 hr
  rfl

/-- C14: on rows of 15 columns, at most `G_MAXINT` of them (the range of the
`int` counter that `select_callback` compares with `dummy.number`), a visitor
that continues on the rows `pre` and aborts on the next row is called on
exactly the rows `pre` and that row, in the order of the scan, each time with
the query and the entry built from the row, and no error is logged; a visitor
that always continues is called once for every row.  This holds for every
visitor, so also for one that records its calls.  The rows of the statement
of `glyr_db_foreach` have 15 columns and come in the order of rating, then
timestamp. -/
theorem foreach_early_abort {U : Type} (env : Env) (cb : glyr_foreach_callback U) (userptr : U)
    (rows : List SelectRow) (hcols : ∀ r ∈ rows, r.argc = 15)
    (hlen : (rows.length : Int) ≤ G_MAXINT) :
    (∀ pre row post, rows = pre ++ row :: post → continues env cb userptr pre →
        (visit env cb (visit_all env cb userptr pre) row).1 ≠ 0 →
        foreach_rows env rows cb userptr = (visit_all env cb userptr (pre ++ [row]), false) ∧
          foreach_rows env rows (recording cb) (userptr, []) =
            ((visit_all env cb userptr (pre ++ [row]),
              (pre ++ [row]).map (visitor_args env)), false)) ∧
      (continues env cb userptr rows →
        foreach_rows env rows cb userptr = (visit_all env cb userptr rows, false) ∧
          foreach_rows env rows (recording cb) (userptr, []) =
            ((visit_all env cb userptr rows, rows.map (visitor_args env)), false)) ∧
      (∀ db : GlyrDatabase,
        glyr_db_foreach env db cb userptr = foreach_rows env (select_all db) cb userptr ∧
          export_sorted (select_all db) ∧ ∀ r ∈ select_all db, r.argc = 15) := by
  have h15 : ∀ r ∈ rows, 15 ≤ r.argc := fun r hr => le_of_eq (hcols r hr).symm
  refine ⟨?_, ?_, fun db => ⟨rfl, select_all_sorted db, select_all_argc db⟩⟩
  · intro pre row post hrows hcont habort
    subst hrows
    have hpre : (pre.length : Int) < G_MAXINT := by
      simp only [List.length_append, List.length_cons, Nat.cast_add, Nat.cast_one] at hlen
      omega
    refine ⟨foreach_rows_abort env cb userptr pre row post h15 hpre hcont habort, ?_⟩
    have hr := foreach_rows_abort env (recording cb) (userptr, []) pre row post h15 hpre
      (continues_recording env cb pre userptr [] hcont)
      (by rw [visit_all_recording]; exact habort)
    rw [hr, visit_all_recording]
    simp
  · intro hcont
    refine ⟨foreach_rows_continue env cb userptr rows h15 hlen hcont, ?_⟩
    rw [foreach_rows_continue env (recording cb) (userptr, []) rows h15 hlen
      (continues_recording env cb rows userptr [] hcont), visit_all_recording]
    simp

/-- Witness of C14: of three rows the visitor sees the first two when it aborts
on the second; on the store with three lyrics of rating 5, 4 and 3 the
visitor that aborts on rating 4 sees the entries of rating 3 and 4. -/
theorem foreach_early_abort_witness :
    foreach_rows demoEnv [demo_row 1 "a", demo_row 2 "b", demo_row 3 "c"]
        (recording (demo_visitor 2)) ((), []) =
      (((), [visitor_args demoEnv (demo_row 1 "a"), visitor_args demoEnv (demo_row 2 "b")]),
        false) ∧
      (glyr_db_foreach demoEnv demo_three_rows (recording (demo_visitor 4)) ((), [])).1.2.map
        (fun p => p.2.rating) = [3, 4] ∧
      (glyr_db_foreach demoEnv demo_three_rows (recording (demo_visitor 9)) ((), [])).1.2.map
        (fun p => p.2.rating) = [3, 4, 5] :=
  ⟨((foreach_early_abort demoEnv (demo_visitor 2) ()
      [demo_row 1 "a", demo_row 2 "b", demo_row 3 "c"] (by decide) (by decide)).1
      [demo_row 1 "a"] (demo_row 2 "b") [demo_row 3 "c"] rfl ⟨by decide, trivial⟩
      (by decide)).2,
    by decide, by decide⟩

/-! ### The provider list as the engine reads it -/

theorem read_in_list_inside (n : List Char) (hn : quote ∉ n) :
    ∀ (acc tail : List Char),
      read_in_list_from (.inside acc) (n ++ quote :: tail) =
        read_in_list_from (.quoted (n.reverse ++ acc)) tail := by
  induction n with
  | nil => intro acc tail; simp [read_in_list_from]
  | cons c n ih =>
    intro acc tail
    have hc : c ≠ quote := fun h => hn (by simp [h])
    have hn' : quote ∉ n := fun h => hn (List.mem_cons_of_mem _ h)
    show read_in_list_from (.inside acc) (c :: (n ++ quote :: tail)) = _
    rw [read_in_list_from, if_neg hc, ih hn']
    simp

/-- The reader gets back the names that were written between quotes and joined
by commas, when no name holds a single quote. -/
theorem read_in_list_quoted (names : List String) (hn : ∀ n ∈ names, quote ∉ n.data) :
    ∀ acc : List Char,
      read_in_list_from (.quoted acc)
          (names.flatMap (fun n => comma :: quote :: (n.data ++ [quote]))) =
        some (String.mk acc.reverse :: names) := by
  induction names with
  | nil => intro acc; rfl
  | cons n ns ih =>
    intro acc
    have h1 : comma ≠ quote := by decide
    simp only [List.flatMap_cons, List.cons_append, List.append_assoc, List.singleton_append]
    rw [read_in_list_from, if_neg h1, if_pos rfl]
    rw [read_in_list_from, if_pos rfl]
    rw [read_in_list_inside n.data (hn n (List.mem_cons_self _ _))]
    simp only [List.nil_append, List.append_nil]
    rw [ih (fun m hm => hn m (List.mem_cons_of_mem _ hm))]
    simp

theorem foldl_comma_data (l : List String) :
    ∀ acc : String,
      (l.foldl (fun r a => r ++ "," ++ a) acc).data =
        acc.data ++ l.flatMap (fun a => comma :: a.data) := by
  induction l with
  | nil => intro acc; simp
  | cons a as ih =>
    intro acc
    simp only [List.foldl_cons, List.flatMap_cons]
    rw [ih]
    simp only [String.data_append, List.append_assoc]
    rfl

/-- When no enabled provider name holds a single quote, the engine reads the
provider list as the list of `none` and the enabled names. -/
theorem read_in_list_members (env : Env) (q : GlyrQuery)
    (hn : ∀ n ∈ enabled_providers env q, quote ∉ n.data) :
    read_in_list (convert_from_option_to_sql env q) = some (from_argument_members env q) := by
  have htext : (convert_from_option_to_sql env q).data =
      quote :: ("none".data ++ quote ::
        (enabled_providers env q).flatMap (fun n => comma :: quote :: (n.data ++ [quote]))) := by
    rw [convert_from_option_to_sql_eq]
    simp only [List.map_cons, String.intercalate]
    rw [intercalate_go_eq_foldl, foldl_comma_data]
    simp only [String.data_append, List.flatMap_map]
    rfl
  unfold read_in_list
  rw [htext, read_in_list_from, if_pos rfl,
    read_in_list_inside "none".data (by decide), read_in_list_quoted _ hn]
  rfl

/-- The provider list of the example with a quote in a registry name is not a list of
string literals: the select of the lookup and that of the delete do not parse,
the lookup returns nothing and the delete removes nothing and returns 0. -/
theorem quote_in_provider_name_fails :
    read_in_list (convert_from_option_to_sql demoEnvQuote (demo_query 3)) = none ∧
      (provider_in_list demoEnvQuote
        (convert_from_option_to_sql demoEnvQuote (demo_query 3))).isNone = true ∧
      glyr_db_lookup demoEnvQuote demo_three_rows (demo_query 3) = [] ∧
      glyr_db_delete demoEnvQuote demo_three_rows (demo_query 3) = (demo_three_rows, 0) ∧
      read_in_list "'none','x','lyricswiki'" = some ["none", "x", "lyricswiki"] ∧
      read_in_list "'none', 'it''s'" = some ["none", "it's"] := by
  decide

/-- A registry name that closes its literal and opens another one is read as
two literals: with the only registry entry named `x','lyricswiki` the list is
`'none','x','lyricswiki'`, and the delete removes the row of provider
`lyricswiki`. -/
theorem split_provider_name_is_two_literals :
    convert_from_option_to_sql demoEnvSplit (demo_query 3) = "'none','x','lyricswiki'" ∧
      read_in_list (convert_from_option_to_sql demoEnvSplit (demo_query 3)) =
        some ["none", "x", "lyricswiki"] ∧
      from_argument_members demoEnvSplit (demo_query 3) = ["none", "x','lyricswiki"] ∧
      (glyr_db_delete demoEnvSplit demo_one_row (demo_query 3)).1.metadata = [] ∧
      (glyr_db_lookup demoEnvSplit demo_one_row (demo_query 3)).length = 1 := by
  decide

end Glyr
